import Mathlib

/-!
# telebot: request/response operations of the Telegram client binding

Shallow embedding of `delete_webhook.go`, `get_updates.go`, `get_webhook_info.go`,
`set_webhook.go`, `send_request.go` and of the schema records they decode, together with
the parts of the Go runtime they call (`encoding/json`, `mime/multipart`, `net/http`).

Modelling conventions
* a Go `string` is a Lean `String` (valid UTF-8 only), a byte buffer is the `String` of its
  contents, its length is `String.utf8ByteSize`;
* a Go pointer `*T` is `Option T` (`none` is `nil`), a Go slice `[]T` is `Option (List T)`
  (`none` is the `nil` slice, `some []` the empty non-nil slice);
* a Go `error` is a `GoError`, a fallible call returns `Except GoError _`;
* Go `int` is `Int` restricted to `intBits` bits, `int64` is `Int` restricted to 64 bits;
* `encoding/json` is the one of Go 1.22 and later (`\b` and `\f` are written as such); the
  texts of its syntax errors are abridged (no offending character, no offset).
-/

namespace Telebot

set_option maxRecDepth 100000

/-! ## Errors -/

/-- Go error values. `new msg` is an error made without a cause (`errors.New`, `fmt.Errorf`
without `%w`); `wrap pre cause` is `fmt.Errorf(pre + "%w", cause)`; `unmarshalType` is a
`*json.UnmarshalTypeError` with its fields `Value`, `Type`, `Struct` and `Field`. -/
inductive GoError where
  | new (msg : String)
  | wrap (pre : String) (cause : GoError)
  | unmarshalType (value goType structName field : String)
deriving DecidableEq, Repr

/-- The text of `err.Error()`. An `UnmarshalTypeError` names the struct field when the
decoder met the value inside a struct. -/
def GoError.Error : GoError → String
  | .new msg => msg
  | .wrap pre cause => pre ++ cause.Error
  | .unmarshalType value goType structName field =>
    if structName ≠ "" ∨ field ≠ "" then
      "json: cannot unmarshal " ++ value ++ " into Go struct field " ++ structName ++ "."
        ++ field ++ " of type " ++ goType
    else "json: cannot unmarshal " ++ value ++ " into Go value of type " ++ goType

/-- The value of `errors.Unwrap(err)`. -/
def GoError.Unwrap : GoError → Option GoError
  | .new _ => none
  | .wrap _ cause => some cause
  | .unmarshalType _ _ _ _ => none

/-- What the decoder adds to an `UnmarshalTypeError` raised while it stores the field
`field` of the struct named `structName` (`addErrorContext`): the name of the innermost
struct, and the path of field names from the outermost struct to the value. -/
def GoError.inField (structName field : String) : GoError → GoError
  | .unmarshalType value goType s f =>
    if s = "" ∧ f = "" then .unmarshalType value goType structName field
    else .unmarshalType value goType s (field ++ "." ++ f)
  | e => e

deriving instance DecidableEq for Except

/-- Substring test on Go strings (`strings.Contains(s, sub)`), as a proposition. -/
def Contains (s sub : String) : Prop := sub.data <:+: s.data

instance (s sub : String) : Decidable (Contains s sub) := by
  unfold Contains; infer_instance

/-! ## JSON values and the `encoding/json` scanner -/

/-- A JSON value as the decoder sees it. A number literal without fraction and exponent is
`int`; any other number literal is kept as its text in `float`. Object members keep their
order and their duplicates. -/
inductive JSON where
  | null
  | bool (b : Bool)
  | int (n : Int)
  | float (lit : String)
  | str (s : String)
  | arr (xs : List JSON)
  | obj (kvs : List (String × JSON))

/-- The error `io.EOF`. -/
def ioEOF : GoError := .new "EOF"

/-- The error `io.ErrUnexpectedEOF`. -/
def ioErrUnexpectedEOF : GoError := .new "unexpected EOF"

/-- A `*json.SyntaxError`: `what` is the context the scanner gives (`looking for beginning
of value`, `after array element`, ...); the offending character, which the message of Go
quotes before the context, is not kept. -/
def syntaxError (what : String) : GoError := .new ("invalid character " ++ what)

/-- A `*json.UnmarshalTypeError` as the decoder makes it: JSON value of kind `value` met for
the Go type `goType`; the struct and the field are filled in by `GoError.inField`. -/
def unmarshalTypeError (value goType : String) : GoError :=
  .unmarshalType value goType "" ""

/-- White space between JSON tokens. -/
def isSpace (c : Char) : Bool := c == ' ' || c == '\t' || c == '\r' || c == '\n'

/-- Drops leading white space. -/
def skipSpace : List Char → List Char
  | [] => []
  | c :: cs => if isSpace c then skipSpace cs else c :: cs

/-- A decimal digit. -/
def isDigit (c : Char) : Bool := '0'.toNat ≤ c.toNat && c.toNat ≤ '9'.toNat

/-- The value of a decimal digit. -/
def digitVal (c : Char) : Nat := c.toNat - '0'.toNat

/-- The value of a hexadecimal digit. -/
def hexVal (c : Char) : Option Nat :=
  if '0'.toNat ≤ c.toNat ∧ c.toNat ≤ '9'.toNat then some (c.toNat - '0'.toNat)
  else if 'a'.toNat ≤ c.toNat ∧ c.toNat ≤ 'f'.toNat then some (c.toNat - 'a'.toNat + 10)
  else if 'A'.toNat ≤ c.toNat ∧ c.toNat ≤ 'F'.toNat then some (c.toNat - 'A'.toNat + 10)
  else none

/-- Reads the four hex digits of a `\uXXXX` escape. -/
def hex4 : List Char → Option (Nat × List Char)
  | a :: b :: c :: d :: rest =>
    match hexVal a, hexVal b, hexVal c, hexVal d with
    | some x, some y, some z, some w => some (((x * 16 + y) * 16 + z) * 16 + w, rest)
    | _, _, _, _ => none
  | _ => none

/-- The replacement character U+FFFD. -/
def runeError : Char := Char.ofNat 0xFFFD

/-- The rune of a `\uXXXX` escape, or of a surrogate pair of two such escapes
(`getu4` and `utf16.DecodeRune` in `unquote`); a lone surrogate gives U+FFFD. -/
def unquoteRune (u : Nat) (rest : List Char) : Char × List Char :=
  if 0xD800 ≤ u ∧ u < 0xDC00 then
    match rest with
    | '\\' :: 'u' :: rest2 =>
      match hex4 rest2 with
      | some (v, rest3) =>
        if 0xDC00 ≤ v ∧ v < 0xE000 then
          (Char.ofNat ((u - 0xD800) * 0x400 + (v - 0xDC00) + 0x10000), rest3)
        else (runeError, rest)
      | none => (runeError, rest)
    | _ => (runeError, rest)
  else if 0xDC00 ≤ u ∧ u < 0xE000 then (runeError, rest)
  else (Char.ofNat u, rest)

/-- The character a one-letter escape stands for. -/
def escapeChar (c : Char) : Option Char :=
  if c == '"' then some '"'
  else if c == '\\' then some '\\'
  else if c == '/' then some '/'
  else if c == 'b' then some (Char.ofNat 8)
  else if c == 'f' then some (Char.ofNat 12)
  else if c == 'n' then some '\n'
  else if c == 'r' then some '\r'
  else if c == 't' then some '\t'
  else none

/-- Scans a string literal after its opening quote and returns its unquoted value and the
input after the closing quote. The fuel bounds the number of characters read. -/
def scanString : Nat → List Char → List Char → Except GoError (String × List Char)
  | 0, _, _ => .error ioErrUnexpectedEOF
  | _ + 1, [], _ => .error ioErrUnexpectedEOF
  | fuel + 1, c :: rest, acc =>
    if c == '"' then .ok (String.mk acc.reverse, rest)
    else if c == '\\' then
      match rest with
      | [] => .error ioErrUnexpectedEOF
      | e :: r =>
        if e == 'u' then
          match hex4 r with
          | some (u, r2) => scanString fuel (unquoteRune u r2).2 ((unquoteRune u r2).1 :: acc)
          | none =>
            if r.length < 4 then .error ioErrUnexpectedEOF
            else .error (syntaxError "in \\u hexadecimal character escape")
        else
          match escapeChar e with
          | some x => scanString fuel r (x :: acc)
          | none => .error (syntaxError "in string escape code")
    else if c.toNat < 0x20 then .error (syntaxError "in string literal")
    else scanString fuel rest (c :: acc)

/-- Reads a maximal run of decimal digits. -/
def takeDigits : List Char → List Char → List Char × List Char
  | [], acc => (acc.reverse, [])
  | c :: cs, acc => if isDigit c then takeDigits cs (c :: acc) else (acc.reverse, c :: cs)

/-- The number a run of decimal digits denotes. -/
def digitsVal (ds : List Char) : Nat := ds.foldl (fun n c => n * 10 + digitVal c) 0

/-- The integer part of a number literal: a single `0`, or a run of digits. -/
def scanIntPart (cs : List Char) : List Char × List Char :=
  match cs with
  | [] => ([], [])
  | c :: rest => if c == '0' then (['0'], rest) else takeDigits (c :: rest) []

/-- The optional fraction of a number literal: a point and at least one digit. -/
def scanFrac (cs : List Char) : Except GoError (List Char × List Char) :=
  match cs with
  | [] => .ok ([], [])
  | c :: r =>
    if c == '.' then
      match takeDigits r [] with
      | ([], []) => .error ioErrUnexpectedEOF
      | ([], _ :: _) => .error (syntaxError "after decimal point in numeric literal")
      | (f :: fs, r2) => .ok ('.' :: f :: fs, r2)
    else .ok ([], c :: r)

/-- The optional exponent of a number literal: `e` or `E`, an optional sign, and at least
one digit. -/
def scanExp (cs : List Char) : Except GoError (List Char × List Char) :=
  match cs with
  | [] => .ok ([], [])
  | e :: r =>
    if e == 'e' ∨ e == 'E' then
      let sg : List Char × List Char :=
        match r with
        | [] => ([], [])
        | s :: r1 => if s == '+' ∨ s == '-' then ([s], r1) else ([], s :: r1)
      match takeDigits sg.2 [] with
      | ([], []) => .error ioErrUnexpectedEOF
      | ([], _ :: _) => .error (syntaxError "in exponent of numeric literal")
      | (x :: xs, r2) => .ok (e :: sg.1 ++ x :: xs, r2)
    else .ok ([], e :: r)

/-- Scans a number literal whose sign (if any) has been read. A literal without fraction
and exponent is an `int`, any other literal a `float`. -/
def scanNumber (neg : Bool) (cs : List Char) : Except GoError (JSON × List Char) :=
  match scanIntPart cs with
  | ([], []) => .error ioErrUnexpectedEOF
  | ([], _ :: _) => .error (syntaxError "in numeric literal")
  | (d :: ds, rest) =>
    match scanFrac rest with
    | .error e => .error e
    | .ok (frac, rest2) =>
      match scanExp rest2 with
      | .error e => .error e
      | .ok (ex, rest3) =>
        if frac = [] ∧ ex = [] then
          .ok (.int (if neg then -(digitsVal (d :: ds) : Int) else (digitsVal (d :: ds) : Int)),
            rest3)
        else
          .ok (.float ((if neg then "-" else "") ++ String.mk (d :: ds ++ frac ++ ex)), rest3)

/-- The deepest nesting of arrays and objects the scanner accepts. -/
def maxNestingDepth : Nat := 10000

/-- Scans the rest of a literal `true`, `false` or `null` after its first letter. -/
def scanLiteral (v : JSON) (tail : List Char) (cs : List Char) :
    Except GoError (JSON × List Char) :=
  if tail.isPrefixOf cs then .ok (v, cs.drop tail.length)
  else if cs.length < tail.length ∧ cs.isPrefixOf tail then .error ioErrUnexpectedEOF
  else .error (syntaxError "in literal")

mutual
/-- Scans one JSON value after optional white space and returns it with the rest of the
input; `depth` counts the arrays and objects around it. The fuel bounds the number of
nested calls; `scan_fuel` shows that twice the length of the input is enough. -/
def scanValue : Nat → Nat → List Char → Except GoError (JSON × List Char)
  | 0, _, _ => .error ioErrUnexpectedEOF
  | fuel + 1, depth, cs =>
    match skipSpace cs with
    | [] => .error ioErrUnexpectedEOF
    | c :: rest =>
      if c == '{' then
        if maxNestingDepth ≤ depth then .error (syntaxError "exceeded max depth")
        else
          match skipSpace rest with
          | [] => .error ioErrUnexpectedEOF
          | d :: rest2 =>
            if d == '}' then .ok (.obj [], rest2)
            else scanMembers fuel (depth + 1) (d :: rest2) []
      else if c == '[' then
        if maxNestingDepth ≤ depth then .error (syntaxError "exceeded max depth")
        else
          match skipSpace rest with
          | [] => .error ioErrUnexpectedEOF
          | d :: rest2 =>
            if d == ']' then .ok (.arr [], rest2)
            else scanElements fuel (depth + 1) (d :: rest2) []
      else if c == '"' then
        match scanString rest.length.succ rest [] with
        | .ok (s, rest2) => .ok (.str s, rest2)
        | .error e => .error e
      else if c == 't' then scanLiteral (.bool true) ['r', 'u', 'e'] rest
      else if c == 'f' then scanLiteral (.bool false) ['a', 'l', 's', 'e'] rest
      else if c == 'n' then scanLiteral .null ['u', 'l', 'l'] rest
      else if c == '-' then scanNumber true rest
      else if isDigit c then scanNumber false (c :: rest)
      else .error (syntaxError "looking for beginning of value")
/-- Scans the members of an object from the first key on, up to the closing brace. -/
def scanMembers : Nat → Nat → List Char → List (String × JSON) →
    Except GoError (JSON × List Char)
  | 0, _, _, _ => .error ioErrUnexpectedEOF
  | fuel + 1, depth, cs, acc =>
    match skipSpace cs with
    | [] => .error ioErrUnexpectedEOF
    | q :: rest =>
      if q == '"' then
        match scanString rest.length.succ rest [] with
        | .error e => .error e
        | .ok (key, rest2) =>
          match skipSpace rest2 with
          | [] => .error ioErrUnexpectedEOF
          | c :: rest3 =>
            if c == ':' then
              match scanValue fuel depth rest3 with
              | .error e => .error e
              | .ok (v, rest4) =>
                match skipSpace rest4 with
                | [] => .error ioErrUnexpectedEOF
                | s :: rest5 =>
                  if s == ',' then scanMembers fuel depth rest5 ((key, v) :: acc)
                  else if s == '}' then .ok (.obj ((key, v) :: acc).reverse, rest5)
                  else .error (syntaxError "after object key:value pair")
            else .error (syntaxError "after object key")
      else .error (syntaxError "looking for beginning of object key string")
/-- Scans the elements of an array from the first element on, up to the closing bracket. -/
def scanElements : Nat → Nat → List Char → List JSON → Except GoError (JSON × List Char)
  | 0, _, _, _ => .error ioErrUnexpectedEOF
  | fuel + 1, depth, cs, acc =>
    match scanValue fuel depth cs with
    | .error e => .error e
    | .ok (v, rest) =>
      match skipSpace rest with
      | [] => .error ioErrUnexpectedEOF
      | s :: rest2 =>
        if s == ',' then scanElements fuel depth rest2 (v :: acc)
        else if s == ']' then .ok (.arr (v :: acc).reverse, rest2)
        else .error (syntaxError "after array element")
end

/-- The value that `json.NewDecoder(body).Decode` reads: the first JSON value of the stream.
An empty stream (white space only) is `io.EOF`; what follows the first value is not read. -/
def readValue (body : String) : Except GoError JSON :=
  match skipSpace body.data with
  | [] => .error ioEOF
  | cs =>
    match scanValue (2 * cs.length + 1) 0 cs with
    | .ok (v, _) => .ok v
    | .error e => .error e

/-! ## Decoding JSON values into Go values (`encoding/json`, `decodeState`) -/

/-- The name `encoding/json` gives a JSON value in an `UnmarshalTypeError`. -/
def JSON.kind : JSON → String
  | .null => "null"
  | .bool _ => "bool"
  | .int _ => "number"
  | .float _ => "number"
  | .str _ => "string"
  | .arr _ => "array"
  | .obj _ => "object"

/-- Whether `n` fits a signed integer of `bits` bits. -/
def fitsInt (bits : Nat) (n : Int) : Bool :=
  decide (-(2 : Int) ^ (bits - 1) ≤ n) && decide (n < (2 : Int) ^ (bits - 1))

/-- Decodes into a signed integer of `bits` bits: `null` leaves the value as it is, an
integer literal in range is stored, anything else is an `UnmarshalTypeError`, which quotes
the literal of a number that is out of range or not an integer. -/
def decodeInt (bits : Nat) (goType : String) (cur : Int) : JSON → Except GoError Int
  | .null => .ok cur
  | .int n =>
    if fitsInt bits n then .ok n
    else .error (unmarshalTypeError ("number " ++ toString n) goType)
  | .float lit => .error (unmarshalTypeError ("number " ++ lit) goType)
  | j => .error (unmarshalTypeError j.kind goType)

/-- Decodes into a Go `bool`. -/
def decodeBool (cur : Bool) : JSON → Except GoError Bool
  | .null => .ok cur
  | .bool b => .ok b
  | j => .error (unmarshalTypeError j.kind "bool")

/-- Decodes into a Go `string`. -/
def decodeString (cur : String) : JSON → Except GoError String
  | .null => .ok cur
  | .str s => .ok s
  | j => .error (unmarshalTypeError j.kind "string")

/-- Decodes into a Go pointer `*T`: `null` sets it to `nil`; any other value is decoded
into the pointed-to value, allocated as the zero value when the pointer is `nil`. -/
def decodePtr {α : Type} (dec : α → JSON → Except GoError α) (zero : α) (cur : Option α) :
    JSON → Except GoError (Option α)
  | .null => .ok none
  | j =>
    match dec (cur.getD zero) j with
    | .ok v => .ok (some v)
    | .error e => .error e

/-- Decodes the elements of a JSON array, element `i` into the value the slice already
holds at `i` (the zero value beyond its length: what an earlier, longer array of a repeated
key left in the backing array beyond the length is not kept). -/
def decodeElems {α : Type} (dec : α → JSON → Except GoError α) (zero : α) :
    List α → List JSON → Except GoError (List α)
  | _, [] => .ok []
  | old, x :: xs =>
    match dec (old.headD zero) x with
    | .error e => .error e
    | .ok v =>
      match decodeElems dec zero old.tail xs with
      | .error e => .error e
      | .ok vs => .ok (v :: vs)

/-- Decodes into a Go slice `[]T`: `null` sets it to `nil`, an array gives a non-nil slice
with one element per array element, in order. -/
def decodeSlice {α : Type} (dec : α → JSON → Except GoError α) (zero : α) (goType : String)
    (cur : Option (List α)) : JSON → Except GoError (Option (List α))
  | .null => .ok none
  | .arr xs =>
    match decodeElems dec zero (cur.getD []) xs with
    | .ok vs => .ok (some vs)
    | .error e => .error e
  | j => .error (unmarshalTypeError j.kind goType)

/-- The case folding of one rune of an object key (`foldRune`): ASCII letters, and the two
runes outside ASCII that fold to an ASCII letter, the Kelvin sign and the long s. -/
def foldRune (c : Char) : Char :=
  if 'a'.toNat ≤ c.toNat ∧ c.toNat ≤ 'z'.toNat then Char.ofNat (c.toNat - 32)
  else if c.toNat = 0x212A then 'K'
  else if c.toNat = 0x17F then 'S'
  else c

/-- The folded form of an object key (`foldName`). -/
def foldName (s : String) : String := String.mk (s.data.map foldRune)

/-- The struct field that receives an object key: the field whose JSON name is the key
exactly, else the first field whose name equals the key under case folding. -/
def findField (names : List String) (key : String) : Option String :=
  match names.find? (fun n => n == key) with
  | some n => some n
  | none => names.find? (fun n => foldName n == foldName key)

/-- Decodes into a Go struct: `null` leaves it as it is; the members of an object are
stored one after the other, in the order of the text, by `setField` (which ignores a key
that no field declares); any other value is an `UnmarshalTypeError`. -/
def decodeStruct {σ : Type} (goType : String)
    (setField : σ → String → JSON → Except GoError σ) (cur : σ) : JSON → Except GoError σ
  | .null => .ok cur
  | .obj kvs => kvs.foldlM (fun s kv => setField s kv.1 kv.2) cur
  | j => .error (unmarshalTypeError j.kind goType)

/-- Stores a decoded field of a struct: the value goes into the struct by `store`; an
`UnmarshalTypeError` gets the name of the struct and of the field (`addErrorContext`). -/
def storeField {α σ : Type} (structName field : String) (decoded : Except GoError α)
    (store : α → σ) : Except GoError σ :=
  match decoded with
  | .ok x => .ok (store x)
  | .error e => .error (e.inField structName field)

/-- What the model needs of a Go type declared outside the sources read here: its zero
value and how `encoding/json` decodes into it and encodes it. -/
structure Codec (α : Type) where
  zero : α
  decode : α → JSON → Except GoError α
  encode : α → String

/-! ## Schema records -/

/-- The record `WebhookInfo` of `get_webhook_info.go`. -/
structure WebhookInfo where
  URL : String
  HasCustomCertificate : Bool
  PendingUpdateCount : Int
  IPAddress : String
  LastErrorDate : Int
  LastErrorMessage : String
  LastSynchronizationErrorDate : Int
  MaxConnections : Int
  AllowedUpdates : Option (List String)
deriving DecidableEq, Repr

/-- The zero value `WebhookInfo{}`. -/
def WebhookInfo.zero : WebhookInfo :=
  { URL := "", HasCustomCertificate := false, PendingUpdateCount := 0, IPAddress := "",
    LastErrorDate := 0, LastErrorMessage := "", LastSynchronizationErrorDate := 0,
    MaxConnections := 0, AllowedUpdates := none }

def WebhookInfo.fieldNames : List String :=
  ["url", "has_custom_certificate", "pending_update_count", "ip_address", "last_error_date",
   "last_error_message", "last_synchronization_error_date", "max_connections",
   "allowed_updates"]

/-- Stores one object member into a `WebhookInfo`, by the JSON tags of its fields. -/
def WebhookInfo.setField (intBits : Nat) (w : WebhookInfo) (key : String) (v : JSON) :
    Except GoError WebhookInfo :=
  match findField WebhookInfo.fieldNames key with
  | some "url" =>
    storeField "WebhookInfo" "url" (decodeString w.URL v) (fun x => { w with URL := x })
  | some "has_custom_certificate" =>
    storeField "WebhookInfo" "has_custom_certificate" (decodeBool w.HasCustomCertificate v)
      (fun x => { w with HasCustomCertificate := x })
  | some "pending_update_count" =>
    storeField "WebhookInfo" "pending_update_count"
      (decodeInt intBits "int" w.PendingUpdateCount v)
      (fun x => { w with PendingUpdateCount := x })
  | some "ip_address" =>
    storeField "WebhookInfo" "ip_address" (decodeString w.IPAddress v)
      (fun x => { w with IPAddress := x })
  | some "last_error_date" =>
    storeField "WebhookInfo" "last_error_date" (decodeInt intBits "int" w.LastErrorDate v)
      (fun x => { w with LastErrorDate := x })
  | some "last_error_message" =>
    storeField "WebhookInfo" "last_error_message" (decodeString w.LastErrorMessage v)
      (fun x => { w with LastErrorMessage := x })
  | some "last_synchronization_error_date" =>
    storeField "WebhookInfo" "last_synchronization_error_date"
      (decodeInt intBits "int" w.LastSynchronizationErrorDate v)
      (fun x => { w with LastSynchronizationErrorDate := x })
  | some "max_connections" =>
    storeField "WebhookInfo" "max_connections" (decodeInt intBits "int" w.MaxConnections v)
      (fun x => { w with MaxConnections := x })
  | some "allowed_updates" =>
    storeField "WebhookInfo" "allowed_updates"
      (decodeSlice decodeString "" "[]string" w.AllowedUpdates v)
      (fun x => { w with AllowedUpdates := x })
  | _ => .ok w

/-- Decoding of a JSON value into a `WebhookInfo`. -/
def WebhookInfo.decode (intBits : Nat) : WebhookInfo → JSON → Except GoError WebhookInfo :=
  decodeStruct "telegram.WebhookInfo" (WebhookInfo.setField intBits)

/-- The record `Voice` of `voice.go`. -/
structure Voice where
  FileID : String
  FileUniqueID : String
  Duration : Int
  MimeType : Option String
  FileSize : Option Int
deriving DecidableEq, Repr

/-- The zero value `Voice{}`. -/
def Voice.zero : Voice :=
  { FileID := "", FileUniqueID := "", Duration := 0, MimeType := none, FileSize := none }

def Voice.fieldNames : List String :=
  ["file_id", "file_unique_id", "duration", "mime_type", "file_size"]

/-- Stores one object member into a `Voice`. `FileSize` is declared `*int`. -/
def Voice.setField (intBits : Nat) (w : Voice) (key : String) (v : JSON) :
    Except GoError Voice :=
  match findField Voice.fieldNames key with
  | some "file_id" =>
    storeField "Voice" "file_id" (decodeString w.FileID v) (fun x => { w with FileID := x })
  | some "file_unique_id" =>
    storeField "Voice" "file_unique_id" (decodeString w.FileUniqueID v)
      (fun x => { w with FileUniqueID := x })
  | some "duration" =>
    storeField "Voice" "duration" (decodeInt intBits "int" w.Duration v)
      (fun x => { w with Duration := x })
  | some "mime_type" =>
    storeField "Voice" "mime_type" (decodePtr decodeString "" w.MimeType v)
      (fun x => { w with MimeType := x })
  | some "file_size" =>
    storeField "Voice" "file_size" (decodePtr (decodeInt intBits "int") 0 w.FileSize v)
      (fun x => { w with FileSize := x })
  | _ => .ok w

/-- Decoding of a JSON value into a `Voice`. -/
def Voice.decode (intBits : Nat) : Voice → JSON → Except GoError Voice :=
  decodeStruct "telegram.Voice" (Voice.setField intBits)

/-- The record `SharedUser` of `shared_user.go`; `PhotoSize` is declared outside the
sources read here. -/
structure SharedUser (PhotoSize : Type) where
  UserID : Int
  FirstName : Option String
  LastName : Option String
  Username : Option String
  Photo : Option (Option (List PhotoSize))
deriving DecidableEq, Repr

/-- The zero value `SharedUser{}`. -/
def SharedUser.zero {PhotoSize : Type} : SharedUser PhotoSize :=
  { UserID := 0, FirstName := none, LastName := none, Username := none, Photo := none }

def SharedUser.fieldNames : List String :=
  ["user_id", "first_name", "last_name", "username", "photo"]

/-- Stores one object member into a `SharedUser`. `UserID` is declared `int64`. -/
def SharedUser.setField {PhotoSize : Type} (photoSize : Codec PhotoSize)
    (w : SharedUser PhotoSize) (key : String) (v : JSON) :
    Except GoError (SharedUser PhotoSize) :=
  match findField SharedUser.fieldNames key with
  | some "user_id" =>
    storeField "SharedUser" "user_id" (decodeInt 64 "int64" w.UserID v)
      (fun x => { w with UserID := x })
  | some "first_name" =>
    storeField "SharedUser" "first_name" (decodePtr decodeString "" w.FirstName v)
      (fun x => { w with FirstName := x })
  | some "last_name" =>
    storeField "SharedUser" "last_name" (decodePtr decodeString "" w.LastName v)
      (fun x => { w with LastName := x })
  | some "username" =>
    storeField "SharedUser" "username" (decodePtr decodeString "" w.Username v)
      (fun x => { w with Username := x })
  | some "photo" =>
    storeField "SharedUser" "photo"
      (decodePtr (decodeSlice photoSize.decode photoSize.zero "[]telegram.PhotoSize") none
        w.Photo v)
      (fun x => { w with Photo := x })
  | _ => .ok w

/-- Decoding of a JSON value into a `SharedUser`. -/
def SharedUser.decode {PhotoSize : Type} (photoSize : Codec PhotoSize) :
    SharedUser PhotoSize → JSON → Except GoError (SharedUser PhotoSize) :=
  decodeStruct "telegram.SharedUser" (SharedUser.setField photoSize)

/-! ## Encoding Go values as JSON text (`encoding/json`, `encodeState`) -/

def hexDigit (n : Nat) : Char := "0123456789abcdef".data.getD n '0'

/-- The text `encodeState` writes for one rune of a string, with HTML escaping on (the
default of `json.Marshal` and of `json.Encoder`). -/
def escapeRune (c : Char) : List Char :=
  if c == '"' then ['\\', '"']
  else if c == '\\' then ['\\', '\\']
  else if c.toNat == 8 then ['\\', 'b']
  else if c.toNat == 12 then ['\\', 'f']
  else if c == '\n' then ['\\', 'n']
  else if c == '\r' then ['\\', 'r']
  else if c == '\t' then ['\\', 't']
  else if c.toNat < 0x20 ∨ c == '<' ∨ c == '>' ∨ c == '&' then
    ['\\', 'u', '0', '0', hexDigit (c.toNat / 16), hexDigit (c.toNat % 16)]
  else if c.toNat == 0x2028 then ['\\', 'u', '2', '0', '2', '8']
  else if c.toNat == 0x2029 then ['\\', 'u', '2', '0', '2', '9']
  else [c]

/-- JSON text of a Go `string`. -/
def encodeString (s : String) : String :=
  "\"" ++ String.mk (s.data.map escapeRune).flatten ++ "\""

/-- JSON text of a Go integer (`strconv.AppendInt`, base 10). -/
def encodeInt (n : Int) : String := toString n

/-- JSON text of a Go `bool`. -/
def encodeBool (b : Bool) : String := if b then "true" else "false"

/-- JSON text of a Go slice: `null` for the `nil` slice, else the array of its elements. -/
def encodeSlice {α : Type} (enc : α → String) : Option (List α) → String
  | none => "null"
  | some xs => "[" ++ ",".intercalate (xs.map enc) ++ "]"

/-- JSON text of a struct from the members it writes, each a JSON name and the text of
the value, in the order of the field declarations. -/
def encodeObject (members : List (String × String)) : String :=
  "\x7b" ++ ",".intercalate (members.map (fun m => encodeString m.1 ++ ":" ++ m.2)) ++ "\x7d"

/-- The member a pointer field tagged `omitempty` writes: none for `nil`. -/
def omitemptyPtr {α : Type} (name : String) (enc : α → String) : Option α →
    List (String × String)
  | none => []
  | some v => [(name, enc v)]

/-- The member a slice field tagged `omitempty` writes: none when its length is 0. -/
def omitemptySlice {α : Type} (name : String) (enc : α → String) : Option (List α) →
    List (String × String)
  | none => []
  | some [] => []
  | some (x :: xs) => [(name, encodeSlice enc (some (x :: xs)))]

/-- The member a `bool` field tagged `omitempty` writes: none for `false`. -/
def omitemptyBool (name : String) (b : Bool) : List (String × String) :=
  if b then [(name, encodeBool b)] else []

/-- What `json.NewEncoder(buf).Encode(v)` appends to the buffer for a struct with the given
members: the JSON text followed by a newline. These structs hold only integers, booleans
and strings, for which the encoder returns no error. -/
def encoderEncode (members : List (String × String)) : Except GoError String :=
  .ok (encodeObject members ++ "\n")

/-- JSON members of a `Voice` (`json.Marshal`). -/
def Voice.members (v : Voice) : List (String × String) :=
  [("file_id", encodeString v.FileID), ("file_unique_id", encodeString v.FileUniqueID),
   ("duration", encodeInt v.Duration)]
  ++ omitemptyPtr "mime_type" encodeString v.MimeType
  ++ omitemptyPtr "file_size" encodeInt v.FileSize

/-- JSON text of a `Voice`. -/
def Voice.encode (v : Voice) : String := encodeObject v.members

/-- JSON members of a `SharedUser` (`json.Marshal`). -/
def SharedUser.members {PhotoSize : Type} (photoSize : Codec PhotoSize)
    (u : SharedUser PhotoSize) : List (String × String) :=
  [("user_id", encodeInt u.UserID)]
  ++ omitemptyPtr "first_name" encodeString u.FirstName
  ++ omitemptyPtr "last_name" encodeString u.LastName
  ++ omitemptyPtr "username" encodeString u.Username
  ++ omitemptyPtr "photo" (encodeSlice photoSize.encode) u.Photo

/-- JSON text of a `SharedUser`. -/
def SharedUser.encode {PhotoSize : Type} (photoSize : Codec PhotoSize)
    (u : SharedUser PhotoSize) : String := encodeObject (u.members photoSize)

/-! ## `net/http`, `os` and `mime/multipart` as the operations use them -/

/-- An `*http.Response`: status line text (`"200 OK"`), status code, and the bytes of the
body stream. -/
structure HTTPResponse where
  Status : String
  StatusCode : Int
  Body : String
deriving DecidableEq, Repr

/-- The constant `http.StatusOK`. -/
def StatusOK : Int := 200

/-- An `*http.Request` as the client receives it in `Do`. `ContentLength` is fixed by
`http.NewRequest` from the length the buffer has at that moment; `Body` is what the client
reads from the buffer when the request is sent (`none` for a `nil` body). -/
structure HTTPRequest where
  Method : String
  URL : String
  Header : List (String × String)
  ContentLength : Nat
  Body : Option String
deriving DecidableEq, Repr

/-- The call `Header.Set(key, value)`; the keys the operations use are in canonical form. -/
def HTTPRequest.setHeader (r : HTTPRequest) (key value : String) : HTTPRequest :=
  { r with Header := (key, value) :: r.Header.filter (fun kv => kv.1 != key) }

/-- The call `Header.Get(key)`. -/
def HTTPRequest.getHeader (r : HTTPRequest) (key : String) : Option String :=
  (r.Header.find? (fun kv => kv.1 == key)).map (fun kv => kv.2)

/-- An opened `*os.File`: the name given to `os.Open`, and what reading it to the end
gives. -/
structure File where
  Name : String
  contents : Except GoError String

/-- The surroundings of a call that the sources do not fix: the width of `int`, the host of
the endpoint, which method and URL `http.NewRequest` rejects, the file system, and the
boundary `multipart.NewWriter` draws at random. -/
structure Runtime where
  intBits : Nat
  host : String
  requestError : String → String → Option GoError
  readFile : String → Except GoError (Except GoError String)
  boundary : String

/-- The call `os.Open(path)`. -/
def Runtime.Open (rt : Runtime) (path : String) : Except GoError File :=
  match rt.readFile path with
  | .error e => .error e
  | .ok c => .ok { Name := path, contents := c }

/-- The record `Bot`, as far as the operations read it: the token and the HTTP client
(`client.Do`). -/
structure Bot where
  Token : String
  client : HTTPRequest → Except GoError HTTPResponse

/-- Modelled from the spec: the constant `telegramEndpoint` is not among the sources; the
spec gives the URL shape `https://<host>/bot<token>/<operation>`. This is
`fmt.Sprintf(telegramEndpoint, token, method)`. -/
def telegramEndpoint (host token method : String) : String :=
  "https://" ++ host ++ "/bot" ++ token ++ "/" ++ method

/-- The method of the request `http.NewRequest` builds: the empty method stands for `GET`. -/
def requestMethod (method : String) : String := if method = "" then "GET" else method

/-- The call `http.NewRequest(method, url, body)` for a body that is `nil` or a
`*bytes.Buffer` holding `body`. The empty method is replaced by `GET` before the method
and the URL are checked. -/
def NewRequest (rt : Runtime) (method url : String) (body : Option String) :
    Except GoError HTTPRequest :=
  match rt.requestError (requestMethod method) url with
  | some e => .error e
  | none =>
    .ok { Method := requestMethod method, URL := url, Header := [],
          ContentLength := (body.map String.utf8ByteSize).getD 0, Body := body }

/-- What one call of an operation did: the requests it handed to `client.Do`, in order, and
what it returned. -/
structure Outcome (α : Type) where
  sent : List HTTPRequest
  result : Except GoError α

/-- One part of a multipart form: a form field (`WriteField`) has no file name, a file part
(`CreateFormFile`) has one. -/
structure Part where
  name : String
  filename : Option String
  body : String
deriving DecidableEq, Repr

/-- A `*multipart.Writer` together with the buffer it writes to: the parts written so far,
in order, and whether `Close` has written the closing boundary. -/
structure Writer where
  boundary : String
  parts : List Part
  closed : Bool
deriving DecidableEq, Repr

/-- The call `multipart.NewWriter(buf)` on an empty buffer. -/
def NewWriter (rt : Runtime) : Writer := { boundary := rt.boundary, parts := [], closed := false }

/-- The call `w.WriteField(name, value)`. -/
def Writer.WriteField (w : Writer) (name value : String) : Writer :=
  { w with parts := w.parts ++ [{ name := name, filename := none, body := value }] }

/-- The call `w.CreateFormFile(name, filename)` followed by `io.Copy` of `contents` into
the part. -/
def Writer.WriteFile (w : Writer) (name filename contents : String) : Writer :=
  { w with parts := w.parts ++ [{ name := name, filename := some filename, body := contents }] }

/-- The call `w.Close()`. -/
def Writer.Close (w : Writer) : Writer := { w with closed := true }

/-- The function `escapeQuotes` of `mime/multipart`: a backslash and a double quote get a
backslash before them, a carriage return and a line feed are written `%0D` and `%0A`. -/
def escapeQuotes (s : String) : String :=
  String.mk (s.data.map (fun c =>
    if c == '\\' then ['\\', '\\']
    else if c == '"' then ['\\', '"']
    else if c == '\r' then ['%', '0', 'D']
    else if c == '\n' then ['%', '0', 'A']
    else [c])).flatten

/-- The header lines of a part, keys in sorted order, then the empty line. -/
def Part.header (p : Part) : String :=
  match p.filename with
  | none =>
    "Content-Disposition: form-data; name=\"" ++ escapeQuotes p.name ++ "\"\r\n\r\n"
  | some f =>
    "Content-Disposition: form-data; name=\"" ++ escapeQuotes p.name ++ "\"; filename=\""
      ++ escapeQuotes f ++ "\"\r\nContent-Type: application/octet-stream\r\n\r\n"

/-- The bytes of the parts: the first part starts with the boundary line, each later one
with a line break and the boundary line. -/
def partsBytes (boundary : String) : Bool → List Part → String
  | _, [] => ""
  | first, p :: ps =>
    (if first then "" else "\r\n") ++ "--" ++ boundary ++ "\r\n" ++ p.header ++ p.body
      ++ partsBytes boundary false ps

/-- The bytes the buffer behind the writer holds. -/
def Writer.bytes (w : Writer) : String :=
  partsBytes w.boundary true w.parts
    ++ (if w.closed then "\r\n--" ++ w.boundary ++ "--\r\n" else "")

/-- The call `w.FormDataContentType()`. -/
def Writer.FormDataContentType (w : Writer) : String :=
  let b := if w.boundary.data.any (fun c => "()<>@,;:\\\"/[]?= ".data.contains c)
    then "\"" ++ w.boundary ++ "\"" else w.boundary
  "multipart/form-data; boundary=" ++ b

/-! ## Response envelope -/

/-- Modelled from the spec: the type `ResponseParameters` is not among the sources; the
spec gives the envelope member `parameters` the keys `retry_after` (int) and
`migrate_to_chat_id` (int64). -/
structure ResponseParameters where
  MigrateToChatID : Int
  RetryAfter : Int
deriving DecidableEq, Repr

def ResponseParameters.zero : ResponseParameters := { MigrateToChatID := 0, RetryAfter := 0 }

/-- Stores one object member into a `ResponseParameters`. -/
def ResponseParameters.setField (intBits : Nat) (p : ResponseParameters) (key : String)
    (v : JSON) : Except GoError ResponseParameters :=
  match findField ["migrate_to_chat_id", "retry_after"] key with
  | some "migrate_to_chat_id" =>
    storeField "ResponseParameters" "migrate_to_chat_id" (decodeInt 64 "int64" p.MigrateToChatID v)
      (fun x => { p with MigrateToChatID := x })
  | some "retry_after" =>
    storeField "ResponseParameters" "retry_after" (decodeInt intBits "int" p.RetryAfter v)
      (fun x => { p with RetryAfter := x })
  | _ => .ok p

def ResponseParameters.decode (intBits : Nat) :
    ResponseParameters → JSON → Except GoError ResponseParameters :=
  decodeStruct "telegram.ResponseParameters" (ResponseParameters.setField intBits)

/-- The response struct each operation declares: `Ok`, `Result` (of the type of the
operation), `Description`, `ErrorCode`, `Parameters`. -/
structure Envelope (ρ : Type) where
  Ok : Bool
  Result : ρ
  Description : String
  ErrorCode : Int
  Parameters : ResponseParameters
deriving DecidableEq, Repr

/-- The zero value of the response struct. -/
def Envelope.zero {ρ : Type} (zeroResult : ρ) : Envelope ρ :=
  { Ok := false, Result := zeroResult, Description := "", ErrorCode := 0,
    Parameters := ResponseParameters.zero }

def Envelope.fieldNames : List String :=
  ["ok", "result", "description", "error_code", "parameters"]

/-- Stores one object member into the response struct. `DeleteWebhook`, `getUpdates` and
`GetWebhookInfo` declare the struct without a name, so the struct name in an
`UnmarshalTypeError` is empty; for the named type `Response` of `SetWebhook` the message
of Go has the name, which is not kept here. -/
def Envelope.setField {ρ : Type} (intBits : Nat) (decResult : ρ → JSON → Except GoError ρ)
    (e : Envelope ρ) (key : String) (v : JSON) : Except GoError (Envelope ρ) :=
  match findField Envelope.fieldNames key with
  | some "ok" =>
    storeField "" "ok" (decodeBool e.Ok v) (fun x => { e with Ok := x })
  | some "result" =>
    storeField "" "result" (decResult e.Result v) (fun x => { e with Result := x })
  | some "description" =>
    storeField "" "description" (decodeString e.Description v)
      (fun x => { e with Description := x })
  | some "error_code" =>
    storeField "" "error_code" (decodeInt intBits "int" e.ErrorCode v)
      (fun x => { e with ErrorCode := x })
  | some "parameters" =>
    storeField "" "parameters" (ResponseParameters.decode intBits e.Parameters v)
      (fun x => { e with Parameters := x })
  | _ => .ok e

/-- The call `json.NewDecoder(r).Decode(&v)` on a zero value `v`: the first JSON value of
the stream is read and stored into `v`. -/
def decoderDecode {α : Type} (dec : α → JSON → Except GoError α) (zero : α) (body : String) :
    Except GoError α :=
  match readValue body with
  | .error e => .error e
  | .ok j => dec zero j

/-- The call `json.NewDecoder(httpResponse.Body).Decode(&response)` of the operations. The
type of the response struct, which Go writes out in the message of an `UnmarshalTypeError`
for a body that is not an object, is rendered as `struct`. -/
def decodeResponse {ρ : Type} (intBits : Nat) (decResult : ρ → JSON → Except GoError ρ)
    (zeroResult : ρ) (body : String) : Except GoError (Envelope ρ) :=
  decoderDecode (decodeStruct "struct" (Envelope.setField intBits decResult))
    (Envelope.zero zeroResult) body

/-! ## `send_request.go` -/

/-- The method `sendRequest` of `send_request.go`; `requestPayload` is `none` for a `nil`
payload, else the contents of the buffer. -/
def sendRequest (rt : Runtime) (b : Bot) (httpMethod contentTypeHeader telegramMethod : String)
    (requestPayload : Option String) : Outcome HTTPResponse :=
  let url := telegramEndpoint rt.host b.Token telegramMethod
  match NewRequest rt httpMethod url requestPayload with
  | .error err =>
    { sent := [],
      result := .error (.wrap ("error creating new " ++ httpMethod ++ " request to "
        ++ telegramMethod ++ ": ") err) }
  | .ok httpRequest =>
    let httpRequest := httpRequest.setHeader "Content-Type" contentTypeHeader
    match b.client httpRequest with
    | .error err =>
      { sent := [httpRequest],
        result := .error (.wrap ("error sending " ++ httpMethod ++ " request to "
          ++ telegramMethod ++ ": ") err) }
    | .ok httpResponse => { sent := [httpRequest], result := .ok httpResponse }

/-! ## `delete_webhook.go` -/

/-- The record `DeleteWebhookRequest`. -/
structure DeleteWebhookRequest where
  DropPendingUpdates : Bool
deriving DecidableEq, Repr

/-- JSON members of a `DeleteWebhookRequest` (`drop_pending_updates,omitempty`). -/
def DeleteWebhookRequest.members (r : DeleteWebhookRequest) : List (String × String) :=
  omitemptyBool "drop_pending_updates" r.DropPendingUpdates

/-- The body of the method `DeleteWebhook` of `delete_webhook.go`, with the call
`json.NewEncoder(requestPayload).Encode(request)` as the parameter `encode`. -/
def DeleteWebhook.withEncoder (encode : DeleteWebhookRequest → Except GoError String)
    (rt : Runtime) (b : Bot) (request : DeleteWebhookRequest) : Outcome Unit :=
  match encode request with
  | .error err => { sent := [], result := .error (.wrap "error encoding request payload: " err) }
  | .ok requestPayload =>
    let o := sendRequest rt b "POST" "application/json" "deleteWebhook" (some requestPayload)
    match o.result with
    | .error err => { sent := o.sent, result := .error err }
    | .ok httpResponse =>
      match decodeResponse rt.intBits decodeBool false httpResponse.Body with
      | .error err =>
        { sent := o.sent, result := .error (.wrap "error decoding response: " err) }
      | .ok response =>
        if httpResponse.StatusCode ≠ StatusOK ∨ ¬ response.Ok then
          { sent := o.sent,
            result := .error (.new ("HTTP status " ++ httpResponse.Status ++ ", Telegram code "
              ++ toString response.ErrorCode ++ ", Telegram API error: "
              ++ response.Description)) }
        else { sent := o.sent, result := .ok () }

/-- The method `DeleteWebhook` of `delete_webhook.go`. -/
def DeleteWebhook (rt : Runtime) (b : Bot) (request : DeleteWebhookRequest) : Outcome Unit :=
  DeleteWebhook.withEncoder (fun r => encoderEncode r.members) rt b request

/-! ## `get_updates.go` -/

/-- The record `GetUpdatesRequest`. -/
structure GetUpdatesRequest where
  Offset : Option Int
  Limit : Option Int
  Timeout : Option Int
  AllowedUpdates : Option (List String)
deriving DecidableEq, Repr

/-- JSON members of a `GetUpdatesRequest`: every field is tagged `omitempty`. -/
def GetUpdatesRequest.members (r : GetUpdatesRequest) : List (String × String) :=
  omitemptyPtr "offset" encodeInt r.Offset
  ++ omitemptyPtr "limit" encodeInt r.Limit
  ++ omitemptyPtr "timeout" encodeInt r.Timeout
  ++ omitemptySlice "allowed_updates" encodeString r.AllowedUpdates

/-- The body of the method `getUpdates` of `get_updates.go`, with the call
`json.NewEncoder(requestPayload).Encode(request)` as the parameter `encode`; the type
`Update` is declared outside the sources read here. -/
def getUpdates.withEncoder {Update : Type}
    (encode : GetUpdatesRequest → Except GoError String) (update : Codec Update)
    (rt : Runtime) (b : Bot) (request : GetUpdatesRequest) : Outcome (Option (List Update)) :=
  match encode request with
  | .error err => { sent := [], result := .error (.wrap "error encoding request payload: " err) }
  | .ok requestPayload =>
    let o := sendRequest rt b "POST" "application/json" "getUpdates" (some requestPayload)
    match o.result with
    | .error err => { sent := o.sent, result := .error err }
    | .ok httpResponse =>
      match decodeResponse rt.intBits
          (decodeSlice update.decode update.zero "[]telegram.Update") none
          httpResponse.Body with
      | .error err =>
        { sent := o.sent, result := .error (.wrap "error decoding response: " err) }
      | .ok response =>
        if httpResponse.StatusCode ≠ StatusOK ∨ ¬ response.Ok then
          { sent := o.sent,
            result := .error (.new ("HTTP status " ++ httpResponse.Status ++ ", Telegram code  "
              ++ toString response.ErrorCode ++ ", Telegram API error: "
              ++ response.Description)) }
        else { sent := o.sent, result := .ok response.Result }

/-- The method `getUpdates` of `get_updates.go`. -/
def getUpdates {Update : Type} (update : Codec Update) (rt : Runtime) (b : Bot)
    (request : GetUpdatesRequest) : Outcome (Option (List Update)) :=
  getUpdates.withEncoder (fun r => encoderEncode r.members) update rt b request

/-! ## `get_webhook_info.go` -/

/-- The method `GetWebhookInfo` of `get_webhook_info.go`. -/
def GetWebhookInfo (rt : Runtime) (b : Bot) : Outcome WebhookInfo :=
  let o := sendRequest rt b "GET" "application/json" "getWebhookInfo" none
  match o.result with
  | .error err => { sent := o.sent, result := .error err }
  | .ok httpResponse =>
    match decodeResponse rt.intBits (WebhookInfo.decode rt.intBits) WebhookInfo.zero
        httpResponse.Body with
    | .error err =>
      { sent := o.sent, result := .error (.wrap "error decoding response: " err) }
    | .ok response =>
      if httpResponse.StatusCode ≠ StatusOK ∨ ¬ response.Ok then
        { sent := o.sent,
          result := .error (.new ("HTTP status " ++ httpResponse.Status ++ ", Telegram code "
            ++ toString response.ErrorCode ++ ", Telegram API error: "
            ++ response.Description)) }
      else { sent := o.sent, result := .ok response.Result }

/-! ## `set_webhook.go` -/

/-- The record `SetWebhookRequest`. -/
structure SetWebhookRequest where
  URL : String
  CertificatePath : Option String
  IPAddress : Option String
  MaxConnections : Option Int
  AllowedUpdates : Option (List String)
  DropPendingUpdates : Option Bool
  SecretToken : Option String
deriving DecidableEq, Repr

/-- Modelled from the spec: the type `Response` is not among the sources; the spec gives
the envelope the members `ok`, `result` (operation-specific, kept here as the JSON value),
`description`, `error_code` and `parameters`. -/
abbrev Response := Envelope (Option JSON)

/-- Decoding into the member `result` of `Response`: any JSON value is accepted. -/
def decodeAny (_ : Option JSON) : JSON → Except GoError (Option JSON)
  | .null => .ok none
  | j => .ok (some j)

/-- The first part of `SetWebhook`, up to the call of `http.NewRequest`: the writer after
the fields `url`, `certificate`, `ip_address`, `max_connections`, `allowed_updates` and
`drop_pending_updates`. -/
def SetWebhook.formBeforeRequest (rt : Runtime) (request : SetWebhookRequest) :
    Except GoError Writer :=
  let writer := (NewWriter rt).WriteField "url" request.URL
  let certStep : Except GoError Writer :=
    match request.CertificatePath with
    | none => .ok writer
    | some path =>
      match rt.Open path with
      | .error err => .error (.wrap "error opening certificate file: " err)
      | .ok certFile =>
        match certFile.contents with
        | .error err => .error (.wrap "error copying certificate file: " err)
        | .ok bytes => .ok (writer.WriteFile "certificate" certFile.Name bytes)
  match certStep with
  | .error err => .error err
  | .ok writer =>
    let writer :=
      match request.IPAddress with
      | none => writer
      | some ip => writer.WriteField "ip_address" ip
    let writer :=
      match request.MaxConnections with
      | none => writer
      | some n => writer.WriteField "max_connections" (toString n)
    let writer :=
      match request.AllowedUpdates with
      | none => writer
      | some us => writer.WriteField "allowed_updates" (encodeSlice encodeString (some us))
    let writer :=
      match request.DropPendingUpdates with
      | none => writer
      | some d => writer.WriteField "drop_pending_updates" (encodeBool d)
    .ok writer

/-- The second part of `SetWebhook`, from after the call of `http.NewRequest` to the call of
`client.Do`: the field `secret_token` and its header, `writer.Close()`, the `Content-Type`
header. The result is the request as the client receives it; its body is what the buffer
holds at that moment, its `ContentLength` is the one `http.NewRequest` fixed. -/
def SetWebhook.requestSent (request : SetWebhookRequest) (writer : Writer)
    (httpRequest : HTTPRequest) : HTTPRequest :=
  let (writer, httpRequest) :=
    match request.SecretToken with
    | none => (writer, httpRequest)
    | some token =>
      (writer.WriteField "secret_token" token,
       httpRequest.setHeader "X-Telegram-Bot-Api-Secret-Token" token)
  let writer := writer.Close
  let httpRequest := httpRequest.setHeader "Content-Type" writer.FormDataContentType
  { httpRequest with Body := some writer.bytes }

/-- The method `SetWebhook` of `set_webhook.go`. The HTTP request is created from the
buffer before the field `secret_token` and the closing boundary are written; the client
reads the buffer when the request is sent. -/
def SetWebhook (rt : Runtime) (b : Bot) (request : SetWebhookRequest) : Outcome Unit :=
  match SetWebhook.formBeforeRequest rt request with
  | .error err => { sent := [], result := .error err }
  | .ok writer =>
    let url := telegramEndpoint rt.host b.Token "setWebhook"
    match NewRequest rt "POST" url (some writer.bytes) with
    | .error err =>
      { sent := [], result := .error (.wrap "error creating new POST request to setWebhook: " err) }
    | .ok httpRequest =>
      let httpRequest := SetWebhook.requestSent request writer httpRequest
      match b.client httpRequest with
      | .error err =>
        { sent := [httpRequest],
          result := .error (.wrap "error sending POST request to setWebhook: " err) }
      | .ok httpResponse =>
        match decodeResponse rt.intBits decodeAny none httpResponse.Body with
        | .error err =>
          { sent := [httpRequest], result := .error (.wrap "error decoding response: " err) }
        | .ok response =>
          if httpResponse.StatusCode ≠ StatusOK ∨ ¬ response.Ok then
            { sent := [httpRequest],
              result := .error (.new ("HTTP status " ++ httpResponse.Status
                ++ ", Telegram code " ++ toString response.ErrorCode
                ++ ", Telegram API error: " ++ response.Description)) }
          else { sent := [httpRequest], result := .ok () }

/-! ## Vocabulary of the statements -/

/-- The operation handed exactly one request to the client, and the client answered it with
the response `resp`. -/
def Answered {α : Type} (o : Outcome α) (b : Bot) (resp : HTTPResponse) : Prop :=
  ∃ req, o.sent = [req] ∧ b.client req = .ok resp

/-- The message of the error contains the HTTP status text, the decimal rendering of the
error code, and the description. -/
def Reports (err : GoError) (status : String) (code : Int) (description : String) : Prop :=
  Contains err.Error status ∧ Contains err.Error (toString code) ∧
    Contains err.Error description

instance (err : GoError) (status : String) (code : Int) (description : String) :
    Decidable (Reports err status code description) := by
  unfold Reports; infer_instance

/-- The certificate file of the request: `none` when `CertificatePath` is not set, `some c`
when it is set to a path that opens and reads as `c`. -/
def CertificateIs (rt : Runtime) (request : SetWebhookRequest) : Option String → Prop
  | none => request.CertificatePath = none
  | some c => ∃ path, request.CertificatePath = some path ∧ rt.readFile path = .ok (.ok c)

/-- A form field of the given name and value. -/
def fieldPart (name value : String) : Part := { name := name, filename := none, body := value }

/-- The parts of the `setWebhook` form as the interface describes them, in order: `url`
always; the file part `certificate` when a certificate is given; then one field for each
of `ip_address`, `max_connections`, `allowed_updates`, `drop_pending_updates` and
`secret_token` that is set. -/
def SetWebhook.specParts (request : SetWebhookRequest) (certificate : Option String) :
    List Part :=
  [fieldPart "url" request.URL]
  ++ (match request.CertificatePath, certificate with
      | some path, some c => [{ name := "certificate", filename := some path, body := c }]
      | _, _ => [])
  ++ (request.IPAddress.map (fieldPart "ip_address")).toList
  ++ (request.MaxConnections.map (fun n => fieldPart "max_connections" (toString n))).toList
  ++ (request.AllowedUpdates.map (fun us =>
        fieldPart "allowed_updates" ("[" ++ ",".intercalate (us.map encodeString) ++ "]"))).toList
  ++ (request.DropPendingUpdates.map (fun d =>
        fieldPart "drop_pending_updates" (if d then "true" else "false"))).toList
  ++ (request.SecretToken.map (fieldPart "secret_token")).toList

/-- The body of a `getUpdates` request as the interface describes it: one JSON object with
the keys `offset`, `limit`, `timeout` of the fields that are set (also when set to 0), then
`allowed_updates` when the list is not empty, each with the value of the field. -/
def GetUpdatesRequest.specObject (r : GetUpdatesRequest) : String :=
  "\x7b" ++ ",".intercalate
    ((r.Offset.map (fun n => "\"offset\":" ++ toString n)).toList
      ++ (r.Limit.map (fun n => "\"limit\":" ++ toString n)).toList
      ++ (r.Timeout.map (fun n => "\"timeout\":" ++ toString n)).toList
      ++ (match r.AllowedUpdates with
          | some (u :: us) =>
            ["\"allowed_updates\":[" ++ ",".intercalate ((u :: us).map encodeString) ++ "]"]
          | _ => []))
    ++ "\x7d"

/-- A runtime for the examples: 64-bit `int`, every request well formed, no readable file. -/
def exampleRuntime : Runtime :=
  { intBits := 64, host := "api.telegram.org", requestError := fun _ _ => none,
    readFile := fun _ => .error (.new "open: no such file or directory"),
    boundary := "4f1a" }

/-- A bot for the examples whose client answers every request with `resp`. -/
def botAnswering (resp : HTTPResponse) : Bot :=
  { Token := "110201543:AAHdqTcvCH1vGWJxfSeofSAs0K5PALDsaw", client := fun _ => .ok resp }

/-- The response of the scenario of `deleteWebhook`: status `200 OK` with an envelope whose
`ok` is false. -/
def unauthorizedResponse : HTTPResponse :=
  { Status := "200 OK", StatusCode := 200,
    Body := "\x7b\"ok\":false,\"error_code\":401,\"description\":\"Unauthorized\"\x7d" }

/-- A response of `getWebhookInfo`: status `200 OK`, `ok` true, a webhook with three
pending updates. -/
def webhookInfoResponse : HTTPResponse :=
  { Status := "200 OK", StatusCode := 200,
    Body := "\x7b\"ok\":true,\"result\":\x7b\"url\":\"https://example.com/hook\","
      ++ "\"has_custom_certificate\":false,\"pending_update_count\":3,"
      ++ "\"max_connections\":40,\"allowed_updates\":[\"message\"]\x7d\x7d" }

/-- The `WebhookInfo` that `webhookInfoResponse` carries. -/
def exampleWebhookInfo : WebhookInfo :=
  { WebhookInfo.zero with
    URL := "https://example.com/hook", PendingUpdateCount := 3, MaxConnections := 40,
    AllowedUpdates := some ["message"] }

/-- A response with a status that is not OK and an envelope with a `retry_after` hint. -/
def tooManyRequests : HTTPResponse :=
  { Status := "429 Too Many Requests", StatusCode := 429,
    Body := "\x7b\"ok\":false,\"error_code\":429,"
      ++ "\"description\":\"Too Many Requests: retry after 5\","
      ++ "\"parameters\":\x7b\"retry_after\":5\x7d\x7d" }

/-- A response of `getUpdates` with no update: `{"ok":true,"result":[]}`. -/
def noUpdates : HTTPResponse :=
  { Status := "200 OK", StatusCode := 200, Body := "\x7b\"ok\":true,\"result\":[]\x7d" }

/-- A response of `getUpdates` with two updates. -/
def twoUpdates : HTTPResponse :=
  { Status := "200 OK", StatusCode := 200,
    Body := "\x7b\"ok\":true,\"result\":[\x7b\"update_id\":8\x7d,\x7b\"update_id\":7\x7d]\x7d" }

/-- A response of `getWebhookInfo` in which the optional keys are absent. -/
def webhookInfoAbsent : HTTPResponse :=
  { Status := "200 OK", StatusCode := 200,
    Body := "\x7b\"ok\":true,\"result\":\x7b\"url\":\"\",\"has_custom_certificate\":false,"
      ++ "\"pending_update_count\":0\x7d\x7d" }

/-- A response of `getWebhookInfo` in which the optional keys `ip_address`,
`last_error_date`, `last_error_message`, `last_synchronization_error_date` and
`max_connections` are present with their zero values. -/
def webhookInfoZero : HTTPResponse :=
  { Status := "200 OK", StatusCode := 200,
    Body := "\x7b\"ok\":true,\"result\":\x7b\"url\":\"\",\"has_custom_certificate\":false,"
      ++ "\"pending_update_count\":0,\"ip_address\":\"\",\"last_error_date\":0,"
      ++ "\"last_error_message\":\"\",\"last_synchronization_error_date\":0,"
      ++ "\"max_connections\":0\x7d\x7d" }

/-- A `PhotoSize` for the examples: only its `file_id` is kept. -/
def examplePhotoSize : Codec String :=
  { zero := ""
    decode := decodeStruct "telegram.PhotoSize" (fun cur key v =>
      match findField ["file_id"] key with
      | some _ => decodeString cur v
      | none => .ok cur)
    encode := fun s => encodeObject [("file_id", encodeString s)] }

/-- An `Update` for the examples: only its `update_id` is kept. -/
def exampleUpdate : Codec Int :=
  { zero := 0
    decode := decodeStruct "telegram.Update" (fun cur key v =>
      match findField ["update_id"] key with
      | some _ => decodeInt 64 "int" cur v
      | none => .ok cur)
    encode := fun n => encodeObject [("update_id", encodeInt n)] }

/-- The operation handed exactly one request to the client, and the exchange failed with
the error `cause`. -/
def Refused {α : Type} (o : Outcome α) (b : Bot) (cause : GoError) : Prop :=
  ∃ req, o.sent = [req] ∧ b.client req = .error cause

/-- The message has the form of the remote-API diagnostic:
`HTTP status ..., Telegram code ..., Telegram API error: ...`. -/
def HasAPIForm (msg : String) : Prop :=
  ∃ status code description : String,
    msg = "HTTP status " ++ status ++ ", Telegram code " ++ code
      ++ ", Telegram API error: " ++ description

/-- The texts with which the four operations introduce a local encode or decode error. -/
def localErrorPrefixes : List String :=
  ["error encoding request payload: ", "error decoding response: ",
   "error adding URL field: ", "error opening certificate file: ",
   "error creating form file for certificate: ", "error copying certificate file: ",
   "error adding IP address field: ", "error adding max connections field: ",
   "error marshaling allowed updates: ", "error adding allowed updates field: ",
   "error adding drop pending updates field: ", "error adding secret token field: ",
   "error closing multipart writer: "]

/-- The message starts as one of the local encode or decode errors does. -/
def IsLocalError (msg : String) : Prop :=
  ∃ p ∈ localErrorPrefixes, p.data <+: msg.data

/-- The error is a transport error with the given cause: it wraps the cause, and its
message has neither the form of the remote-API diagnostic nor the start of a local encode
or decode error. -/
def IsTransportError (err cause : GoError) : Prop :=
  err.Unwrap = some cause ∧ ¬ HasAPIForm err.Error ∧ ¬ IsLocalError err.Error

/-- Whether two texts differ at a position that both have. -/
def differ : List Char → List Char → Bool
  | a :: p, b :: q => a != b || differ p q
  | _, _ => false

/-- A bot for the examples whose client fails every exchange with `cause`. -/
def botFailing (cause : GoError) : Bot :=
  { Token := "110201543:AAHdqTcvCH1vGWJxfSeofSAs0K5PALDsaw", client := fun _ => .error cause }

/-- A runtime for the examples in which `http.NewRequest` rejects every URL. -/
def runtimeRejecting (cause : GoError) : Runtime :=
  { exampleRuntime with requestError := fun _ _ => some cause }

/-- A runtime for the examples in which the file `cert.pem` holds `PEM`. -/
def runtimeWithCertificate : Runtime :=
  { exampleRuntime with
    readFile := fun path =>
      if path == "cert.pem" then .ok (.ok "PEM")
      else .error (.new "open: no such file or directory") }

/-- The zero value `DeleteWebhookRequest{}`. -/
def DeleteWebhookRequest.zero : DeleteWebhookRequest := { DropPendingUpdates := false }

/-- Stores one object member into a `DeleteWebhookRequest`, by the JSON tag of its field. -/
def DeleteWebhookRequest.setField (r : DeleteWebhookRequest) (key : String) (v : JSON) :
    Except GoError DeleteWebhookRequest :=
  match findField ["drop_pending_updates"] key with
  | some "drop_pending_updates" =>
    storeField "DeleteWebhookRequest" "drop_pending_updates" (decodeBool r.DropPendingUpdates v)
      (fun x => { r with DropPendingUpdates := x })
  | _ => .ok r

/-- Decoding of a JSON value into a `DeleteWebhookRequest`. -/
def DeleteWebhookRequest.decode :
    DeleteWebhookRequest → JSON → Except GoError DeleteWebhookRequest :=
  decodeStruct "telegram.DeleteWebhookRequest" DeleteWebhookRequest.setField

/-- The zero value `GetUpdatesRequest{}`. -/
def GetUpdatesRequest.zero : GetUpdatesRequest :=
  { Offset := none, Limit := none, Timeout := none, AllowedUpdates := none }

def GetUpdatesRequest.fieldNames : List String :=
  ["offset", "limit", "timeout", "allowed_updates"]

/-- Stores one object member into a `GetUpdatesRequest`, by the JSON tags of its fields. -/
def GetUpdatesRequest.setField (intBits : Nat) (r : GetUpdatesRequest) (key : String)
    (v : JSON) : Except GoError GetUpdatesRequest :=
  match findField GetUpdatesRequest.fieldNames key with
  | some "offset" =>
    storeField "GetUpdatesRequest" "offset" (decodePtr (decodeInt intBits "int") 0 r.Offset v)
      (fun x => { r with Offset := x })
  | some "limit" =>
    storeField "GetUpdatesRequest" "limit" (decodePtr (decodeInt intBits "int") 0 r.Limit v)
      (fun x => { r with Limit := x })
  | some "timeout" =>
    storeField "GetUpdatesRequest" "timeout" (decodePtr (decodeInt intBits "int") 0 r.Timeout v)
      (fun x => { r with Timeout := x })
  | some "allowed_updates" =>
    storeField "GetUpdatesRequest" "allowed_updates"
      (decodeSlice decodeString "" "[]string" r.AllowedUpdates v)
      (fun x => { r with AllowedUpdates := x })
  | _ => .ok r

/-- Decoding of a JSON value into a `GetUpdatesRequest`. -/
def GetUpdatesRequest.decode (intBits : Nat) :
    GetUpdatesRequest → JSON → Except GoError GetUpdatesRequest :=
  decodeStruct "telegram.GetUpdatesRequest" (GetUpdatesRequest.setField intBits)

/-- Encoding a `GetUpdatesRequest` the way `getUpdates` does and decoding the text back. -/
def GetUpdatesRequest.roundTrip (intBits : Nat) (r : GetUpdatesRequest) :
    Except GoError GetUpdatesRequest :=
  match encoderEncode r.members with
  | .error e => .error e
  | .ok text => decoderDecode (GetUpdatesRequest.decode intBits) GetUpdatesRequest.zero text

/-- Encoding a `DeleteWebhookRequest` the way `DeleteWebhook` does and decoding the text
back. -/
def DeleteWebhookRequest.roundTrip (r : DeleteWebhookRequest) :
    Except GoError DeleteWebhookRequest :=
  match encoderEncode r.members with
  | .error e => .error e
  | .ok text => decoderDecode DeleteWebhookRequest.decode DeleteWebhookRequest.zero text

/-- What follows a value inside an array or object: a comma or a closing bracket. -/
def EndsValue (rest : List Char) : Prop :=
  ∃ c t, rest = c :: t ∧ (c = ',' ∨ c = '}' ∨ c = ']')

/-- The scanner reads the text, at nesting depth `depth` and followed by a comma or a
closing bracket, as the value `v`, from some amount of fuel on. -/
def ReadsValue (depth : Nat) (text : String) (v : JSON) : Prop :=
  ∃ F, ∀ rest, EndsValue rest → ∀ j, scanValue (F + j) depth (text.data ++ rest) = .ok (v, rest)

/-- The body `body2` is the JSON object of `body` with one more member, whose key matches
none of the field names `names` (neither exactly nor under case folding). -/
def AddsUnknownKey (names : List String) (body body2 : String) : Prop :=
  ∃ (pre post : List (String × JSON)) (key : String) (v : JSON),
    findField names key = none
    ∧ readValue body = .ok (.obj (pre ++ post))
    ∧ readValue body2 = .ok (.obj (pre ++ (key, v) :: post))

/-- The body `body2` is the envelope of `body` whose member `result`, an object, has one
more member, whose key matches none of the field names `names`. -/
def AddsUnknownKeyInResult (names : List String) (body body2 : String) : Prop :=
  ∃ (pre post inner1 inner2 : List (String × JSON)) (resultKey key : String) (v : JSON),
    findField Envelope.fieldNames resultKey = some "result"
    ∧ findField names key = none
    ∧ readValue body = .ok (.obj (pre ++ (resultKey, .obj (inner1 ++ inner2)) :: post))
    ∧ readValue body2
      = .ok (.obj (pre ++ (resultKey, .obj (inner1 ++ (key, v) :: inner2)) :: post))

/-- The names of the keys the model of `ResponseParameters` declares. -/
def ResponseParameters.fieldNames : List String := ["migrate_to_chat_id", "retry_after"]

/-- The body `body2` is the envelope of `body` whose member for the field `member`, an
object, has one more member, whose key matches none of the field names `names`. -/
def AddsUnknownKeyInMember (member : String) (names : List String) (body body2 : String) :
    Prop :=
  ∃ (pre post inner1 inner2 : List (String × JSON)) (memberKey key : String) (v : JSON),
    findField Envelope.fieldNames memberKey = some member
    ∧ findField names key = none
    ∧ readValue body = .ok (.obj (pre ++ (memberKey, .obj (inner1 ++ inner2)) :: post))
    ∧ readValue body2
      = .ok (.obj (pre ++ (memberKey, .obj (inner1 ++ (key, v) :: inner2)) :: post))

/-- The two responses have the same status line and status code. -/
def SameStatus (resp resp2 : HTTPResponse) : Prop :=
  resp2.Status = resp.Status ∧ resp2.StatusCode = resp.StatusCode

/-- The response of the scenario of `deleteWebhook` with one more member, `"OK":true`. -/
def unauthorizedUpperOK : HTTPResponse :=
  { Status := "200 OK", StatusCode := 200,
    Body := "\x7b\"ok\":false,\"error_code\":401,\"description\":\"Unauthorized\",\"OK\":true\x7d" }

/-- The response of the scenario of `deleteWebhook` with one more member,
`"request_id":[1,2]`. -/
def unauthorizedExtraKey : HTTPResponse :=
  { Status := "200 OK", StatusCode := 200,
    Body := "\x7b\"ok\":false,\"error_code\":401,\"request_id\":[1,2],"
      ++ "\"description\":\"Unauthorized\"\x7d" }

/-- The text of `n` arrays nested in one another: `n` opening and `n` closing brackets. -/
def deeplyNested (n : Nat) : String :=
  String.mk (List.replicate n '[' ++ List.replicate n ']')

/-- The response of the scenario of `deleteWebhook` with one more member, `request_id`,
whose value is 10000 arrays nested in one another. -/
def unauthorizedDeepValue : HTTPResponse :=
  { Status := "200 OK", StatusCode := 200,
    Body := encodeObject [("request_id", deeplyNested 10000), ("ok", "false"),
      ("error_code", "401"), ("description", "\"Unauthorized\"")] }

/-- The remote-API diagnostic as the interface describes it: `HTTP status <status>,
Telegram code <code>, Telegram API error: <description>`, the code in decimal. -/
def apiDiagnostic (status : String) (code : Int) (description : String) : String :=
  "HTTP status " ++ status ++ ", Telegram code " ++ toString code
    ++ ", Telegram API error: " ++ description

/-! ## The scanner: progress and fuel -/

theorem skipSpace_length (cs : List Char) : (skipSpace cs).length ≤ cs.length := by
  induction cs with
  | nil => simp [skipSpace]
  | cons c cs ih =>
    simp only [skipSpace]
    split
    · exact Nat.le_succ_of_le ih
    · exact Nat.le_refl _

theorem skipSpace_cons_length {cs : List Char} {c : Char} {rest : List Char}
    (h : skipSpace cs = c :: rest) : rest.length < cs.length := by
  have := skipSpace_length cs
  rw [h] at this
  simpa using this

theorem takeDigits_length : ∀ (cs acc ds rest : List Char), takeDigits cs acc = (ds, rest) →
    ds.length + rest.length = acc.length + cs.length
  | [], acc, ds, rest, h => by
    simp only [takeDigits, Prod.mk.injEq] at h
    obtain ⟨h1, h2⟩ := h
    subst h1 h2
    simp
  | c :: cs, acc, ds, rest, h => by
    simp only [takeDigits] at h
    split at h
    · have := takeDigits_length cs (c :: acc) ds rest h
      simp only [List.length_cons] at this ⊢
      omega
    · simp only [Prod.mk.injEq] at h
      obtain ⟨h1, h2⟩ := h
      subst h1 h2
      simp

theorem hex4_length {cs : List Char} {u : Nat} {rest : List Char}
    (h : hex4 cs = some (u, rest)) : rest.length + 4 = cs.length := by
  unfold hex4 at h
  split at h
  · split at h
    · simp only [Option.some.injEq, Prod.mk.injEq] at h
      obtain ⟨-, h2⟩ := h
      subst h2
      simp
    · cases h
  · cases h

theorem unquoteRune_length (u : Nat) (rest : List Char) :
    (unquoteRune u rest).2.length ≤ rest.length := by
  unfold unquoteRune
  split
  · split
    · split
      · rename_i hx
        have := hex4_length hx
        split
        · simp only [List.length_cons]
          omega
        · exact Nat.le_refl _
      · exact Nat.le_refl _
    · exact Nat.le_refl _
  · split <;> exact Nat.le_refl _

theorem scanString_length : ∀ (fuel : Nat) (cs acc : List Char) (s : String) (rest : List Char),
    scanString fuel cs acc = .ok (s, rest) → rest.length < cs.length
  | 0, _, _, _, _, h => by simp [scanString] at h
  | _ + 1, [], _, _, _, h => by simp [scanString] at h
  | fuel + 1, c :: cs, acc, s, rest, h => by
    simp only [scanString] at h
    split at h
    · simp only [Except.ok.injEq, Prod.mk.injEq] at h
      obtain ⟨-, h2⟩ := h
      subst h2
      simp
    · split at h
      · split at h
        · cases h
        · split at h
          · split at h
            · rename_i hx
              have h1 := scanString_length fuel _ _ s rest h
              have h2 := unquoteRune_length (by assumption) (by assumption)
              have h3 := hex4_length hx
              simp only [List.length_cons]
              omega
            · split at h <;> cases h
          · split at h
            · have h1 := scanString_length fuel _ _ s rest h
              simp only [List.length_cons] at h1 ⊢
              omega
            · cases h
      · split at h
        · cases h
        · have h1 := scanString_length fuel _ _ s rest h
          simp only [List.length_cons]
          omega

theorem scanString_fuel : ∀ (fuel : Nat) (cs acc : List Char), cs.length < fuel →
    ∀ k, scanString (fuel + k) cs acc = scanString fuel cs acc
  | 0, _, _, h, _ => absurd h (Nat.not_lt_zero _)
  | fuel + 1, [], _, _, k => by
    rw [Nat.add_right_comm]
    simp [scanString]
  | fuel + 1, c :: cs, acc, h, k => by
    rw [Nat.add_right_comm]
    simp only [scanString]
    simp only [List.length_cons, Nat.succ_lt_succ_iff] at h
    split
    · rfl
    · split
      · split
        · rfl
        · rename_i e r
          simp only [List.length_cons] at h
          split
          · split
            · rename_i u r2 hx
              have h3 := hex4_length hx
              have h2 := unquoteRune_length u r2
              exact scanString_fuel fuel _ _ (by omega) k
            · rfl
          · split
            · exact scanString_fuel fuel _ _ (by omega) k
            · rfl
      · split
        · rfl
        · exact scanString_fuel fuel _ _ h k

theorem scanIntPart_length {cs ds rest : List Char} (h : scanIntPart cs = (ds, rest)) :
    ds.length + rest.length = cs.length := by
  unfold scanIntPart at h
  split at h
  · simp only [Prod.mk.injEq] at h
    obtain ⟨h1, h2⟩ := h
    subst h1 h2
    rfl
  · split at h
    · simp only [Prod.mk.injEq] at h
      obtain ⟨h1, h2⟩ := h
      subst h1 h2
      simp
      omega
    · have := takeDigits_length _ _ _ _ h
      simpa using this

theorem scanFrac_length {cs ds rest : List Char} (h : scanFrac cs = .ok (ds, rest)) :
    rest.length ≤ cs.length := by
  unfold scanFrac at h
  split at h
  · simp only [Except.ok.injEq, Prod.mk.injEq] at h
    obtain ⟨-, h2⟩ := h
    subst h2
    simp
  · split at h
    · split at h
      · cases h
      · cases h
      · rename_i hd
        have := takeDigits_length _ _ _ _ hd
        simp only [Except.ok.injEq, Prod.mk.injEq] at h
        obtain ⟨-, h2⟩ := h
        subst h2
        simp only [List.length_cons, List.length_nil] at this ⊢
        omega
    · simp only [Except.ok.injEq, Prod.mk.injEq] at h
      obtain ⟨-, h2⟩ := h
      subst h2
      exact Nat.le_refl _

theorem scanExp_length {cs ds rest : List Char} (h : scanExp cs = .ok (ds, rest)) :
    rest.length ≤ cs.length := by
  unfold scanExp at h
  split at h
  · simp only [Except.ok.injEq, Prod.mk.injEq] at h
    obtain ⟨-, h2⟩ := h
    subst h2
    simp
  · rename_i e r
    split at h
    · have hsg : (match r with
          | [] => (([] : List Char), ([] : List Char))
          | s :: r1 => if s == '+' ∨ s == '-' then ([s], r1) else ([], s :: r1)).2.length
          ≤ r.length := by
        split
        · simp
        · split <;> simp
      simp only at h
      split at h
      · cases h
      · cases h
      · rename_i hd
        have := takeDigits_length _ _ _ _ hd
        simp only [Except.ok.injEq, Prod.mk.injEq] at h
        obtain ⟨-, h2⟩ := h
        subst h2
        simp only [List.length_cons, List.length_nil] at this ⊢
        omega
    · simp only [Except.ok.injEq, Prod.mk.injEq] at h
      obtain ⟨-, h2⟩ := h
      subst h2
      exact Nat.le_refl _

theorem scanNumber_length {neg : Bool} {cs : List Char} {v : JSON} {rest : List Char}
    (h : scanNumber neg cs = .ok (v, rest)) : rest.length < cs.length := by
  unfold scanNumber at h
  split at h
  · cases h
  · cases h
  · rename_i d ds r hi
    have h1 := scanIntPart_length hi
    split at h
    · cases h
    · rename_i frac rest2 hf
      have h2 := scanFrac_length hf
      split at h
      · cases h
      · rename_i ex rest3 he
        have h3 := scanExp_length he
        simp only [List.length_cons] at h1
        split at h <;>
          (simp only [Except.ok.injEq, Prod.mk.injEq] at h
           obtain ⟨-, h4⟩ := h
           subst h4
           omega)

theorem scanLiteral_length {v v2 : JSON} {tail cs rest : List Char}
    (h : scanLiteral v tail cs = .ok (v2, rest)) : rest.length ≤ cs.length := by
  unfold scanLiteral at h
  split at h
  · simp only [Except.ok.injEq, Prod.mk.injEq] at h
    obtain ⟨-, h2⟩ := h
    subst h2
    simp
  · split at h <;> cases h

/-- Every scan that succeeds consumes at least one character. -/
theorem scan_length : ∀ (fuel : Nat),
    (∀ depth cs v rest, scanValue fuel depth cs = .ok (v, rest) → rest.length < cs.length)
    ∧ (∀ depth cs acc v rest, scanMembers fuel depth cs acc = .ok (v, rest) →
        rest.length < cs.length)
    ∧ (∀ depth cs acc v rest, scanElements fuel depth cs acc = .ok (v, rest) →
        rest.length < cs.length)
  | 0 => by
    refine ⟨?_, ?_, ?_⟩
    · intro depth cs v rest h
      simp [scanValue] at h
    · intro depth cs acc v rest h
      simp [scanMembers] at h
    · intro depth cs acc v rest h
      simp [scanElements] at h
  | fuel + 1 => by
    obtain ⟨ihv, ihm, ihe⟩ := scan_length fuel
    refine ⟨?_, ?_, ?_⟩
    · intro depth cs v rest h
      simp only [scanValue] at h
      split at h
      · cases h
      · rename_i c r hs
        have h0 := skipSpace_cons_length hs
        split at h
        · split at h
          · cases h
          · split at h
            · cases h
            · rename_i d r2 hs2
              have h1 := skipSpace_cons_length hs2
              split at h
              · simp only [Except.ok.injEq, Prod.mk.injEq] at h
                obtain ⟨-, h2⟩ := h
                subst h2
                omega
              · have h2 := ihm _ _ _ _ _ h
                simp only [List.length_cons] at h2
                omega
        · split at h
          · split at h
            · cases h
            · split at h
              · cases h
              · rename_i d r2 hs2
                have h1 := skipSpace_cons_length hs2
                split at h
                · simp only [Except.ok.injEq, Prod.mk.injEq] at h
                  obtain ⟨-, h2⟩ := h
                  subst h2
                  omega
                · have h2 := ihe _ _ _ _ _ h
                  simp only [List.length_cons] at h2
                  omega
          · split at h
            · split at h
              · rename_i s r2 hq
                have h1 := scanString_length _ _ _ _ _ hq
                simp only [Except.ok.injEq, Prod.mk.injEq] at h
                obtain ⟨-, h2⟩ := h
                subst h2
                omega
              · cases h
            · split at h
              · have := scanLiteral_length h
                omega
              · split at h
                · have := scanLiteral_length h
                  omega
                · split at h
                  · have := scanLiteral_length h
                    omega
                  · split at h
                    · have := scanNumber_length h
                      omega
                    · split at h
                      · have := scanNumber_length h
                        simp only [List.length_cons] at this
                        omega
                      · cases h
    · intro depth cs acc v rest h
      simp only [scanMembers] at h
      split at h
      · cases h
      · rename_i q r hs
        have h0 := skipSpace_cons_length hs
        split at h
        · split at h
          · cases h
          · rename_i key r2 hq
            have h1 := scanString_length _ _ _ _ _ hq
            split at h
            · cases h
            · rename_i c r3 hs3
              have h3 := skipSpace_cons_length hs3
              split at h
              · split at h
                · cases h
                · rename_i v4 r4 hv
                  have h4 := ihv _ _ _ _ hv
                  split at h
                  · cases h
                  · rename_i s r5 hs5
                    have h5 := skipSpace_cons_length hs5
                    split at h
                    · have h6 := ihm _ _ _ _ _ h
                      omega
                    · split at h
                      · simp only [Except.ok.injEq, Prod.mk.injEq] at h
                        obtain ⟨-, h7⟩ := h
                        subst h7
                        omega
                      · cases h
              · cases h
        · cases h
    · intro depth cs acc v rest h
      simp only [scanElements] at h
      split at h
      · cases h
      · rename_i v4 r4 hv
        have h4 := ihv _ _ _ _ hv
        split at h
        · cases h
        · rename_i s r5 hs5
          have h5 := skipSpace_cons_length hs5
          split at h
          · have h6 := ihe _ _ _ _ _ h
            omega
          · split at h
            · simp only [Except.ok.injEq, Prod.mk.injEq] at h
              obtain ⟨-, h7⟩ := h
              subst h7
              omega
            · cases h

/-- Fuel beyond twice the length of the input does not change the result of a scan. -/
theorem scan_fuel : ∀ (fuel : Nat),
    (∀ depth cs k, 2 * cs.length + 1 ≤ fuel →
      scanValue (fuel + k) depth cs = scanValue fuel depth cs)
    ∧ (∀ depth cs acc k, 2 * cs.length + 1 ≤ fuel →
      scanMembers (fuel + k) depth cs acc = scanMembers fuel depth cs acc)
    ∧ (∀ depth cs acc k, 2 * cs.length + 2 ≤ fuel →
      scanElements (fuel + k) depth cs acc = scanElements fuel depth cs acc)
  | 0 => by
    refine ⟨?_, ?_, ?_⟩
    · intro depth cs k h
      omega
    · intro depth cs acc k h
      omega
    · intro depth cs acc k h
      omega
  | fuel + 1 => by
    obtain ⟨ihv, ihm, ihe⟩ := scan_fuel fuel
    refine ⟨?_, ?_, ?_⟩
    · intro depth cs k h
      rw [Nat.add_right_comm]
      simp only [scanValue]
      split
      · rfl
      · rename_i c r hs
        have h0 := skipSpace_cons_length hs
        split
        · split
          · rfl
          · split
            · rfl
            · rename_i d r2 hs2
              have h1 := skipSpace_cons_length hs2
              split
              · rfl
              · exact ihm _ _ _ _ (by simp only [List.length_cons]; omega)
        · split
          · split
            · rfl
            · split
              · rfl
              · rename_i d r2 hs2
                have h1 := skipSpace_cons_length hs2
                split
                · rfl
                · exact ihe _ _ _ _ (by simp only [List.length_cons]; omega)
          · rfl
    · intro depth cs acc k h
      rw [Nat.add_right_comm]
      simp only [scanMembers]
      split
      · rfl
      · rename_i q r hs
        have h0 := skipSpace_cons_length hs
        split
        · split
          · rfl
          · rename_i key r2 hq
            have h1 := scanString_length _ _ _ _ _ hq
            split
            · rfl
            · rename_i c r3 hs3
              have h3 := skipSpace_cons_length hs3
              split
              · rw [ihv depth r3 k (by omega)]
                split
                · rfl
                · rename_i v4 r4 hv
                  have h4 := (scan_length fuel).1 _ _ _ _ hv
                  split
                  · rfl
                  · rename_i s r5 hs5
                    have h5 := skipSpace_cons_length hs5
                    split
                    · exact ihm _ _ _ _ (by omega)
                    · rfl
              · rfl
        · rfl
    · intro depth cs acc k h
      rw [Nat.add_right_comm]
      simp only [scanElements]
      rw [ihv depth cs k (by omega)]
      split
      · rfl
      · rename_i v4 r4 hv
        have h4 := (scan_length fuel).1 _ _ _ _ hv
        split
        · rfl
        · rename_i s r5 hs5
          have h5 := skipSpace_cons_length hs5
          split
          · exact ihe _ _ _ _ (by omega)
          · rfl

/-- The fuel `readValue` gives the scanner is enough: more fuel gives the same value. -/
theorem readValue_fuel (body : String) (k : Nat) :
    readValue body =
      match skipSpace body.data with
      | [] => .error ioEOF
      | cs =>
        match scanValue (2 * cs.length + 1 + k) 0 cs with
        | .ok (v, _) => .ok v
        | .error e => .error e := by
  unfold readValue
  split
  · rfl
  · rw [(scan_fuel _).1 0 _ k (Nat.le_refl _)]

/-! ## The operations after the round trip -/

theorem contains_mid (a s c : String) : Contains (a ++ s ++ c) s :=
  ⟨a.data, c.data, by simp⟩

theorem contains_end (a s : String) : Contains (a ++ s) s :=
  ⟨a.data, [], by simp⟩

theorem requestMethod_of_ne {m : String} (hm : m ≠ "") : requestMethod m = m := by
  unfold requestMethod
  rw [if_neg hm]

theorem requestMethod_POST : requestMethod "POST" = "POST" := by decide

theorem requestMethod_GET : requestMethod "GET" = "GET" := by decide

theorem sendRequest_answered {rt : Runtime} {b : Bot} {m ct tm : String} {p : Option String}
    {resp : HTTPResponse} (h : Answered (sendRequest rt b m ct tm p) b resp) :
    (sendRequest rt b m ct tm p).result = .ok resp := by
  obtain ⟨req, hs, hc⟩ := h
  unfold sendRequest at hs ⊢
  cases hn : NewRequest rt m (telegramEndpoint rt.host b.Token tm) p with
  | error e => simp [hn] at hs
  | ok r =>
    simp only [hn] at hs ⊢
    cases hd : b.client (r.setHeader "Content-Type" ct) with
    | error e =>
      simp only [hd] at hs
      simp at hs
      rw [hs, hc] at hd
      cases hd
    | ok r2 =>
      simp only [hd] at hs
      simp at hs
      rw [hs, hc] at hd
      cases hd
      rfl

theorem DeleteWebhook_sent (rt : Runtime) (b : Bot) (request : DeleteWebhookRequest) :
    (DeleteWebhook rt b request).sent =
      (sendRequest rt b "POST" "application/json" "deleteWebhook"
        (some (encodeObject request.members ++ "\n"))).sent := by
  unfold DeleteWebhook DeleteWebhook.withEncoder
  simp only [encoderEncode]
  repeat' split
  all_goals rfl

theorem DeleteWebhook_answered {rt : Runtime} {b : Bot} {request : DeleteWebhookRequest}
    {resp : HTTPResponse} (h : Answered (DeleteWebhook rt b request) b resp) :
    (DeleteWebhook rt b request).result =
      match decodeResponse rt.intBits decodeBool false resp.Body with
      | .error err => .error (.wrap "error decoding response: " err)
      | .ok response =>
        if resp.StatusCode ≠ StatusOK ∨ ¬ response.Ok then
          .error (.new ("HTTP status " ++ resp.Status ++ ", Telegram code "
            ++ toString response.ErrorCode ++ ", Telegram API error: "
            ++ response.Description))
        else .ok () := by
  have hs := sendRequest_answered (by rw [Answered, ← DeleteWebhook_sent]; exact h)
  unfold DeleteWebhook DeleteWebhook.withEncoder
  simp only [encoderEncode, hs]
  split
  · rfl
  · split <;> rfl

theorem getUpdates_sent {Update : Type} (update : Codec Update) (rt : Runtime) (b : Bot)
    (request : GetUpdatesRequest) :
    (getUpdates update rt b request).sent =
      (sendRequest rt b "POST" "application/json" "getUpdates"
        (some (encodeObject request.members ++ "\n"))).sent := by
  unfold getUpdates getUpdates.withEncoder
  simp only [encoderEncode]
  repeat' split
  all_goals rfl

theorem getUpdates_answered {Update : Type} {update : Codec Update} {rt : Runtime} {b : Bot}
    {request : GetUpdatesRequest} {resp : HTTPResponse}
    (h : Answered (getUpdates update rt b request) b resp) :
    (getUpdates update rt b request).result =
      match decodeResponse rt.intBits
          (decodeSlice update.decode update.zero "[]telegram.Update") none resp.Body with
      | .error err => .error (.wrap "error decoding response: " err)
      | .ok response =>
        if resp.StatusCode ≠ StatusOK ∨ ¬ response.Ok then
          .error (.new ("HTTP status " ++ resp.Status ++ ", Telegram code  "
            ++ toString response.ErrorCode ++ ", Telegram API error: "
            ++ response.Description))
        else .ok response.Result := by
  have hs := sendRequest_answered (by rw [Answered, ← getUpdates_sent]; exact h)
  unfold getUpdates getUpdates.withEncoder
  simp only [encoderEncode, hs]
  split
  · rfl
  · split <;> rfl

theorem GetWebhookInfo_sent (rt : Runtime) (b : Bot) :
    (GetWebhookInfo rt b).sent =
      (sendRequest rt b "GET" "application/json" "getWebhookInfo" none).sent := by
  unfold GetWebhookInfo
  simp only
  repeat' split
  all_goals rfl

theorem GetWebhookInfo_answered {rt : Runtime} {b : Bot} {resp : HTTPResponse}
    (h : Answered (GetWebhookInfo rt b) b resp) :
    (GetWebhookInfo rt b).result =
      match decodeResponse rt.intBits (WebhookInfo.decode rt.intBits) WebhookInfo.zero
          resp.Body with
      | .error err => .error (.wrap "error decoding response: " err)
      | .ok response =>
        if resp.StatusCode ≠ StatusOK ∨ ¬ response.Ok then
          .error (.new ("HTTP status " ++ resp.Status ++ ", Telegram code "
            ++ toString response.ErrorCode ++ ", Telegram API error: "
            ++ response.Description))
        else .ok response.Result := by
  have hs := sendRequest_answered (by rw [Answered, ← GetWebhookInfo_sent]; exact h)
  unfold GetWebhookInfo
  simp only [hs]
  split
  · rfl
  · split <;> rfl

theorem SetWebhook_answered {rt : Runtime} {b : Bot} {request : SetWebhookRequest}
    {resp : HTTPResponse} (h : Answered (SetWebhook rt b request) b resp) :
    (SetWebhook rt b request).result =
      match decodeResponse rt.intBits decodeAny none resp.Body with
      | .error err => .error (.wrap "error decoding response: " err)
      | .ok response =>
        if resp.StatusCode ≠ StatusOK ∨ ¬ response.Ok then
          .error (.new ("HTTP status " ++ resp.Status ++ ", Telegram code "
            ++ toString response.ErrorCode ++ ", Telegram API error: "
            ++ response.Description))
        else .ok () := by
  obtain ⟨req, hs, hc⟩ := h
  unfold SetWebhook at hs ⊢
  cases hf : SetWebhook.formBeforeRequest rt request with
  | error e => simp [hf] at hs
  | ok w =>
    simp only [hf] at hs ⊢
    cases hn : NewRequest rt "POST" (telegramEndpoint rt.host b.Token "setWebhook")
        (some w.bytes) with
    | error e => simp [hn] at hs
    | ok r =>
      simp only [hn] at hs ⊢
      cases hd : b.client (SetWebhook.requestSent request w r) with
      | error e =>
        simp only [hd] at hs
        simp at hs
        rw [hs, hc] at hd
        cases hd
      | ok r2 =>
        simp only [hd] at hs ⊢
        have hsent : [SetWebhook.requestSent request w r] = [req] := by
          rw [← hs]
          repeat' split
          all_goals rfl
        simp at hsent
        rw [hsent, hc] at hd
        cases hd
        repeat' split
        all_goals rfl

/-- The diagnostic `p ++ status ++ q ++ code ++ r ++ description` reports its three parts. -/
theorem reports_diagnostic (p q r status description : String) (code : Int) :
    Reports (.new (p ++ status ++ q ++ toString code ++ r ++ description))
      status code description := by
  refine ⟨⟨p.data, (q ++ toString code ++ r ++ description).data, ?_⟩,
    ⟨(p ++ status ++ q).data, (r ++ description).data, ?_⟩,
    ⟨(p ++ status ++ q ++ toString code ++ r).data, [], ?_⟩⟩ <;>
  simp [GoError.Error]

/-! ## C1: an envelope with `ok=false` is an error that carries status, code, description -/

/-- C1. In `DeleteWebhook`, `getUpdates`, `GetWebhookInfo` and `SetWebhook`, for every
received response, whatever its HTTP status: when the body decodes to an envelope whose
`ok` is false, the operation returns an error, and the message of the error contains the
HTTP status text, the decimal rendering of the envelope's `error_code` and the envelope's
`description`. -/
theorem not_ok_envelope_is_error (rt : Runtime) (b : Bot) (resp : HTTPResponse) :
    (∀ (request : DeleteWebhookRequest) (env : Envelope Bool),
      Answered (DeleteWebhook rt b request) b resp →
      decodeResponse rt.intBits decodeBool false resp.Body = .ok env → env.Ok = false →
      ∃ err, (DeleteWebhook rt b request).result = .error err ∧
        Reports err resp.Status env.ErrorCode env.Description)
    ∧ (∀ (Update : Type) (update : Codec Update) (request : GetUpdatesRequest)
        (env : Envelope (Option (List Update))),
      Answered (getUpdates update rt b request) b resp →
      decodeResponse rt.intBits (decodeSlice update.decode update.zero "[]telegram.Update")
        none resp.Body = .ok env → env.Ok = false →
      ∃ err, (getUpdates update rt b request).result = .error err ∧
        Reports err resp.Status env.ErrorCode env.Description)
    ∧ (∀ (env : Envelope WebhookInfo),
      Answered (GetWebhookInfo rt b) b resp →
      decodeResponse rt.intBits (WebhookInfo.decode rt.intBits) WebhookInfo.zero resp.Body
        = .ok env → env.Ok = false →
      ∃ err, (GetWebhookInfo rt b).result = .error err ∧
        Reports err resp.Status env.ErrorCode env.Description)
    ∧ (∀ (request : SetWebhookRequest) (env : Response),
      Answered (SetWebhook rt b request) b resp →
      decodeResponse rt.intBits decodeAny none resp.Body = .ok env → env.Ok = false →
      ∃ err, (SetWebhook rt b request).result = .error err ∧
        Reports err resp.Status env.ErrorCode env.Description) := by
  refine ⟨?_, ?_, ?_, ?_⟩
  · intro request env h hd hok
    rw [DeleteWebhook_answered h, hd]
    simp only [hok, Bool.false_eq_true, not_false_eq_true, or_true, if_true]
    exact ⟨_, rfl, reports_diagnostic _ _ _ _ _ _⟩
  · intro Update update request env h hd hok
    rw [getUpdates_answered h, hd]
    simp only [hok, Bool.false_eq_true, not_false_eq_true, or_true, if_true]
    exact ⟨_, rfl, reports_diagnostic _ _ _ _ _ _⟩
  · intro env h hd hok
    rw [GetWebhookInfo_answered h, hd]
    simp only [hok, Bool.false_eq_true, not_false_eq_true, or_true, if_true]
    exact ⟨_, rfl, reports_diagnostic _ _ _ _ _ _⟩
  · intro request env h hd hok
    rw [SetWebhook_answered h, hd]
    simp only [hok, Bool.false_eq_true, not_false_eq_true, or_true, if_true]
    exact ⟨_, rfl, reports_diagnostic _ _ _ _ _ _⟩

/-- C1, witness. `DeleteWebhook` with `drop_pending_updates=true`, answered with status
`200 OK` and the body `{"ok":false,"error_code":401,"description":"Unauthorized"}`, returns
an error whose message contains `200`, `401` and `Unauthorized`. -/
theorem not_ok_envelope_is_error_witness :
    Answered (DeleteWebhook exampleRuntime (botAnswering unauthorizedResponse) ⟨true⟩)
      (botAnswering unauthorizedResponse) unauthorizedResponse
    ∧ decodeResponse 64 decodeBool false unauthorizedResponse.Body
      = .ok { Ok := false, Result := false, Description := "Unauthorized", ErrorCode := 401,
              Parameters := ResponseParameters.zero }
    ∧ ∃ err, (DeleteWebhook exampleRuntime (botAnswering unauthorizedResponse) ⟨true⟩).result
          = .error err ∧ Reports err "200 OK" 401 "Unauthorized" :=
  ⟨⟨_, rfl, rfl⟩, by decide,
    (not_ok_envelope_is_error exampleRuntime (botAnswering unauthorizedResponse)
      unauthorizedResponse).1 ⟨true⟩
      { Ok := false, Result := false, Description := "Unauthorized", ErrorCode := 401,
        Parameters := ResponseParameters.zero }
      ⟨_, rfl, rfl⟩ (by decide) rfl⟩

/-! ## C2: error exactly when the status is not 200 or `ok` is false -/

/-- The status test of the operations on a decoded envelope: an error exactly when the
status code is not 200 or `ok` is false, the success value otherwise. -/
theorem status_test {α : Type} (code : Int) (ok : Bool) (msg : String) (v : α) :
    ((∃ err, (if code ≠ StatusOK ∨ ¬ ok = true then (Except.error (GoError.new msg))
        else Except.ok v) = Except.error err) ↔ (code ≠ StatusOK ∨ ok = false))
    ∧ (code = StatusOK → ok = true →
        (if code ≠ StatusOK ∨ ¬ ok = true then (Except.error (GoError.new msg))
          else Except.ok v) = Except.ok v) := by
  constructor
  · by_cases h : code ≠ StatusOK ∨ ¬ ok = true
    · simp only [h, if_true]
      constructor
      · intro _
        rcases h with h | h
        · exact Or.inl h
        · exact Or.inr (by simpa using h)
      · intro _
        exact ⟨_, rfl⟩
    · simp only [h, if_false]
      constructor
      · rintro ⟨err, he⟩
        cases he
      · intro h2
        exact absurd (h2.imp id (by simp)) h
  · intro hc hk
    simp [hc, hk]

/-- C2. In `DeleteWebhook`, `getUpdates`, `GetWebhookInfo` and `SetWebhook`, for every
received response whose body decodes as an envelope: the operation returns an error if and
only if the HTTP status code is not 200 or the envelope's `ok` is false; when the status
code is 200 and `ok` is true it returns no error and the result of the envelope (the
decoded `WebhookInfo` for `GetWebhookInfo`, the decoded update list for `getUpdates`). -/
theorem error_iff_status_or_not_ok (rt : Runtime) (b : Bot) (resp : HTTPResponse) :
    (∀ (request : DeleteWebhookRequest) (env : Envelope Bool),
      Answered (DeleteWebhook rt b request) b resp →
      decodeResponse rt.intBits decodeBool false resp.Body = .ok env →
      ((∃ err, (DeleteWebhook rt b request).result = .error err) ↔
        (resp.StatusCode ≠ StatusOK ∨ env.Ok = false))
      ∧ (resp.StatusCode = StatusOK → env.Ok = true →
        (DeleteWebhook rt b request).result = .ok ()))
    ∧ (∀ (Update : Type) (update : Codec Update) (request : GetUpdatesRequest)
        (env : Envelope (Option (List Update))),
      Answered (getUpdates update rt b request) b resp →
      decodeResponse rt.intBits (decodeSlice update.decode update.zero "[]telegram.Update")
        none resp.Body = .ok env →
      ((∃ err, (getUpdates update rt b request).result = .error err) ↔
        (resp.StatusCode ≠ StatusOK ∨ env.Ok = false))
      ∧ (resp.StatusCode = StatusOK → env.Ok = true →
        (getUpdates update rt b request).result = .ok env.Result))
    ∧ (∀ (env : Envelope WebhookInfo),
      Answered (GetWebhookInfo rt b) b resp →
      decodeResponse rt.intBits (WebhookInfo.decode rt.intBits) WebhookInfo.zero resp.Body
        = .ok env →
      ((∃ err, (GetWebhookInfo rt b).result = .error err) ↔
        (resp.StatusCode ≠ StatusOK ∨ env.Ok = false))
      ∧ (resp.StatusCode = StatusOK → env.Ok = true →
        (GetWebhookInfo rt b).result = .ok env.Result))
    ∧ (∀ (request : SetWebhookRequest) (env : Response),
      Answered (SetWebhook rt b request) b resp →
      decodeResponse rt.intBits decodeAny none resp.Body = .ok env →
      ((∃ err, (SetWebhook rt b request).result = .error err) ↔
        (resp.StatusCode ≠ StatusOK ∨ env.Ok = false))
      ∧ (resp.StatusCode = StatusOK → env.Ok = true →
        (SetWebhook rt b request).result = .ok ())) := by
  refine ⟨?_, ?_, ?_, ?_⟩
  · intro request env h hd
    rw [DeleteWebhook_answered h, hd]
    exact status_test _ _ _ _
  · intro Update update request env h hd
    rw [getUpdates_answered h, hd]
    exact status_test _ _ _ _
  · intro env h hd
    rw [GetWebhookInfo_answered h, hd]
    exact status_test _ _ _ _
  · intro request env h hd
    rw [SetWebhook_answered h, hd]
    exact status_test _ _ _ _

/-- C2, witness. `GetWebhookInfo` answered with status `200 OK` and an envelope whose `ok`
is true returns the decoded `WebhookInfo` and no error. -/
theorem error_iff_status_or_not_ok_witness :
    Answered (GetWebhookInfo exampleRuntime (botAnswering webhookInfoResponse))
      (botAnswering webhookInfoResponse) webhookInfoResponse
    ∧ decodeResponse 64 (WebhookInfo.decode 64) WebhookInfo.zero webhookInfoResponse.Body
      = .ok { Ok := true, Result := exampleWebhookInfo, Description := "", ErrorCode := 0,
              Parameters := ResponseParameters.zero }
    ∧ (GetWebhookInfo exampleRuntime (botAnswering webhookInfoResponse)).result
      = .ok exampleWebhookInfo :=
  ⟨⟨_, rfl, rfl⟩, by decide,
    ((error_iff_status_or_not_ok exampleRuntime (botAnswering webhookInfoResponse)
      webhookInfoResponse).2.2.1
      { Ok := true, Result := exampleWebhookInfo, Description := "", ErrorCode := 0,
        Parameters := ResponseParameters.zero }
      ⟨_, rfl, rfl⟩ (by decide)).2 rfl rfl⟩

/-! ## C3: a status that is not OK, by what the body holds -/

/-- C3 as stated fails. `DeleteWebhook` answered with status `502 Bad Gateway` and an empty
body, or a body that is not JSON, returns the decode error (`io.EOF`, a syntax error); its
message does not report the HTTP status. -/
theorem not_ok_status_undecodable_body :
    (Answered (DeleteWebhook exampleRuntime (botAnswering ⟨"502 Bad Gateway", 502, ""⟩) ⟨false⟩)
        (botAnswering ⟨"502 Bad Gateway", 502, ""⟩) ⟨"502 Bad Gateway", 502, ""⟩
      ∧ (502 : Int) ≠ StatusOK
      ∧ (DeleteWebhook exampleRuntime (botAnswering ⟨"502 Bad Gateway", 502, ""⟩)
          ⟨false⟩).result = .error (.wrap "error decoding response: " ioEOF)
      ∧ ¬ ∃ err code description,
          (DeleteWebhook exampleRuntime (botAnswering ⟨"502 Bad Gateway", 502, ""⟩)
            ⟨false⟩).result = .error err ∧ Reports err "502 Bad Gateway" code description)
    ∧ (Answered
        (DeleteWebhook exampleRuntime
          (botAnswering ⟨"502 Bad Gateway", 502, "<html>Bad Gateway</html>"⟩) ⟨false⟩)
        (botAnswering ⟨"502 Bad Gateway", 502, "<html>Bad Gateway</html>"⟩)
        ⟨"502 Bad Gateway", 502, "<html>Bad Gateway</html>"⟩
      ∧ ¬ ∃ err code description,
          (DeleteWebhook exampleRuntime
            (botAnswering ⟨"502 Bad Gateway", 502, "<html>Bad Gateway</html>"⟩)
            ⟨false⟩).result = .error err ∧ Reports err "502 Bad Gateway" code description) := by
  refine ⟨⟨⟨_, rfl, rfl⟩, by decide, by decide, ?_⟩, ⟨_, rfl, rfl⟩, ?_⟩
  · rintro ⟨err, code, description, he, hr, -⟩
    have h : (DeleteWebhook exampleRuntime (botAnswering ⟨"502 Bad Gateway", 502, ""⟩)
        ⟨false⟩).result = .error (.wrap "error decoding response: " ioEOF) := by decide
    rw [h] at he
    cases he
    revert hr
    decide
  · rintro ⟨err, code, description, he, hr, -⟩
    have h : (DeleteWebhook exampleRuntime
        (botAnswering ⟨"502 Bad Gateway", 502, "<html>Bad Gateway</html>"⟩) ⟨false⟩).result
        = .error (.wrap "error decoding response: "
            (syntaxError "looking for beginning of value")) := by decide
    rw [h] at he
    cases he
    revert hr
    decide

/-- The error an operation returns when the body does not decode is not the remote-API
diagnostic: its message starts with `error decoding response: `, not with `HTTP status`. -/
theorem decode_error_not_api_form (e : GoError) :
    (GoError.wrap "error decoding response: " e).Error = "error decoding response: " ++ e.Error
    ∧ (GoError.wrap "error decoding response: " e).Unwrap = some e
    ∧ ¬ HasAPIForm (GoError.wrap "error decoding response: " e).Error := by
  refine ⟨rfl, rfl, ?_⟩
  rintro ⟨status, code, description, h⟩
  have h2 := congrArg String.data h
  simp only [GoError.Error, String.data_append] at h2
  have h3 := congrArg List.head? h2
  simp at h3

/-- What the message of the decoder says is up to the body: for status `502 Bad Gateway`
and an envelope whose `error_code` does not fit the Go `int`, `DeleteWebhook` returns the
decode error, and its message quotes the number of the body. -/
theorem decode_error_quotes_number :
    ∃ e, (DeleteWebhook exampleRuntime
        (botAnswering ⟨"502 Bad Gateway", 502,
          "\x7b\"ok\":false,\"error_code\":99999999999999999999\x7d"⟩) ⟨false⟩).result
        = .error (.wrap "error decoding response: " e)
      ∧ Contains (GoError.wrap "error decoding response: " e).Error "99999999999999999999" :=
  ⟨.unmarshalType "number 99999999999999999999" "int" "" "error_code", by decide, by decide⟩

/-- C3, amended. In `DeleteWebhook`, `getUpdates`, `GetWebhookInfo` and `SetWebhook`, for
every received response whose status code is not 200: when the body decodes as an
envelope, the operation returns the remote-API error, one diagnostic (an error without
cause) whose message reports the HTTP status, the envelope's error code and the envelope's
description; when the body does not decode (empty, not JSON, of the wrong shape), the
operation returns the error of the decoder wrapped as `error decoding response: ...`,
which is not the remote-API diagnostic: its message is `error decoding response: `
followed by the message of the decoder, and it unwraps to the error of the decoder. -/
theorem not_ok_status_by_body (rt : Runtime) (b : Bot) (resp : HTTPResponse)
    (hstatus : resp.StatusCode ≠ StatusOK) :
    (∀ (request : DeleteWebhookRequest),
      Answered (DeleteWebhook rt b request) b resp →
      (∀ env, decodeResponse rt.intBits decodeBool false resp.Body = .ok env →
        ∃ msg, (DeleteWebhook rt b request).result = .error (.new msg) ∧
          Reports (.new msg) resp.Status env.ErrorCode env.Description)
      ∧ (∀ e, decodeResponse rt.intBits decodeBool false resp.Body = .error e →
        (DeleteWebhook rt b request).result = .error (.wrap "error decoding response: " e)))
    ∧ (∀ (Update : Type) (update : Codec Update) (request : GetUpdatesRequest),
      Answered (getUpdates update rt b request) b resp →
      (∀ env, decodeResponse rt.intBits
          (decodeSlice update.decode update.zero "[]telegram.Update") none resp.Body
          = .ok env →
        ∃ msg, (getUpdates update rt b request).result = .error (.new msg) ∧
          Reports (.new msg) resp.Status env.ErrorCode env.Description)
      ∧ (∀ e, decodeResponse rt.intBits
          (decodeSlice update.decode update.zero "[]telegram.Update") none resp.Body
          = .error e →
        (getUpdates update rt b request).result
          = .error (.wrap "error decoding response: " e)))
    ∧ (Answered (GetWebhookInfo rt b) b resp →
      (∀ env, decodeResponse rt.intBits (WebhookInfo.decode rt.intBits) WebhookInfo.zero
          resp.Body = .ok env →
        ∃ msg, (GetWebhookInfo rt b).result = .error (.new msg) ∧
          Reports (.new msg) resp.Status env.ErrorCode env.Description)
      ∧ (∀ e, decodeResponse rt.intBits (WebhookInfo.decode rt.intBits) WebhookInfo.zero
          resp.Body = .error e →
        (GetWebhookInfo rt b).result = .error (.wrap "error decoding response: " e)))
    ∧ (∀ (request : SetWebhookRequest),
      Answered (SetWebhook rt b request) b resp →
      (∀ env, decodeResponse rt.intBits decodeAny none resp.Body = .ok env →
        ∃ msg, (SetWebhook rt b request).result = .error (.new msg) ∧
          Reports (.new msg) resp.Status env.ErrorCode env.Description)
      ∧ (∀ e, decodeResponse rt.intBits decodeAny none resp.Body = .error e →
        (SetWebhook rt b request).result = .error (.wrap "error decoding response: " e)))
    ∧ (∀ e : GoError,
      (GoError.wrap "error decoding response: " e).Error
        = "error decoding response: " ++ e.Error
      ∧ (GoError.wrap "error decoding response: " e).Unwrap = some e
      ∧ ¬ HasAPIForm (GoError.wrap "error decoding response: " e).Error) := by
  refine ⟨?_, ?_, ?_, ?_, decode_error_not_api_form⟩
  · intro request h
    refine ⟨fun env hd => ?_, fun e hd => ?_⟩
    · rw [DeleteWebhook_answered h, hd]
      simp only [hstatus, ne_eq, not_false_eq_true, true_or, if_true]
      exact ⟨_, rfl, reports_diagnostic _ _ _ _ _ _⟩
    · rw [DeleteWebhook_answered h, hd]
  · intro Update update request h
    refine ⟨fun env hd => ?_, fun e hd => ?_⟩
    · rw [getUpdates_answered h, hd]
      simp only [hstatus, ne_eq, not_false_eq_true, true_or, if_true]
      exact ⟨_, rfl, reports_diagnostic _ _ _ _ _ _⟩
    · rw [getUpdates_answered h, hd]
  · intro h
    refine ⟨fun env hd => ?_, fun e hd => ?_⟩
    · rw [GetWebhookInfo_answered h, hd]
      simp only [hstatus, ne_eq, not_false_eq_true, true_or, if_true]
      exact ⟨_, rfl, reports_diagnostic _ _ _ _ _ _⟩
    · rw [GetWebhookInfo_answered h, hd]
  · intro request h
    refine ⟨fun env hd => ?_, fun e hd => ?_⟩
    · rw [SetWebhook_answered h, hd]
      simp only [hstatus, ne_eq, not_false_eq_true, true_or, if_true]
      exact ⟨_, rfl, reports_diagnostic _ _ _ _ _ _⟩
    · rw [SetWebhook_answered h, hd]

/-- C3, amended, witness. `getUpdates` answered with status `429 Too Many Requests` and an
envelope returns the diagnostic with status, code 429 and the description. -/
theorem not_ok_status_by_body_witness :
    tooManyRequests.StatusCode ≠ StatusOK
    ∧ Answered (getUpdates exampleUpdate exampleRuntime (botAnswering tooManyRequests)
        ⟨some 100, none, none, none⟩) (botAnswering tooManyRequests) tooManyRequests
    ∧ (getUpdates exampleUpdate exampleRuntime (botAnswering tooManyRequests)
        ⟨some 100, none, none, none⟩).result
      = .error (.new ("HTTP status 429 Too Many Requests, Telegram code  429, "
          ++ "Telegram API error: Too Many Requests: retry after 5"))
    ∧ ∃ msg, (getUpdates exampleUpdate exampleRuntime (botAnswering tooManyRequests)
        ⟨some 100, none, none, none⟩).result = .error (.new msg) ∧
        Reports (.new msg) "429 Too Many Requests" 429 "Too Many Requests: retry after 5" :=
  ⟨by decide, ⟨_, rfl, rfl⟩, by decide,
    ((not_ok_status_by_body exampleRuntime (botAnswering tooManyRequests) tooManyRequests
      (by decide)).2.1 Int exampleUpdate ⟨some 100, none, none, none⟩ ⟨_, rfl, rfl⟩).1
      { Ok := false, Result := none, Description := "Too Many Requests: retry after 5",
        ErrorCode := 429, Parameters := { MigrateToChatID := 0, RetryAfter := 5 } }
      (by decide)⟩

/-! ## C4, C5: the form and the secret-token header of `SetWebhook` -/

/-- The request `SetWebhook` hands to the client when the certificate (if any) is readable
and `http.NewRequest` accepts the URL: exactly one request, whose body is the closed form
of the parts of `SetWebhook.specParts`, and whose secret-token header is the token. -/
theorem SetWebhook_request (rt : Runtime) (b : Bot) (request : SetWebhookRequest)
    (certificate : Option String) (hcert : CertificateIs rt request certificate)
    (hreq : rt.requestError "POST" (telegramEndpoint rt.host b.Token "setWebhook") = none) :
    ∃ req, (SetWebhook rt b request).sent = [req]
      ∧ req.Body = some (Writer.bytes
          { boundary := rt.boundary, parts := SetWebhook.specParts request certificate,
            closed := true })
      ∧ req.getHeader "X-Telegram-Bot-Api-Secret-Token" = request.SecretToken := by
  obtain ⟨url, cp, ip, mc, au, dp, st⟩ := request
  have hform : ∃ w, SetWebhook.formBeforeRequest rt ⟨url, cp, ip, mc, au, dp, st⟩ = .ok w
      ∧ w.boundary = rt.boundary ∧ w.closed = false
      ∧ w.parts ++ (st.map (fieldPart "secret_token")).toList
        = SetWebhook.specParts ⟨url, cp, ip, mc, au, dp, st⟩ certificate := by
    cases certificate with
    | none =>
      simp only [CertificateIs] at hcert
      subst hcert
      cases ip <;> cases mc <;> cases au <;> cases dp <;>
        exact ⟨_, rfl, rfl, rfl, rfl⟩
    | some c =>
      obtain ⟨path, hp, hr⟩ := hcert
      simp only at hp
      subst hp
      cases ip <;> cases mc <;> cases au <;> cases dp <;>
        (apply Exists.intro
         refine And.intro ?_ ?_
         · simp only [SetWebhook.formBeforeRequest, Runtime.Open, hr]; exact rfl
         · exact ⟨rfl, rfl, rfl⟩)
  obtain ⟨w, hw, hb, hc, hparts⟩ := hform
  unfold SetWebhook
  simp only [hw, NewRequest, requestMethod_POST, hreq]
  have hbody : ∀ r : HTTPRequest, (SetWebhook.requestSent ⟨url, cp, ip, mc, au, dp, st⟩ w r).Body
      = some (Writer.bytes
          { boundary := rt.boundary,
            parts := SetWebhook.specParts ⟨url, cp, ip, mc, au, dp, st⟩ certificate,
            closed := true }) := by
    intro r
    rw [← hparts, ← hb]
    cases st <;> simp [SetWebhook.requestSent, Writer.Close, Writer.WriteField, fieldPart]
  have hhead : ∀ r : HTTPRequest, r.Header = [] →
      (SetWebhook.requestSent ⟨url, cp, ip, mc, au, dp, st⟩ w r).getHeader
        "X-Telegram-Bot-Api-Secret-Token" = st := by
    intro r hr
    cases st <;>
      simp [SetWebhook.requestSent, HTTPRequest.getHeader, HTTPRequest.setHeader, hr]
  refine ⟨SetWebhook.requestSent ⟨url, cp, ip, mc, au, dp, st⟩ w
    { Method := "POST", URL := telegramEndpoint rt.host b.Token "setWebhook", Header := [],
      ContentLength := ((some w.bytes).map String.utf8ByteSize).getD 0,
      Body := some w.bytes }, ?_, hbody _, hhead _ rfl⟩
  cases b.client _ with
  | error e => rfl
  | ok r2 =>
    simp only
    repeat' split
    all_goals rfl

/-- Among the parts of the form, the file part `certificate` is there exactly when
`CertificatePath` is set and the file was read. -/
theorem specParts_certificate (rt : Runtime) (request : SetWebhookRequest)
    (certificate : Option String) (hcert : CertificateIs rt request certificate) :
    (SetWebhook.specParts request certificate).filter (fun p => p.filename.isSome)
      = (match request.CertificatePath, certificate with
         | some path, some c => [{ name := "certificate", filename := some path, body := c }]
         | _, _ => [])
    ∧ (request.CertificatePath.isSome = certificate.isSome) := by
  obtain ⟨url, cp, ip, mc, au, dp, st⟩ := request
  cases certificate with
  | none =>
    simp only [CertificateIs] at hcert
    subst hcert
    cases ip <;> cases mc <;> cases au <;> cases dp <;> cases st <;>
      simp [SetWebhook.specParts, fieldPart]
  | some c =>
    obtain ⟨path, hp, -⟩ := hcert
    simp only at hp
    subst hp
    cases ip <;> cases mc <;> cases au <;> cases dp <;> cases st <;>
      simp [SetWebhook.specParts, fieldPart]

/-- The fields named `secret_token` among the parts of the form carry the token. -/
theorem specParts_secret_token (request : SetWebhookRequest) (certificate : Option String) :
    ((SetWebhook.specParts request certificate).filter
      (fun p => p.name == "secret_token")).map Part.body = request.SecretToken.toList := by
  obtain ⟨url, cp, ip, mc, au, dp, st⟩ := request
  cases cp <;> cases certificate <;> cases ip <;> cases mc <;> cases au <;> cases dp <;>
    cases st <;> simp [SetWebhook.specParts, fieldPart]

/-- C4. For every `SetWebhookRequest` whose certificate (if any) can be read and for which
the HTTP request can be created, the form `SetWebhook` sends holds exactly these parts, in
this order: the field `url` with `request.URL`; the file part `certificate` if and only if
`CertificatePath` is set; the fields `ip_address`, `max_connections` (decimal),
`allowed_updates` (JSON array), `drop_pending_updates` (`true` or `false`) and
`secret_token`, each if and only if it is set, with its value. -/
theorem setWebhook_form_parts (rt : Runtime) (b : Bot) (request : SetWebhookRequest)
    (certificate : Option String) (hcert : CertificateIs rt request certificate)
    (hreq : rt.requestError "POST" (telegramEndpoint rt.host b.Token "setWebhook") = none) :
    (∃ req, (SetWebhook rt b request).sent = [req]
      ∧ req.Body = some (Writer.bytes
          { boundary := rt.boundary, parts := SetWebhook.specParts request certificate,
            closed := true }))
    ∧ (SetWebhook.specParts request certificate).filter (fun p => p.filename.isSome)
      = (match request.CertificatePath, certificate with
         | some path, some c => [{ name := "certificate", filename := some path, body := c }]
         | _, _ => [])
    ∧ request.CertificatePath.isSome = certificate.isSome := by
  obtain ⟨req, hs, hb, -⟩ := SetWebhook_request rt b request certificate hcert hreq
  exact ⟨⟨req, hs, hb⟩, specParts_certificate rt request certificate hcert⟩

/-- C4, witness. A request with only `url="https://example.com/hook"` sends a form with
exactly one part, the field `url` with that value, and no certificate part. -/
theorem setWebhook_form_parts_witness :
    CertificateIs exampleRuntime ⟨"https://example.com/hook", none, none, none, none, none, none⟩
      none
    ∧ SetWebhook.specParts ⟨"https://example.com/hook", none, none, none, none, none, none⟩ none
      = [{ name := "url", filename := none, body := "https://example.com/hook" }]
    ∧ ∃ req, (SetWebhook exampleRuntime (botAnswering unauthorizedResponse)
          ⟨"https://example.com/hook", none, none, none, none, none, none⟩).sent = [req]
        ∧ req.Body = some ("--4f1a\r\nContent-Disposition: form-data; name=\"url\"\r\n\r\n"
            ++ "https://example.com/hook\r\n--4f1a--\r\n") :=
  ⟨rfl, rfl,
    (setWebhook_form_parts exampleRuntime (botAnswering unauthorizedResponse)
      ⟨"https://example.com/hook", none, none, none, none, none, none⟩ none rfl rfl).1⟩

/-- C5. For every `SetWebhookRequest` (whose certificate, if any, can be read and for which
the HTTP request can be created), the request `SetWebhook` sends carries the header
`X-Telegram-Bot-Api-Secret-Token` if and only if `SecretToken` is set; when it is set, the
header value is the token, and it is the value of the form field `secret_token`. -/
theorem secret_token_header (rt : Runtime) (b : Bot) (request : SetWebhookRequest)
    (certificate : Option String) (hcert : CertificateIs rt request certificate)
    (hreq : rt.requestError "POST" (telegramEndpoint rt.host b.Token "setWebhook") = none) :
    ∃ req, (SetWebhook rt b request).sent = [req]
      ∧ req.getHeader "X-Telegram-Bot-Api-Secret-Token" = request.SecretToken
      ∧ ∃ parts, req.Body = some (Writer.bytes
            { boundary := rt.boundary, parts := parts, closed := true })
          ∧ (parts.filter (fun p => p.name == "secret_token")).map Part.body
            = (req.getHeader "X-Telegram-Bot-Api-Secret-Token").toList := by
  obtain ⟨req, hs, hb, hh⟩ := SetWebhook_request rt b request certificate hcert hreq
  exact ⟨req, hs, hh, _, hb, by rw [hh]; exact specParts_secret_token request certificate⟩

/-- C5, witness. A request with `SecretToken = "s3cr3t-Token_1"` is sent with that header
value and with the form field `secret_token` of the same value. -/
theorem secret_token_header_witness :
    CertificateIs exampleRuntime
      ⟨"https://example.com/hook", none, none, none, none, none, some "s3cr3t-Token_1"⟩ none
    ∧ ∃ req, (SetWebhook exampleRuntime (botAnswering unauthorizedResponse)
          ⟨"https://example.com/hook", none, none, none, none, none,
            some "s3cr3t-Token_1"⟩).sent = [req]
        ∧ req.getHeader "X-Telegram-Bot-Api-Secret-Token" = some "s3cr3t-Token_1"
        ∧ ∃ parts, req.Body = some (Writer.bytes
              { boundary := "4f1a", parts := parts, closed := true })
            ∧ (parts.filter (fun p => p.name == "secret_token")).map Part.body
              = (req.getHeader "X-Telegram-Bot-Api-Secret-Token").toList :=
  ⟨rfl,
    secret_token_header exampleRuntime (botAnswering unauthorizedResponse)
      ⟨"https://example.com/hook", none, none, none, none, none, some "s3cr3t-Token_1"⟩
      none rfl rfl⟩

/-! ## C6: the body of a `getUpdates` request -/

theorem sendRequest_sent (rt : Runtime) (b : Bot) (m ct tm : String) (p : Option String)
    (hm : m ≠ "")
    (hreq : rt.requestError m (telegramEndpoint rt.host b.Token tm) = none) :
    ∃ req, (sendRequest rt b m ct tm p).sent = [req] ∧ req.Body = p ∧ req.Method = m
      ∧ req.URL = telegramEndpoint rt.host b.Token tm := by
  unfold sendRequest
  simp only [NewRequest, requestMethod_of_ne hm, hreq]
  cases b.client _ <;> exact ⟨_, rfl, rfl, rfl, rfl⟩

theorem encodeObject_members (r : GetUpdatesRequest) :
    encodeObject r.members = r.specObject := by
  have h1 : encodeString "offset" = "\"offset\"" := by decide
  have h2 : encodeString "limit" = "\"limit\"" := by decide
  have h3 : encodeString "timeout" = "\"timeout\"" := by decide
  have h4 : encodeString "allowed_updates" = "\"allowed_updates\"" := by decide
  have e1 : ("\"offset\"" : String) ++ ":" = "\"offset\":" := by decide
  have e2 : ("\"limit\"" : String) ++ ":" = "\"limit\":" := by decide
  have e3 : ("\"timeout\"" : String) ++ ":" = "\"timeout\":" := by decide
  have e4 : ("\"allowed_updates\"" : String) ++ ":" = "\"allowed_updates\":" := by decide
  have e5 : ("\"allowed_updates\":" : String) ++ "[" = "\"allowed_updates\":[" := by decide
  obtain ⟨o, l, t, au⟩ := r
  rcases au with _ | _ | ⟨u, us⟩ <;> cases o <;> cases l <;> cases t <;>
    simp [GetUpdatesRequest.members, GetUpdatesRequest.specObject, encodeObject, omitemptyPtr,
      omitemptySlice, encodeSlice, encodeInt, h1, h2, h3, h4, e1, e2, e3, e4, e5,
      ← String.append_assoc]

/-- C6 as stated fails. For `offset=100, limit=10, timeout=0` and no allowed updates the
body `getUpdates` sends is not exactly `{"offset":100,"limit":10,"timeout":0}`: the encoder
ends the value with a newline. -/
theorem getUpdates_body_not_bare_object :
    (getUpdates exampleUpdate exampleRuntime (botAnswering noUpdates)
        ⟨some 100, some 10, some 0, none⟩).sent.map HTTPRequest.Body
      = [some "\x7b\"offset\":100,\"limit\":10,\"timeout\":0\x7d\n"]
    ∧ (getUpdates exampleUpdate exampleRuntime (botAnswering noUpdates)
        ⟨some 100, some 10, some 0, none⟩).sent.map HTTPRequest.Body
      ≠ [some "\x7b\"offset\":100,\"limit\":10,\"timeout\":0\x7d"] := by
  constructor <;> decide

/-- C6, amended. For every `GetUpdatesRequest` (for which the HTTP request can be created)
the body `getUpdates` sends is one JSON object followed by a newline; the keys of the
object are those of `offset`, `limit`, `timeout` whose field is set (a field set to 0 is
written), then `allowed_updates` when the list is not empty, in that order, each with the
value of the field. -/
theorem getUpdates_body (Update : Type) (update : Codec Update) (rt : Runtime) (b : Bot)
    (request : GetUpdatesRequest)
    (hreq : rt.requestError "POST" (telegramEndpoint rt.host b.Token "getUpdates") = none) :
    ∃ req, (getUpdates update rt b request).sent = [req]
      ∧ req.Body = some (request.specObject ++ "\n") := by
  obtain ⟨req, hs, hb, -⟩ := sendRequest_sent rt b "POST" "application/json" "getUpdates"
    (some (encodeObject request.members ++ "\n")) (by decide) hreq
  refine ⟨req, ?_, ?_⟩
  · rw [getUpdates_sent, hs]
  · rw [hb, encodeObject_members]

/-- C6, amended, witness. For `offset=100, limit=10, timeout=0` the body is
`{"offset":100,"limit":10,"timeout":0}` followed by a newline. -/
theorem getUpdates_body_witness :
    exampleRuntime.requestError "POST"
        (telegramEndpoint exampleRuntime.host (botAnswering noUpdates).Token "getUpdates")
      = none
    ∧ ∃ req, (getUpdates exampleUpdate exampleRuntime (botAnswering noUpdates)
          ⟨some 100, some 10, some 0, none⟩).sent = [req]
        ∧ req.Body = some ("\x7b\"offset\":100,\"limit\":10,\"timeout\":0\x7d" ++ "\n") :=
  ⟨rfl, getUpdates_body Int exampleUpdate exampleRuntime (botAnswering noUpdates)
    ⟨some 100, some 10, some 0, none⟩ rfl⟩

/-! ## C7: a successful `getUpdates` returns the update list of the envelope -/

/-- Decoding an array into a fresh slice decodes the elements one by one, in order. -/
theorem decodeElems_forall₂ {α : Type} (dec : α → JSON → Except GoError α) (zero : α) :
    ∀ (xs : List JSON) (us : List α), decodeElems dec zero [] xs = .ok us →
      List.Forall₂ (fun x u => dec zero x = .ok u) xs us
  | [], us, h => by
    simp only [decodeElems] at h
    cases h
    exact List.Forall₂.nil
  | x :: xs, us, h => by
    simp only [decodeElems, List.headD_nil, List.tail_nil] at h
    cases hx : dec zero x with
    | error e => simp [hx] at h
    | ok v =>
      simp only [hx] at h
      cases hxs : decodeElems dec zero [] xs with
      | error e => simp [hxs] at h
      | ok vs =>
        simp only [hxs] at h
        cases h
        exact List.Forall₂.cons hx (decodeElems_forall₂ dec zero xs vs hxs)

/-- A member whose key is not the one of `result` leaves the field `Result` as it is. -/
theorem Envelope.setField_result {ρ : Type} (intBits : Nat)
    (decResult : ρ → JSON → Except GoError ρ) (e e1 : Envelope ρ) (key : String) (v : JSON)
    (hk : findField Envelope.fieldNames key ≠ some "result")
    (h : Envelope.setField intBits decResult e key v = .ok e1) : e1.Result = e.Result := by
  unfold Envelope.setField at h
  split at h
  · cases hd : decodeBool e.Ok v <;> simp [hd, storeField] at h
    subst h; rfl
  · exact absurd (by assumption) hk
  · cases hd : decodeString e.Description v <;> simp [hd, storeField] at h
    subst h; rfl
  · cases hd : decodeInt intBits "int" e.ErrorCode v <;> simp [hd, storeField] at h
    subst h; rfl
  · cases hd : ResponseParameters.decode intBits e.Parameters v <;> simp [hd, storeField] at h
    subst h; rfl
  · cases h; rfl

/-- Members none of whose keys is the one of `result` leave the field `Result` as it is. -/
theorem Envelope.foldlM_result {ρ : Type} (intBits : Nat)
    (decResult : ρ → JSON → Except GoError ρ) :
    ∀ (kvs : List (String × JSON)) (e e1 : Envelope ρ),
      (∀ kv ∈ kvs, findField Envelope.fieldNames kv.1 ≠ some "result") →
      kvs.foldlM (fun s kv => Envelope.setField intBits decResult s kv.1 kv.2) e = .ok e1 →
      e1.Result = e.Result
  | [], e, e1, _, h => by
    simp only [List.foldlM_nil] at h
    cases h; rfl
  | kv :: kvs, e, e1, hk, h => by
    simp only [List.foldlM_cons] at h
    cases hs : Envelope.setField intBits decResult e kv.1 kv.2 with
    | error err =>
      rw [hs] at h
      cases h
    | ok e2 =>
      rw [hs] at h
      have h2 := Envelope.foldlM_result intBits decResult kvs e2 e1
        (fun kv2 hm => hk kv2 (List.mem_cons_of_mem _ hm)) h
      rw [h2]
      exact Envelope.setField_result intBits decResult e e2 kv.1 kv.2
        (hk kv (List.mem_cons_self _ _)) hs

/-- When the body is an object with exactly one member for `result`, and that member is an
array, the decoded `Result` is the list of the decoded elements of the array, in order. -/
theorem decodeResponse_result_array {Update : Type} (update : Codec Update) (intBits : Nat)
    (body : String) (env : Envelope (Option (List Update)))
    (pre post : List (String × JSON)) (key : String) (xs : List JSON)
    (hbody : readValue body = .ok (.obj (pre ++ (key, .arr xs) :: post)))
    (hkey : findField Envelope.fieldNames key = some "result")
    (hpre : ∀ kv ∈ pre, findField Envelope.fieldNames kv.1 ≠ some "result")
    (hpost : ∀ kv ∈ post, findField Envelope.fieldNames kv.1 ≠ some "result")
    (hd : decodeResponse intBits (decodeSlice update.decode update.zero "[]telegram.Update")
      none body = .ok env) :
    ∃ us, env.Result = some us ∧
      List.Forall₂ (fun x u => update.decode update.zero x = .ok u) xs us := by
  unfold decodeResponse decoderDecode at hd
  rw [hbody] at hd
  simp only [decodeStruct, List.foldlM_append, List.foldlM_cons] at hd
  cases h1 : pre.foldlM (fun s kv => Envelope.setField intBits
      (decodeSlice update.decode update.zero "[]telegram.Update") s kv.1 kv.2)
      (Envelope.zero none) with
  | error err =>
    rw [h1] at hd
    cases hd
  | ok e1 =>
    rw [h1] at hd
    have hr1 : e1.Result = none := Envelope.foldlM_result _ _ pre _ e1 hpre h1
    cases h2 : Envelope.setField intBits
        (decodeSlice update.decode update.zero "[]telegram.Update") e1 key (.arr xs) with
    | error err =>
      simp only [bind, Except.bind, h2] at hd
      cases hd
    | ok e2 =>
      simp only [bind, Except.bind, h2] at hd
      have hr3 : env.Result = e2.Result := Envelope.foldlM_result _ _ post e2 env hpost hd
      unfold Envelope.setField at h2
      rw [hkey] at h2
      simp only [decodeSlice, hr1, Option.getD_none] at h2
      cases h3 : decodeElems update.decode update.zero [] xs with
      | error err => simp [h3, storeField] at h2
      | ok us =>
        simp only [h3, storeField, Except.ok.injEq] at h2
        refine ⟨us, ?_, decodeElems_forall₂ _ _ xs us h3⟩
        rw [hr3, ← h2]

/-- C7. For every response with status code 200 whose envelope has `ok=true`, `getUpdates`
returns no error and the update list of the envelope's `result`; when the body is an
object whose member `result` is an array, that list has one update per element of the
array, each decoded from the element at the same position. -/
theorem getUpdates_returns_result (Update : Type) (update : Codec Update) (rt : Runtime)
    (b : Bot) (request : GetUpdatesRequest) (resp : HTTPResponse)
    (env : Envelope (Option (List Update)))
    (h : Answered (getUpdates update rt b request) b resp)
    (hstatus : resp.StatusCode = StatusOK)
    (hd : decodeResponse rt.intBits (decodeSlice update.decode update.zero "[]telegram.Update")
      none resp.Body = .ok env)
    (hok : env.Ok = true) :
    (getUpdates update rt b request).result = .ok env.Result
    ∧ ∀ (pre post : List (String × JSON)) (key : String) (xs : List JSON),
        readValue resp.Body = .ok (.obj (pre ++ (key, .arr xs) :: post)) →
        findField Envelope.fieldNames key = some "result" →
        (∀ kv ∈ pre, findField Envelope.fieldNames kv.1 ≠ some "result") →
        (∀ kv ∈ post, findField Envelope.fieldNames kv.1 ≠ some "result") →
        ∃ us, env.Result = some us ∧ us.length = xs.length ∧
          List.Forall₂ (fun x u => update.decode update.zero x = .ok u) xs us := by
  constructor
  · rw [getUpdates_answered h, hd]
    simp [hstatus, hok]
  · intro pre post key xs hbody hkey hpre hpost
    obtain ⟨us, hu, hf⟩ := decodeResponse_result_array update rt.intBits resp.Body env pre post
      key xs hbody hkey hpre hpost hd
    exact ⟨us, hu, hf.length_eq.symm, hf⟩

/-- C7, witness. The body `{"ok":true,"result":[]}` with status 200 gives an empty update
list and no error. -/
theorem getUpdates_returns_result_witness :
    Answered (getUpdates exampleUpdate exampleRuntime (botAnswering noUpdates)
      ⟨none, none, none, none⟩) (botAnswering noUpdates) noUpdates
    ∧ noUpdates.StatusCode = StatusOK
    ∧ decodeResponse 64 (decodeSlice exampleUpdate.decode exampleUpdate.zero
        "[]telegram.Update") none noUpdates.Body
      = .ok { Ok := true, Result := some [], Description := "", ErrorCode := 0,
              Parameters := ResponseParameters.zero }
    ∧ (getUpdates exampleUpdate exampleRuntime (botAnswering noUpdates)
        ⟨none, none, none, none⟩).result = .ok (some []) :=
  ⟨⟨_, rfl, rfl⟩, rfl, by decide,
    (getUpdates_returns_result Int exampleUpdate exampleRuntime (botAnswering noUpdates)
      ⟨none, none, none, none⟩ noUpdates
      { Ok := true, Result := some [], Description := "", ErrorCode := 0,
        Parameters := ResponseParameters.zero }
      ⟨_, rfl, rfl⟩ rfl (by decide) rfl).1⟩

/-- A body with two updates gives the two updates in the order of the body. -/
theorem getUpdates_two_updates :
    (getUpdates exampleUpdate exampleRuntime (botAnswering twoUpdates)
      ⟨some 7, none, some 30, none⟩).result = .ok (some [8, 7]) := by
  decide

/-! ## C8: an empty `AllowedUpdates` on the wire -/

/-- C8, the defect. In `getUpdates` a request whose `AllowedUpdates` is the empty list
sends the same requests as one whose `AllowedUpdates` is not specified (for the empty
request, the body `{}`): `omitempty` drops the empty slice. `SetWebhook`, which tests the
list against `nil`, sends different requests in the two cases. -/
theorem getUpdates_empty_allowed_updates_omitted :
    (∀ (Update : Type) (update : Codec Update) (rt : Runtime) (b : Bot)
        (offset limit timeout : Option Int),
      (getUpdates update rt b ⟨offset, limit, timeout, some []⟩).sent
        = (getUpdates update rt b ⟨offset, limit, timeout, none⟩).sent)
    ∧ (getUpdates exampleUpdate exampleRuntime (botAnswering noUpdates)
        ⟨none, none, none, some []⟩).sent.map HTTPRequest.Body = [some "\x7b\x7d\n"]
    ∧ (getUpdates exampleUpdate exampleRuntime (botAnswering noUpdates)
        ⟨none, none, none, none⟩).sent.map HTTPRequest.Body = [some "\x7b\x7d\n"]
    ∧ (SetWebhook exampleRuntime (botAnswering noUpdates)
        ⟨"https://example.com/hook", none, none, none, some [], none, none⟩).sent
      ≠ (SetWebhook exampleRuntime (botAnswering noUpdates)
        ⟨"https://example.com/hook", none, none, none, none, none, none⟩).sent := by
  refine ⟨?_, by decide, by decide, by decide⟩
  intro Update update rt b offset limit timeout
  rw [getUpdates_sent, getUpdates_sent]
  rfl

/-! ## C9: optional fields of the schema records -/

/-- C9, the defect. `GetWebhookInfo` returns the same `WebhookInfo` for a payload in which
`ip_address`, `last_error_date`, `last_error_message`, `last_synchronization_error_date`
and `max_connections` are absent and for one in which they are present with the values
`""` and `0`: these fields are declared `string` and `int`, not pointers. -/
theorem webhookInfo_absent_equals_zero :
    (GetWebhookInfo exampleRuntime (botAnswering webhookInfoAbsent)).result
      = (GetWebhookInfo exampleRuntime (botAnswering webhookInfoZero)).result
    ∧ (GetWebhookInfo exampleRuntime (botAnswering webhookInfoAbsent)).result
      = .ok WebhookInfo.zero := by
  constructor <;> decide

/-- In `Voice`, whose optional fields are pointers, an absent `mime_type` and an empty one
decode to different values, and so do an absent `file_size` and a `file_size` of 0. -/
theorem voice_absent_differs_from_zero :
    decoderDecode (Voice.decode 64) Voice.zero "\x7b\"file_id\":\"a\"\x7d"
      = .ok { Voice.zero with FileID := "a" }
    ∧ decoderDecode (Voice.decode 64) Voice.zero
        "\x7b\"file_id\":\"a\",\"mime_type\":\"\",\"file_size\":0\x7d"
      = .ok { Voice.zero with FileID := "a", MimeType := some "", FileSize := some 0 } := by
  constructor <;> decide

/-- In `WebhookInfo`, the slice `AllowedUpdates` tells an absent key (`nil`) from an empty
list. -/
theorem webhookInfo_allowed_updates_absent_differs :
    decoderDecode (WebhookInfo.decode 64) WebhookInfo.zero "\x7b\"url\":\"\"\x7d"
      = .ok WebhookInfo.zero
    ∧ decoderDecode (WebhookInfo.decode 64) WebhookInfo.zero
        "\x7b\"url\":\"\",\"allowed_updates\":[]\x7d"
      = .ok { WebhookInfo.zero with AllowedUpdates := some [] } := by
  constructor <;> decide

/-! ## C10: fields that may exceed 32 bits -/

/-- Every integer of the 64-bit range decodes into an `int64` field as itself. -/
theorem decodeInt64_in_range (goType : String) (cur v : Int)
    (hlo : -(2 : Int) ^ 63 ≤ v) (hhi : v < (2 : Int) ^ 63) :
    decodeInt 64 goType cur (.int v) = .ok v := by
  have h : fitsInt 64 v = true := by
    simp only [fitsInt, Bool.and_eq_true, decide_eq_true_eq]
    exact ⟨hlo, hhi⟩
  simp [decodeInt, h]

/-- No integer above `2^32` decodes into an `int` field when `int` has 32 bits. -/
theorem decodeInt32_above (goType : String) (cur v : Int) (h : (2 : Int) ^ 32 < v) :
    decodeInt 32 goType cur (.int v)
      = .error (unmarshalTypeError ("number " ++ toString v) goType) := by
  have hf : fitsInt 32 v = false := by
    simp only [fitsInt, Bool.and_eq_false_imp, decide_eq_true_eq, decide_eq_false_iff_not,
      not_lt]
    intro _
    have : (2 : Int) ^ (32 - 1) ≤ (2 : Int) ^ 32 := by norm_num
    omega
  simp [decodeInt, hf, JSON.kind]

/-- C10, the defect. `Voice.FileSize` is declared `*int`, not `*int64`: where `int` has 32
bits, a `Voice` whose `file_size` is `2^32 + 1` does not decode (the decoder returns an
`UnmarshalTypeError`), while with a 64-bit `int` it decodes and encodes back to the same
text. `SharedUser.UserID`, declared `int64`, decodes `2^32 + 1` and encodes it back as
itself whatever the width of `int`. -/
theorem voice_file_size_is_int :
    decoderDecode (Voice.decode 32) Voice.zero
        "\x7b\"file_id\":\"a\",\"file_unique_id\":\"b\",\"duration\":1,\"file_size\":4294967297\x7d"
      = .error (.unmarshalType "number 4294967297" "int" "Voice" "file_size")
    ∧ (GoError.unmarshalType "number 4294967297" "int" "Voice" "file_size").Error
      = "json: cannot unmarshal number 4294967297 into Go struct field Voice.file_size "
        ++ "of type int"
    ∧ decoderDecode (Voice.decode 64) Voice.zero
        "\x7b\"file_id\":\"a\",\"file_unique_id\":\"b\",\"duration\":1,\"file_size\":4294967297\x7d"
      = .ok { FileID := "a", FileUniqueID := "b", Duration := 1, MimeType := none,
              FileSize := some 4294967297 }
    ∧ Voice.encode ⟨"a", "b", 1, none, some 4294967297⟩
      = "\x7b\"file_id\":\"a\",\"file_unique_id\":\"b\",\"duration\":1,\"file_size\":4294967297\x7d"
    ∧ decoderDecode (SharedUser.decode examplePhotoSize) SharedUser.zero
        "\x7b\"user_id\":4294967297\x7d"
      = .ok { SharedUser.zero with UserID := 4294967297 }
    ∧ SharedUser.encode examplePhotoSize { SharedUser.zero with UserID := 4294967297 }
      = "\x7b\"user_id\":4294967297\x7d" := by
  refine ⟨by decide, by decide, by decide, by decide, by decide, by decide⟩

/-! ## C11: encoding a request and decoding it back -/

/-! ### The scanner reads back what the encoder writes -/

theorem digitChar_digit : ∀ d, d < 10 →
    isDigit (Nat.digitChar d) = true ∧ digitVal (Nat.digitChar d) = d
      ∧ (Nat.digitChar d = '0' → d = 0) := by
  decide

theorem digitsVal_append (pre : List Char) (d : Char) :
    digitsVal (pre ++ [d]) = digitsVal pre * 10 + digitVal d := by
  simp [digitsVal, List.foldl_append]

/-- The decimal digits `Nat.toDigits` writes: at least one, all digits, denoting the
number, and with a leading `0` only for the number 0. -/
theorem toDigitsCore_digits : ∀ (fuel n : Nat) (ds : List Char), n < fuel →
    ∃ pre, Nat.toDigitsCore 10 fuel n ds = pre ++ ds ∧ pre ≠ []
      ∧ (∀ c ∈ pre, isDigit c = true) ∧ digitsVal pre = n
      ∧ (pre.head? = some '0' → pre = ['0'])
  | 0, _, _, h => absurd h (Nat.not_lt_zero _)
  | fuel + 1, n, ds, h => by
    simp only [Nat.toDigitsCore]
    have hd := digitChar_digit (n % 10) (Nat.mod_lt _ (by decide))
    split
    · rename_i h0
      refine ⟨[Nat.digitChar (n % 10)], rfl, by simp, ?_, ?_, ?_⟩
      · intro c hc
        simp only [List.mem_singleton] at hc
        rw [hc]
        exact hd.1
      · simp only [digitsVal, List.foldl_cons, List.foldl_nil, Nat.zero_mul, Nat.zero_add,
          hd.2.1]
        omega
      · intro hh
        simp only [List.head?_cons, Option.some.injEq] at hh
        rw [hh]
    · rename_i h0
      obtain ⟨pre, hp, hne, hdig, hval, hhead⟩ :=
        toDigitsCore_digits fuel (n / 10) (Nat.digitChar (n % 10) :: ds) (by omega)
      refine ⟨pre ++ [Nat.digitChar (n % 10)], by simp [hp], by simp, ?_, ?_, ?_⟩
      · intro c hc
        simp only [List.mem_append, List.mem_singleton] at hc
        rcases hc with hc | hc
        · exact hdig c hc
        · rw [hc]
          exact hd.1
      · rw [digitsVal_append, hval, hd.2.1]
        omega
      · intro hh
        exfalso
        cases pre with
        | nil => exact hne rfl
        | cons a t =>
          simp only [List.cons_append, List.head?_cons, Option.some.injEq] at hh
          have := hhead (by simp [hh])
          rw [this] at hval
          simp [digitsVal, digitVal] at hval
          omega

theorem takeDigits_digits : ∀ (pre rest acc : List Char),
    (∀ c ∈ pre, isDigit c = true) → (∀ c, rest.head? = some c → isDigit c = false) →
    takeDigits (pre ++ rest) acc = (acc.reverse ++ pre, rest)
  | [], [], acc, _, _ => by simp [takeDigits]
  | [], c :: rest, acc, _, hr => by
    simp [takeDigits, hr c rfl]
  | d :: pre, rest, acc, hp, hr => by
    have hd : isDigit d = true := hp d (List.mem_cons_self _ _)
    have ih := takeDigits_digits pre rest (d :: acc)
      (fun c hc => hp c (List.mem_cons_of_mem _ hc)) hr
    rw [List.cons_append, takeDigits, if_pos hd, ih]
    simp

theorem scanNumber_digits (neg : Bool) (pre rest : List Char) (hne : pre ≠ [])
    (hdig : ∀ c ∈ pre, isDigit c = true) (hhead : pre.head? = some '0' → pre = ['0'])
    (hrest : EndsValue rest) :
    scanNumber neg (pre ++ rest)
      = .ok (.int (if neg then -(digitsVal pre : Int) else (digitsVal pre : Int)), rest) := by
  obtain ⟨c, t, hc, hdelim⟩ := hrest
  subst hc
  have hcd : isDigit c = false := by
    rcases hdelim with h | h | h <;> subst h <;> decide
  have hint : scanIntPart (pre ++ c :: t) = (pre, c :: t) := by
    cases pre with
    | nil => exact absurd rfl hne
    | cons p ps =>
      simp only [scanIntPart, List.cons_append]
      split
      · rename_i hp
        have hp2 : p = '0' := by simpa using hp
        have := hhead (by simp [hp2])
        simp only [List.cons.injEq] at this
        rw [this.2, hp2]
        rfl
      · have := takeDigits_digits (p :: ps) (c :: t) [] hdig
          (fun x hx => by
            simp only [List.head?_cons, Option.some.injEq] at hx
            rw [← hx]
            exact hcd)
        simpa using this
  have hfrac : scanFrac (c :: t) = .ok ([], c :: t) := by
    simp only [scanFrac]
    rcases hdelim with h | h | h <;> subst h <;> rfl
  have hexp : scanExp (c :: t) = .ok ([], c :: t) := by
    simp only [scanExp]
    rcases hdelim with h | h | h <;> subst h <;> rfl
  cases pre with
  | nil => exact absurd rfl hne
  | cons p ps =>
    simp only [scanNumber, hint, hfrac, hexp, and_self, if_true]

theorem toString_nat_data (m : Nat) : (toString m).data = Nat.toDigitsCore 10 (m + 1) m [] :=
  rfl

theorem toString_int_data (n : Int) :
    (toString n).data =
      match n with
      | Int.ofNat m => Nat.toDigitsCore 10 (m + 1) m []
      | Int.negSucc m => '-' :: Nat.toDigitsCore 10 (m + 2) (m + 1) [] := by
  cases n <;> rfl

theorem skipSpace_of_not_space (c : Char) (t : List Char) (h : isSpace c = false) :
    skipSpace (c :: t) = c :: t := by
  simp [skipSpace, h]

/-- A number the encoder wrote, followed by a comma or a closing bracket, is scanned as
that number. -/
theorem scanValue_int (fuel depth : Nat) (n : Int) (rest : List Char)
    (hrest : EndsValue rest) :
    scanValue (fuel + 1) depth ((toString n).data ++ rest) = .ok (.int n, rest) := by
  have hdigit : ∀ (c : Char) (t : List Char), isDigit c = true →
      scanValue (fuel + 1) depth (c :: t) = scanNumber false (c :: t) := by
    intro c t hd
    have hs : isSpace c = false := by
      cases h : isSpace c
      · rfl
      · exfalso
        simp only [isSpace, Bool.or_eq_true, beq_iff_eq] at h
        rcases h with ((h | h) | h) | h <;> subst h <;> revert hd <;> decide
    have hne : ∀ x : Char, isDigit x = false → (c == x) = false := by
      intro x hx
      cases h : c == x
      · rfl
      · have := beq_iff_eq.mp h
        rw [this, hx] at hd
        cases hd
    simp only [scanValue, skipSpace_of_not_space c t hs, hne '\x7b' (by decide),
      hne '[' (by decide), hne '"' (by decide), hne 't' (by decide), hne 'f' (by decide),
      hne 'n' (by decide), hne '-' (by decide), hd, if_true, Bool.false_eq_true, if_false]
  rw [toString_int_data]
  cases n with
  | ofNat m =>
    obtain ⟨pre, hp, hne, hdig, hval, hhead⟩ := toDigitsCore_digits (m + 1) m [] (by omega)
    simp only [List.append_nil] at hp
    simp only [hp]
    cases hpre : pre with
    | nil => exact absurd hpre hne
    | cons p ps =>
      rw [List.cons_append,
        hdigit p (ps ++ rest) (hdig p (by rw [hpre]; exact List.mem_cons_self _ _)),
        ← List.cons_append, ← hpre, scanNumber_digits false pre rest hne hdig hhead hrest, hval]
      rfl
  | negSucc m =>
    obtain ⟨pre, hp, hne, hdig, hval, hhead⟩ :=
      toDigitsCore_digits (m + 2) (m + 1) [] (by omega)
    simp only [List.append_nil] at hp
    simp only [hp, List.cons_append]
    have hminus : scanValue (fuel + 1) depth ('-' :: (pre ++ rest))
        = scanNumber true (pre ++ rest) := by
      simp only [scanValue]
      rfl
    rw [hminus, scanNumber_digits true pre rest hne hdig hhead hrest, hval]
    rfl

theorem hexVal_hexDigit : ∀ k, k < 16 → hexVal (hexDigit k) = some k := by
  decide

theorem char_eq_of_toNat {c : Char} {n : Nat} (h : c.toNat = n) : c = Char.ofNat n := by
  rw [← h, Char.ofNat_toNat]

theorem unquoteRune_below_surrogates (c : Char) (tail : List Char) (h : c.toNat < 0xD800) :
    unquoteRune c.toNat tail = (c, tail) := by
  unfold unquoteRune
  rw [if_neg (by omega), if_neg (by omega), Char.ofNat_toNat]

theorem hex4_of_small (n : Nat) (tail : List Char) (h : n < 256) :
    hex4 ('0' :: '0' :: hexDigit (n / 16) :: hexDigit (n % 16) :: tail) = some (n, tail) := by
  have h0 : hexVal '0' = some 0 := by decide
  simp only [hex4, h0, hexVal_hexDigit (n / 16) (by omega),
    hexVal_hexDigit (n % 16) (Nat.mod_lt _ (by decide))]
  congr 2
  omega

theorem hex4_2028 (tail : List Char) :
    hex4 ('2' :: '0' :: '2' :: '8' :: tail) = some (0x2028, tail) := by
  have h0 : hexVal '0' = some 0 := by decide
  have h2 : hexVal '2' = some 2 := by decide
  have h8 : hexVal '8' = some 8 := by decide
  simp only [hex4, h0, h2, h8]

theorem hex4_2029 (tail : List Char) :
    hex4 ('2' :: '0' :: '2' :: '9' :: tail) = some (0x2029, tail) := by
  have h0 : hexVal '0' = some 0 := by decide
  have h2 : hexVal '2' = some 2 := by decide
  have h9 : hexVal '9' = some 9 := by decide
  simp only [hex4, h0, h2, h9]

theorem scanString_u (fuel : Nat) (r acc : List Char) (u : Nat) (r2 : List Char)
    (h : hex4 r = some (u, r2)) :
    scanString (fuel + 1) ('\\' :: 'u' :: r) acc =
      scanString fuel (unquoteRune u r2).2 ((unquoteRune u r2).1 :: acc) := by
  simp [scanString, h]

theorem scanString_short (fuel : Nat) (e x : Char) (r acc : List Char)
    (he : escapeChar e = some x) (hu : e ≠ 'u') :
    scanString (fuel + 1) ('\\' :: e :: r) acc = scanString fuel r (x :: acc) := by
  simp [scanString, he, hu]

/-- The scanner reads the escape the encoder wrote for a rune back as the rune. -/
theorem scanString_escapeRune (c : Char) (fuel : Nat) (tail acc : List Char) :
    scanString (fuel + 1) (escapeRune c ++ tail) acc = scanString fuel tail (c :: acc) := by
  unfold escapeRune
  split
  · rename_i h
    have hc : c = '"' := by simpa using h
    subst hc
    exact scanString_short fuel '"' '"' tail acc (by decide) (by decide)
  split
  · rename_i h
    have hc : c = '\\' := by simpa using h
    subst hc
    exact scanString_short fuel '\\' '\\' tail acc (by decide) (by decide)
  split
  · rename_i h
    have hc := char_eq_of_toNat (beq_iff_eq.mp h)
    subst hc
    exact scanString_short fuel 'b' _ tail acc (by decide) (by decide)
  split
  · rename_i h
    have hc := char_eq_of_toNat (beq_iff_eq.mp h)
    subst hc
    exact scanString_short fuel 'f' _ tail acc (by decide) (by decide)
  split
  · rename_i h
    have hc : c = '\n' := by simpa using h
    subst hc
    exact scanString_short fuel 'n' _ tail acc (by decide) (by decide)
  split
  · rename_i h
    have hc : c = '\r' := by simpa using h
    subst hc
    exact scanString_short fuel 'r' _ tail acc (by decide) (by decide)
  split
  · rename_i h
    have hc : c = '\t' := by simpa using h
    subst hc
    exact scanString_short fuel 't' _ tail acc (by decide) (by decide)
  split
  · rename_i h
    have hlt : c.toNat < 256 := by
      rcases h with h | h | h | h
      · omega
      · have hc : c = '<' := by simpa using h
        subst hc; decide
      · have hc : c = '>' := by simpa using h
        subst hc; decide
      · have hc : c = '&' := by simpa using h
        subst hc; decide
    show scanString (fuel + 1)
      ('\\' :: 'u' :: ('0' :: '0' :: hexDigit (c.toNat / 16) :: hexDigit (c.toNat % 16) :: tail))
      acc = _
    rw [scanString_u _ _ _ _ _ (hex4_of_small _ _ hlt)]
    simp only [unquoteRune_below_surrogates c tail (by omega)]
  split
  · rename_i h
    have hn : c.toNat = 0x2028 := beq_iff_eq.mp h
    show scanString (fuel + 1) ('\\' :: 'u' :: ('2' :: '0' :: '2' :: '8' :: tail)) acc = _
    rw [scanString_u _ _ _ _ _ (hex4_2028 _)]
    simp only [← hn, unquoteRune_below_surrogates c tail (by omega)]
  split
  · rename_i h
    have hn : c.toNat = 0x2029 := beq_iff_eq.mp h
    show scanString (fuel + 1) ('\\' :: 'u' :: ('2' :: '0' :: '2' :: '9' :: tail)) acc = _
    rw [scanString_u _ _ _ _ _ (hex4_2029 _)]
    simp only [← hn, unquoteRune_below_surrogates c tail (by omega)]
  · rename_i h1 h2 _ _ _ _ _ h8 _ _
    have hq : (c == '"') = false := by simpa using h1
    have hb : (c == '\\') = false := by simpa using h2
    have hctl : ¬ c.toNat < 0x20 := fun h => h8 (Or.inl h)
    simp [scanString, hq, hb, hctl]

theorem escapeRune_length (c : Char) : 1 ≤ (escapeRune c).length := by
  unfold escapeRune
  repeat' split
  all_goals simp

theorem escaped_length : ∀ s : List Char, s.length ≤ ((s.map escapeRune).flatten).length
  | [] => by simp
  | c :: s => by
    have h1 := escapeRune_length c
    have h2 := escaped_length s
    simp only [List.map_cons, List.flatten_cons, List.length_append, List.length_cons]
    omega

/-- The scanner reads an escaped string up to its closing quote back as the string. -/
theorem scanString_escaped : ∀ (s : List Char) (k : Nat) (tail acc : List Char),
    scanString (s.length + 1 + k) ((s.map escapeRune).flatten ++ '"' :: tail) acc
      = .ok (String.mk (acc.reverse ++ s), tail)
  | [], k, tail, acc => by
    have : ([] : List Char).length + 1 + k = k + 1 := by simp; omega
    rw [this]
    simp [scanString]
  | c :: s, k, tail, acc => by
    have : (c :: s).length + 1 + k = (s.length + 1 + k) + 1 := by simp; omega
    rw [this, List.map_cons, List.flatten_cons, List.append_assoc, scanString_escapeRune,
      scanString_escaped s k tail (c :: acc)]
    simp

theorem encodeString_data (s : String) :
    (encodeString s).data = '"' :: ((s.data.map escapeRune).flatten ++ ['"']) := by
  simp [encodeString, String.data_append]

/-- A string the encoder wrote is scanned as that string, whatever follows it. -/
theorem scanValue_string (fuel depth : Nat) (s : String) (rest : List Char) :
    scanValue (fuel + 1) depth ((encodeString s).data ++ rest) = .ok (.str s, rest) := by
  have hlen := escaped_length s.data
  obtain ⟨k, hk⟩ : ∃ k, ((s.data.map escapeRune).flatten ++ '"' :: rest).length.succ
      = s.data.length + 1 + k := by
    refine ⟨((s.data.map escapeRune).flatten ++ '"' :: rest).length - s.data.length, ?_⟩
    simp only [List.length_append, List.length_cons]
    omega
  rw [encodeString_data]
  simp only [List.cons_append, List.append_assoc, List.singleton_append, List.nil_append]
  rw [scanValue, skipSpace_of_not_space _ _ (by decide)]
  simp only [show (('"' : Char) == '{') = false by decide,
    show (('"' : Char) == '[') = false by decide,
    show (('"' : Char) == '"') = true by decide, if_true, Bool.false_eq_true, if_false]
  rw [hk, scanString_escaped]
  simp

/-- The key of a member the encoder wrote is scanned as that key. -/
theorem scanString_key (s : String) (rest : List Char) :
    scanString ((s.data.map escapeRune).flatten ++ '"' :: rest).length.succ
      ((s.data.map escapeRune).flatten ++ '"' :: rest) [] = .ok (s, rest) := by
  have hlen := escaped_length s.data
  obtain ⟨k, hk⟩ : ∃ k, ((s.data.map escapeRune).flatten ++ '"' :: rest).length.succ
      = s.data.length + 1 + k := by
    refine ⟨((s.data.map escapeRune).flatten ++ '"' :: rest).length - s.data.length, ?_⟩
    simp only [List.length_append, List.length_cons]
    omega
  rw [hk, scanString_escaped]
  simp

theorem intercalate_go_data (sep : String) : ∀ (l : List String) (acc : String),
    (String.intercalate.go acc sep l).data
      = acc.data ++ (l.map (fun a => sep.data ++ a.data)).flatten
  | [], acc => by simp [String.intercalate.go]
  | a :: l, acc => by
    rw [String.intercalate.go, intercalate_go_data sep l]
    simp [String.data_append]

theorem intercalate_cons_data (sep a : String) (l : List String) :
    (sep.intercalate (a :: l)).data
      = a.data ++ (l.map (fun x => sep.data ++ x.data)).flatten := by
  rw [String.intercalate, intercalate_go_data]

theorem intercalate_comma_data (a : String) (l : List String) :
    (",".intercalate (a :: l)).data = a.data ++ (l.map (fun x => ',' :: x.data)).flatten := by
  rw [intercalate_cons_data]
  rfl

theorem encodeString_head (s : String) (r : List Char) :
    ∃ t, (encodeString s).data ++ r = '"' :: t := by
  rw [encodeString_data]
  exact ⟨_, rfl⟩

/-- The scanner reads the elements of an array of strings the encoder wrote. -/
theorem scanElements_strings : ∀ (xs : List String) (x : String) (k depth : Nat)
    (tail : List Char) (acc : List JSON),
    scanElements (xs.length + 2 + k) depth
        ((encodeString x).data
          ++ ((xs.map (fun y => ',' :: (encodeString y).data)).flatten ++ ']' :: tail)) acc
      = .ok (.arr (acc.reverse ++ (x :: xs).map JSON.str), tail)
  | [], x, k, depth, tail, acc => by
    have : ([] : List String).length + 2 + k = (k + 1) + 1 := by simp; omega
    rw [this, scanElements, scanValue_string]
    simp [skipSpace, isSpace]
  | y :: ys, x, k, depth, tail, acc => by
    have : (y :: ys).length + 2 + k = ((ys.length + 1 + k) + 1) + 1 := by simp; omega
    rw [this, scanElements, scanValue_string]
    have ih := scanElements_strings ys y k depth tail (JSON.str x :: acc)
    have h2 : ys.length + 1 + k + 1 = ys.length + 2 + k := by omega
    rw [h2]
    simp only [List.map_cons, List.flatten_cons, List.append_assoc, List.cons_append]
    rw [skipSpace_of_not_space _ _ (by decide)]
    simp only [show ((',' : Char) == ',') = true by decide, if_true]
    rw [ih]
    simp

theorem encodeSlice_data (x : String) (xs : List String) :
    (encodeSlice encodeString (some (x :: xs))).data
      = '[' :: ((encodeString x).data
          ++ ((xs.map (fun y => ',' :: (encodeString y).data)).flatten ++ [']'])) := by
  simp only [encodeSlice, List.map_cons, String.data_append, intercalate_comma_data,
    List.map_map]
  simp [Function.comp_def]

/-- An array of strings the encoder wrote is scanned as the array of these strings. -/
theorem scanValue_strings (x : String) (xs : List String) (k depth : Nat)
    (hdepth : depth < maxNestingDepth) (rest : List Char) :
    scanValue (xs.length + 3 + k) depth
        ((encodeSlice encodeString (some (x :: xs))).data ++ rest)
      = .ok (.arr ((x :: xs).map JSON.str), rest) := by
  have : xs.length + 3 + k = (xs.length + 2 + k) + 1 := by omega
  rw [this, encodeSlice_data]
  simp only [List.cons_append, List.append_assoc, List.singleton_append, List.nil_append]
  obtain ⟨t, ht⟩ := encodeString_head x
    ((xs.map (fun y => ',' :: (encodeString y).data)).flatten ++ ']' :: rest)
  have ih := scanElements_strings xs x k (depth + 1) rest []
  rw [ht] at ih ⊢
  rw [scanValue, skipSpace_of_not_space _ _ (by decide)]
  simp only [show (('[' : Char) == '{') = false by decide,
    show (('[' : Char) == '[') = true by decide, if_true, Bool.false_eq_true, if_false,
    if_neg (Nat.not_le.mpr hdepth)]
  rw [skipSpace_of_not_space _ _ (by decide)]
  simp only [show (('"' : Char) == ']') = false by decide, Bool.false_eq_true, if_false]
  rw [ih]
  simp

theorem member_data (m : String × String) (r : List Char) :
    (encodeString m.1 ++ ":" ++ m.2).data ++ r
      = '"' :: ((m.1.data.map escapeRune).flatten ++ '"' :: ':' :: (m.2.data ++ r)) := by
  simp only [String.data_append, encodeString_data]
  simp

/-- The scanner reads the members of an object the encoder wrote, given that it reads the
text of each value, followed by a comma or a closing brace, as the value. -/
theorem scanMembers_encoded (F depth : Nat) : ∀ (ms : List (String × String)) (vs : List JSON)
    (m : String × String) (v : JSON) (k : Nat) (tail : List Char) (acc : List (String × JSON)),
    (∀ rest, EndsValue rest → ∀ j, scanValue (F + j) depth (m.2.data ++ rest) = .ok (v, rest)) →
    List.Forall₂ (fun (x : String × String) (w : JSON) => ∀ rest, EndsValue rest →
      ∀ j, scanValue (F + j) depth (x.2.data ++ rest) = .ok (w, rest)) ms vs →
    scanMembers (F + ms.length + 1 + k) depth
        ((encodeString m.1 ++ ":" ++ m.2).data
          ++ ((ms.map (fun x => ',' :: (encodeString x.1 ++ ":" ++ x.2).data)).flatten
            ++ '}' :: tail)) acc
      = .ok (.obj (acc.reverse ++ (m.1, v) :: (ms.map Prod.fst).zip vs), tail)
  | [], vs, m, v, k, tail, acc, hm, hms => by
    cases hms
    have hv := hm ('}' :: tail) ⟨_, _, rfl, Or.inr (Or.inl rfl)⟩ k
    have hf : F + ([] : List (String × String)).length + 1 + k = (F + k) + 1 := by
      simp only [List.length_nil]; omega
    rw [hf]
    simp only [List.map_nil, List.flatten_nil, List.nil_append]
    rw [member_data, scanMembers, skipSpace_of_not_space _ _ (by decide)]
    simp only [show (('"' : Char) == '"') = true by decide, if_true]
    rw [scanString_key]
    simp only []
    rw [skipSpace_of_not_space _ _ (by decide)]
    simp only [show ((':' : Char) == ':') = true by decide, if_true]
    rw [hv]
    simp only []
    rw [skipSpace_of_not_space _ _ (by decide)]
    simp
  | x :: ms, vs, m, v, k, tail, acc, hm, hms => by
    cases hms with
    | cons hx hrest =>
      rename_i w ws
      have hv := hm (',' :: ((encodeString x.1 ++ ":" ++ x.2).data
          ++ ((ms.map (fun x => ',' :: (encodeString x.1 ++ ":" ++ x.2).data)).flatten
            ++ '}' :: tail))) ⟨_, _, rfl, Or.inl rfl⟩ (ms.length + 1 + k)
      have ih := scanMembers_encoded F depth ms ws x w k tail ((m.1, v) :: acc) hx hrest
      have hf : F + (x :: ms).length + 1 + k = (F + (ms.length + 1 + k)) + 1 := by
        simp only [List.length_cons]; omega
      have hf2 : F + (ms.length + 1 + k) = F + ms.length + 1 + k := by omega
      rw [hf]
      simp only [List.map_cons, List.flatten_cons, List.append_assoc, List.cons_append]
      rw [member_data, scanMembers, skipSpace_of_not_space _ _ (by decide)]
      simp only [show (('"' : Char) == '"') = true by decide, if_true]
      rw [scanString_key]
      simp only []
      rw [skipSpace_of_not_space _ _ (by decide)]
      simp only [show ((':' : Char) == ':') = true by decide, if_true]
      rw [hv]
      simp only []
      rw [skipSpace_of_not_space _ _ (by decide)]
      simp only [show ((',' : Char) == ',') = true by decide, if_true]
      rw [hf2, ih]
      simp

theorem encodeObject_data (m : String × String) (ms : List (String × String)) :
    (encodeObject (m :: ms) ++ "\n").data
      = '{' :: ((encodeString m.1 ++ ":" ++ m.2).data
          ++ ((ms.map (fun x => ',' :: (encodeString x.1 ++ ":" ++ x.2).data)).flatten
            ++ '}' :: ['\n'])) := by
  simp only [encodeObject, List.map_cons, String.data_append, intercalate_comma_data,
    List.map_map]
  simp [Function.comp_def]

/-- The decoder reads the object the encoder wrote for a list of members, given that the
scanner reads the text of each value as the value. -/
theorem readValue_encoded (F : Nat) (ms : List (String × String)) (vs : List JSON)
    (h : List.Forall₂ (fun (x : String × String) (w : JSON) => ∀ rest, EndsValue rest →
      ∀ j, scanValue (F + j) 1 (x.2.data ++ rest) = .ok (w, rest)) ms vs) :
    readValue (encodeObject ms ++ "\n") = .ok (.obj ((ms.map Prod.fst).zip vs)) := by
  cases h with
  | nil => rfl
  | cons hm hms =>
    rename_i m v ms vs
    rw [readValue_fuel _ (F + ms.length + 1), encodeObject_data,
      skipSpace_of_not_space _ _ (by decide)]
    simp only []
    have ih := scanMembers_encoded F 1 ms vs m v
      (2 * ('{' :: ((encodeString m.1 ++ ":" ++ m.2).data
          ++ ((ms.map (fun x => ',' :: (encodeString x.1 ++ ":" ++ x.2).data)).flatten
            ++ '}' :: ['\n']))).length) ['\n'] [] hm hms
    have hf : ∀ n, 2 * n + 1 + (F + ms.length + 1) = (F + ms.length + 1 + 2 * n) + 1 := by
      intro n; omega
    rw [hf, scanValue, skipSpace_of_not_space _ _ (by decide)]
    simp only [show (('{' : Char) == '{') = true by decide, if_true,
      show ¬ maxNestingDepth ≤ 0 by decide, if_false]
    rw [member_data] at ih ⊢
    rw [skipSpace_of_not_space _ _ (by decide)]
    simp only [show (('"' : Char) == '}') = false by decide, Bool.false_eq_true, if_false]
    rw [ih]
    simp

theorem omitemptyPtr_scans (F : Nat) (name : String) (o : Option Int) :
    List.Forall₂ (fun (x : String × String) (w : JSON) => ∀ rest, EndsValue rest →
      ∀ j, scanValue (F + 1 + j) 1 (x.2.data ++ rest) = .ok (w, rest))
      (omitemptyPtr name encodeInt o) (o.toList.map JSON.int) := by
  cases o with
  | none => exact List.Forall₂.nil
  | some a =>
    refine List.Forall₂.cons ?_ List.Forall₂.nil
    intro rest h j
    have hf : F + 1 + j = (F + j) + 1 := by omega
    rw [hf]
    exact scanValue_int _ _ _ _ h

theorem omitemptySlice_scans (name : String) (au : Option (List String)) :
    List.Forall₂ (fun (x : String × String) (w : JSON) => ∀ rest, EndsValue rest →
      ∀ j, scanValue ((au.getD []).length + 2 + 1 + j) 1 (x.2.data ++ rest) = .ok (w, rest))
      (omitemptySlice name encodeString au)
      (match au with
        | some (x :: xs) => [JSON.arr ((x :: xs).map JSON.str)]
        | _ => []) := by
  rcases au with _ | _ | ⟨x, xs⟩
  · exact List.Forall₂.nil
  · exact List.Forall₂.nil
  · refine List.Forall₂.cons ?_ List.Forall₂.nil
    intro rest _ j
    have hf : ((some (x :: xs)).getD []).length + 2 + 1 + j = xs.length + 3 + (1 + j) := by
      simp only [Option.getD_some, List.length_cons]; omega
    rw [hf]
    exact scanValue_strings x xs _ 1 (by decide) rest

/-- The decoder reads the text `getUpdates` encodes for a request as the object of the
members the request writes. -/
theorem GetUpdatesRequest.readValue_members (r : GetUpdatesRequest) :
    readValue (encodeObject r.members ++ "\n")
      = .ok (.obj ((r.members.map Prod.fst).zip
          (r.Offset.toList.map JSON.int ++ r.Limit.toList.map JSON.int
            ++ r.Timeout.toList.map JSON.int
            ++ (match r.AllowedUpdates with
                | some (x :: xs) => [JSON.arr ((x :: xs).map JSON.str)]
                | _ => [])))) := by
  refine readValue_encoded ((r.AllowedUpdates.getD []).length + 2 + 1) _ _ ?_
  unfold GetUpdatesRequest.members
  exact List.rel_append (List.rel_append (List.rel_append
    (omitemptyPtr_scans _ _ _) (omitemptyPtr_scans _ _ _)) (omitemptyPtr_scans _ _ _))
    (omitemptySlice_scans _ _)

theorem decodeElems_strings (xs : List String) : ∀ old : List String,
    decodeElems decodeString "" old (xs.map JSON.str) = .ok xs := by
  induction xs with
  | nil => intro old; rfl
  | cons x xs ih =>
    intro old
    simp [decodeElems, decodeString, ih]

theorem GetUpdatesRequest.setField_offset (intBits : Nat) (r : GetUpdatesRequest) (n : Int)
    (h : fitsInt intBits n = true) :
    GetUpdatesRequest.setField intBits r "offset" (.int n) = .ok { r with Offset := some n } := by
  have f : findField GetUpdatesRequest.fieldNames "offset" = some "offset" := by decide
  simp [GetUpdatesRequest.setField, f, decodePtr, decodeInt, h, storeField]

theorem GetUpdatesRequest.setField_limit (intBits : Nat) (r : GetUpdatesRequest) (n : Int)
    (h : fitsInt intBits n = true) :
    GetUpdatesRequest.setField intBits r "limit" (.int n) = .ok { r with Limit := some n } := by
  have f : findField GetUpdatesRequest.fieldNames "limit" = some "limit" := by decide
  simp [GetUpdatesRequest.setField, f, decodePtr, decodeInt, h, storeField]

theorem GetUpdatesRequest.setField_timeout (intBits : Nat) (r : GetUpdatesRequest) (n : Int)
    (h : fitsInt intBits n = true) :
    GetUpdatesRequest.setField intBits r "timeout" (.int n)
      = .ok { r with Timeout := some n } := by
  have f : findField GetUpdatesRequest.fieldNames "timeout" = some "timeout" := by decide
  simp [GetUpdatesRequest.setField, f, decodePtr, decodeInt, h, storeField]

theorem GetUpdatesRequest.setField_allowed_updates (intBits : Nat) (r : GetUpdatesRequest)
    (xs : List String) :
    GetUpdatesRequest.setField intBits r "allowed_updates" (.arr (xs.map JSON.str))
      = .ok { r with AllowedUpdates := some xs } := by
  have f : findField GetUpdatesRequest.fieldNames "allowed_updates" = some "allowed_updates" := by
    decide
  simp [GetUpdatesRequest.setField, f, decodeSlice, decodeElems_strings, storeField]

/-- A `GetUpdatesRequest` whose numbers fit the Go `int` and whose `AllowedUpdates` is not
the empty list is decoded back from the text `getUpdates` encodes for it. -/
theorem GetUpdatesRequest.roundTrip_gives_back (intBits : Nat) (r : GetUpdatesRequest)
    (hO : ∀ n, r.Offset = some n → fitsInt intBits n = true)
    (hL : ∀ n, r.Limit = some n → fitsInt intBits n = true)
    (hT : ∀ n, r.Timeout = some n → fitsInt intBits n = true)
    (hA : r.AllowedUpdates ≠ some []) :
    r.roundTrip intBits = .ok r := by
  unfold GetUpdatesRequest.roundTrip encoderEncode decoderDecode
  simp only [GetUpdatesRequest.readValue_members]
  obtain ⟨o, l, t, au⟩ := r
  rcases au with _ | _ | ⟨x, xs⟩
  · cases o <;> cases l <;> cases t <;>
      simp [GetUpdatesRequest.members, omitemptyPtr, omitemptySlice, GetUpdatesRequest.decode,
        decodeStruct, GetUpdatesRequest.zero, List.foldlM, GetUpdatesRequest.setField_offset,
        GetUpdatesRequest.setField_limit, GetUpdatesRequest.setField_timeout,
        hO, hL, hT, bind, Except.bind, pure, Except.pure]
  · exact absurd rfl hA
  · have hau := fun r => GetUpdatesRequest.setField_allowed_updates intBits r (x :: xs)
    simp only [List.map_cons] at hau
    cases o <;> cases l <;> cases t <;>
      simp [GetUpdatesRequest.members, omitemptyPtr, omitemptySlice, GetUpdatesRequest.decode,
        decodeStruct, GetUpdatesRequest.zero, List.foldlM, GetUpdatesRequest.setField_offset,
        GetUpdatesRequest.setField_limit, GetUpdatesRequest.setField_timeout,
        hO, hL, hT, hau, bind, Except.bind, pure, Except.pure]

/-- A `GetUpdatesRequest` whose `AllowedUpdates` is the empty list comes back with
`AllowedUpdates` not specified, its other fields unchanged. -/
theorem GetUpdatesRequest.roundTrip_empty_list (intBits : Nat) (r : GetUpdatesRequest)
    (hO : ∀ n, r.Offset = some n → fitsInt intBits n = true)
    (hL : ∀ n, r.Limit = some n → fitsInt intBits n = true)
    (hT : ∀ n, r.Timeout = some n → fitsInt intBits n = true)
    (hA : r.AllowedUpdates = some []) :
    r.roundTrip intBits = .ok { r with AllowedUpdates := none }
      ∧ r.roundTrip intBits ≠ .ok r := by
  obtain ⟨o, l, t, au⟩ := r
  simp only at hA
  subst hA
  have h := GetUpdatesRequest.roundTrip_gives_back intBits ⟨o, l, t, none⟩ hO hL hT
    (by simp)
  have hm : GetUpdatesRequest.members ⟨o, l, t, some []⟩
      = GetUpdatesRequest.members ⟨o, l, t, none⟩ := rfl
  have hr : GetUpdatesRequest.roundTrip intBits ⟨o, l, t, some []⟩
      = .ok ⟨o, l, t, none⟩ := by
    unfold GetUpdatesRequest.roundTrip at h ⊢
    rw [hm]
    exact h
  refine ⟨hr, ?_⟩
  rw [hr]
  simp

/-! ### The two request records -/

/-- Every `DeleteWebhookRequest` is decoded back from its encoding. -/
theorem DeleteWebhookRequest.roundTrip_eq (r : DeleteWebhookRequest) :
    r.roundTrip = .ok r := by
  obtain ⟨d⟩ := r
  cases d <;> decide

/-- C11, the defect. A `GetUpdatesRequest` whose `AllowedUpdates` is the empty list is
encoded as `{}` and decoded back with `AllowedUpdates` not specified, so the round trip
does not give the request back. Requests with the list not specified or not empty, with
`offset`, `limit`, `timeout` absent or present (also 0 and negative), are given back, and so
is every `DeleteWebhookRequest`. The empty list is lost by the same `omitempty` as in C8. -/
theorem getUpdatesRequest_empty_list_lost :
    encoderEncode (GetUpdatesRequest.members ⟨none, none, none, some []⟩) = .ok "\x7b\x7d\n"
    ∧ GetUpdatesRequest.roundTrip 64 ⟨none, none, none, some []⟩
      = .ok ⟨none, none, none, none⟩
    ∧ GetUpdatesRequest.roundTrip 64 ⟨none, none, none, some []⟩
      ≠ .ok ⟨none, none, none, some []⟩
    ∧ GetUpdatesRequest.roundTrip 64 ⟨some 100, some 10, some 0, some []⟩
      = .ok ⟨some 100, some 10, some 0, none⟩
    ∧ GetUpdatesRequest.roundTrip 64 ⟨none, none, none, none⟩ = .ok ⟨none, none, none, none⟩
    ∧ GetUpdatesRequest.roundTrip 64
        ⟨some (-1), some 100, some 0, some ["message", "edited_channel_post", "a\"<b>\\"]⟩
      = .ok ⟨some (-1), some 100, some 0, some ["message", "edited_channel_post", "a\"<b>\\"]⟩
    ∧ ∀ r : DeleteWebhookRequest, r.roundTrip = .ok r := by
  refine ⟨by decide, by decide, by decide, by decide, by decide, by decide, ?_⟩
  exact DeleteWebhookRequest.roundTrip_eq

/-! ## C12: keys that no field declares -/

/-- A member that `setField` ignores can be taken out of the object. -/
theorem decodeStruct_insert_ignored {σ : Type} (goType : String)
    (setField : σ → String → JSON → Except GoError σ) (key : String) (v : JSON)
    (hign : ∀ s, setField s key v = .ok s) (pre post : List (String × JSON)) (cur : σ) :
    decodeStruct goType setField cur (.obj (pre ++ (key, v) :: post))
      = decodeStruct goType setField cur (.obj (pre ++ post)) := by
  simp only [decodeStruct, List.foldlM_append, List.foldlM_cons, hign]
  rfl

theorem Envelope.setField_not_declared {ρ : Type} (intBits : Nat)
    (decResult : ρ → JSON → Except GoError ρ) (key : String) (v : JSON)
    (hk : findField Envelope.fieldNames key = none) (e : Envelope ρ) :
    Envelope.setField intBits decResult e key v = .ok e := by
  unfold Envelope.setField
  rw [hk]

theorem WebhookInfo.setField_unknown_key (intBits : Nat) (key : String) (v : JSON)
    (hk : findField WebhookInfo.fieldNames key = none) (w : WebhookInfo) :
    WebhookInfo.setField intBits w key v = .ok w := by
  unfold WebhookInfo.setField
  rw [hk]

theorem decodeResponse_adds_unknown_key {ρ : Type} (intBits : Nat)
    (decResult : ρ → JSON → Except GoError ρ) (zero : ρ) (body body2 : String)
    (h : AddsUnknownKey Envelope.fieldNames body body2) :
    decodeResponse intBits decResult zero body2 = decodeResponse intBits decResult zero body := by
  obtain ⟨pre, post, key, v, hk, h1, h2⟩ := h
  unfold decodeResponse decoderDecode
  rw [h1, h2]
  exact decodeStruct_insert_ignored _ _ key v
    (Envelope.setField_not_declared intBits decResult key v hk) pre post _

theorem decodeResponse_adds_unknown_key_in_result (intBits : Nat) (body body2 : String)
    (h : AddsUnknownKeyInResult WebhookInfo.fieldNames body body2) :
    decodeResponse intBits (WebhookInfo.decode intBits) WebhookInfo.zero body2
      = decodeResponse intBits (WebhookInfo.decode intBits) WebhookInfo.zero body := by
  obtain ⟨pre, post, inner1, inner2, resultKey, key, v, hr, hk, h1, h2⟩ := h
  have hset : ∀ e : Envelope WebhookInfo,
      Envelope.setField intBits (WebhookInfo.decode intBits) e resultKey
          (.obj (inner1 ++ (key, v) :: inner2))
        = Envelope.setField intBits (WebhookInfo.decode intBits) e resultKey
          (.obj (inner1 ++ inner2)) := by
    intro e
    unfold Envelope.setField
    rw [hr]
    simp only
    rw [WebhookInfo.decode, decodeStruct_insert_ignored _ _ key v
      (WebhookInfo.setField_unknown_key intBits key v hk)]
  unfold decodeResponse decoderDecode
  rw [h1, h2]
  simp only [decodeStruct, List.foldlM_append, List.foldlM_cons, hset]

/-- C12 as stated fails. The key `OK` is not among the keys the response struct declares
(`ok`, `result`, `description`, `error_code`, `parameters`), yet the decoder stores it into
the field `ok`, which it matches under case folding: with the member `"OK":true` added to
the envelope `{"ok":false,"error_code":401,"description":"Unauthorized"}`, `DeleteWebhook`
returns no error instead of the remote-API error. -/
theorem extra_key_matching_under_case_folding :
    "OK" ∉ Envelope.fieldNames
    ∧ findField Envelope.fieldNames "OK" = some "ok"
    ∧ (DeleteWebhook exampleRuntime (botAnswering unauthorizedResponse) ⟨true⟩).result
      = .error (.new ("HTTP status 200 OK, Telegram code 401, "
          ++ "Telegram API error: Unauthorized"))
    ∧ (DeleteWebhook exampleRuntime (botAnswering unauthorizedUpperOK) ⟨true⟩).result
      = .ok ()
    ∧ (DeleteWebhook exampleRuntime (botAnswering unauthorizedUpperOK) ⟨true⟩).result
      ≠ (DeleteWebhook exampleRuntime (botAnswering unauthorizedResponse) ⟨true⟩).result := by
  refine ⟨by decide, by decide, by decide, by decide, by decide⟩

/-! ### What the scanner reads: inserting the text of a member -/

theorem readsValue_uniform (depth : Nat) : ∀ (ms : List (String × String)) (vs : List JSON),
    List.Forall₂ (fun (x : String × String) (w : JSON) => ReadsValue depth x.2 w) ms vs →
    ∃ F, List.Forall₂ (fun (x : String × String) (w : JSON) => ∀ rest, EndsValue rest →
      ∀ j, scanValue (F + j) depth (x.2.data ++ rest) = .ok (w, rest)) ms vs
  | [], _, h => by
    cases h
    exact ⟨0, List.Forall₂.nil⟩
  | m :: ms, _, h => by
    cases h with
    | cons hm hms =>
      obtain ⟨F1, h1⟩ := hm
      obtain ⟨F2, h2⟩ := readsValue_uniform depth ms _ hms
      refine ⟨F1 + F2, List.Forall₂.cons ?_ (h2.imp ?_)⟩
      · intro rest hr j
        rw [Nat.add_assoc]
        exact h1 rest hr _
      · intro x w hx rest hr j
        have : F1 + F2 + j = F2 + (F1 + j) := by omega
        rw [this]
        exact hx rest hr _

theorem encodeObject_data_tail (m : String × String) (ms : List (String × String))
    (tail : String) :
    (encodeObject (m :: ms) ++ tail).data
      = '{' :: ((encodeString m.1 ++ ":" ++ m.2).data
          ++ ((ms.map (fun x => ',' :: (encodeString x.1 ++ ":" ++ x.2).data)).flatten
            ++ '}' :: tail.data)) := by
  simp only [encodeObject, List.map_cons, String.data_append, intercalate_comma_data,
    List.map_map]
  simp [Function.comp_def]

/-- The decoder reads an object written without white space, whatever follows it, given
that the scanner reads the text of each value as the value. -/
theorem readValue_encoded_tail (F : Nat) (ms : List (String × String)) (vs : List JSON)
    (tail : String)
    (h : List.Forall₂ (fun (x : String × String) (w : JSON) => ∀ rest, EndsValue rest →
      ∀ j, scanValue (F + j) 1 (x.2.data ++ rest) = .ok (w, rest)) ms vs) :
    readValue (encodeObject ms ++ tail) = .ok (.obj ((ms.map Prod.fst).zip vs)) := by
  cases h with
  | nil =>
    have hd : (encodeObject [] ++ tail).data = '{' :: '}' :: tail.data := by
      simp [encodeObject, String.data_append]
      rfl
    unfold readValue
    rw [hd, skipSpace_of_not_space _ _ (by decide)]
    simp only []
    rw [scanValue, skipSpace_of_not_space _ _ (by decide)]
    simp only [show (('{' : Char) == '{') = true by decide, if_true,
      show ¬ maxNestingDepth ≤ 0 by decide, if_false]
    rw [skipSpace_of_not_space _ _ (by decide)]
    simp
  | cons hm hms =>
    rename_i m v ms vs
    rw [readValue_fuel _ (F + ms.length + 1), encodeObject_data_tail,
      skipSpace_of_not_space _ _ (by decide)]
    simp only []
    have ih := scanMembers_encoded F 1 ms vs m v
      (2 * ('{' :: ((encodeString m.1 ++ ":" ++ m.2).data
          ++ ((ms.map (fun x => ',' :: (encodeString x.1 ++ ":" ++ x.2).data)).flatten
            ++ '}' :: tail.data))).length) tail.data [] hm hms
    have hf : ∀ n, 2 * n + 1 + (F + ms.length + 1) = (F + ms.length + 1 + 2 * n) + 1 := by
      intro n; omega
    rw [hf, scanValue, skipSpace_of_not_space _ _ (by decide)]
    simp only [show (('{' : Char) == '{') = true by decide, if_true,
      show ¬ maxNestingDepth ≤ 0 by decide, if_false]
    rw [member_data] at ih ⊢
    rw [skipSpace_of_not_space _ _ (by decide)]
    simp only [show (('"' : Char) == '}') = false by decide, Bool.false_eq_true, if_false]
    rw [ih]
    simp

theorem forall₂_insert {α β : Type} {R : α → β → Prop} {pre post : List α}
    {vpre vpost : List β} {x : α} {v : β} (hpre : List.Forall₂ R pre vpre)
    (hpost : List.Forall₂ R post vpost) (hx : R x v) :
    List.Forall₂ R (pre ++ x :: post) (vpre ++ v :: vpost) :=
  List.rel_append hpre (List.Forall₂.cons hx hpost)

theorem readsValue_int (depth : Nat) (n : Int) : ReadsValue depth (encodeInt n) (.int n) :=
  ⟨1, fun rest hr j => by
    rw [Nat.add_comm 1 j]
    exact scanValue_int j depth n rest hr⟩

theorem readsValue_string (depth : Nat) (s : String) :
    ReadsValue depth (encodeString s) (.str s) :=
  ⟨1, fun rest _ j => by
    rw [Nat.add_comm 1 j]
    exact scanValue_string j depth s rest⟩

theorem readsValue_bool (depth : Nat) (b : Bool) : ReadsValue depth (encodeBool b) (.bool b) :=
  ⟨1, fun rest _ j => by
    rw [Nat.add_comm 1 j]
    cases b
    · show scanValue (j + 1) depth ('f' :: 'a' :: 'l' :: 's' :: 'e' :: rest) = _
      rw [scanValue, skipSpace_of_not_space _ _ (by decide)]
      simp [scanLiteral]
    · show scanValue (j + 1) depth ('t' :: 'r' :: 'u' :: 'e' :: rest) = _
      rw [scanValue, skipSpace_of_not_space _ _ (by decide)]
      simp [scanLiteral]⟩

theorem readsValue_null (depth : Nat) : ReadsValue depth "null" .null :=
  ⟨1, fun rest _ j => by
    rw [Nat.add_comm 1 j]
    show scanValue (j + 1) depth ('n' :: 'u' :: 'l' :: 'l' :: rest) = _
    rw [scanValue, skipSpace_of_not_space _ _ (by decide)]
    simp [scanLiteral]⟩

theorem readsValue_strings (depth : Nat) (hdepth : depth < maxNestingDepth) (x : String)
    (xs : List String) :
    ReadsValue depth (encodeSlice encodeString (some (x :: xs)))
      (.arr ((x :: xs).map JSON.str)) :=
  ⟨xs.length + 3, fun rest _ j => scanValue_strings x xs j depth hdepth rest⟩

theorem encodeObject_data_rest (m : String × String) (ms : List (String × String))
    (rest : List Char) :
    (encodeObject (m :: ms)).data ++ rest
      = '{' :: ((encodeString m.1 ++ ":" ++ m.2).data
          ++ ((ms.map (fun x => ',' :: (encodeString x.1 ++ ":" ++ x.2).data)).flatten
            ++ '}' :: rest)) := by
  simp only [encodeObject, List.map_cons, String.data_append, intercalate_comma_data,
    List.map_map]
  simp [Function.comp_def]

/-- The scanner reads an object written without white space as the object of its members,
given that it reads the text of each value, one level deeper, as the value. -/
theorem readsValue_object (depth : Nat) (hdepth : depth < maxNestingDepth)
    (ms : List (String × String)) (vs : List JSON)
    (h : List.Forall₂ (fun (x : String × String) (w : JSON) => ReadsValue (depth + 1) x.2 w)
      ms vs) :
    ReadsValue depth (encodeObject ms) (.obj ((ms.map Prod.fst).zip vs)) := by
  obtain ⟨F, hF⟩ := readsValue_uniform (depth + 1) ms vs h
  cases hF with
  | nil =>
    refine ⟨1, fun rest _ j => ?_⟩
    rw [Nat.add_comm 1 j]
    show scanValue (j + 1) depth ('{' :: '}' :: rest) = _
    rw [scanValue, skipSpace_of_not_space _ _ (by decide)]
    simp only [show (('{' : Char) == '{') = true by decide, if_true,
      if_neg (Nat.not_le.mpr hdepth)]
    rw [skipSpace_of_not_space _ _ (by decide)]
    simp
  | cons hm hms =>
    rename_i m v ms vs
    refine ⟨F + ms.length + 2, fun rest _ j => ?_⟩
    have ih := scanMembers_encoded F (depth + 1) ms vs m v j rest [] hm hms
    have hf : F + ms.length + 2 + j = (F + ms.length + 1 + j) + 1 := by omega
    rw [hf, encodeObject_data_rest, scanValue, skipSpace_of_not_space _ _ (by decide)]
    simp only [show (('{' : Char) == '{') = true by decide, if_true,
      if_neg (Nat.not_le.mpr hdepth)]
    rw [member_data] at ih ⊢
    rw [skipSpace_of_not_space _ _ (by decide)]
    simp only [show (('"' : Char) == '}') = false by decide, Bool.false_eq_true, if_false]
    rw [ih]
    simp

/-- The scanner refuses an array nested deeper than `maxNestingDepth`, whatever follows the
opening brackets. -/
theorem scanValue_exceeds_depth : ∀ (n f depth : Nat) (rest : List Char),
    depth + n = maxNestingDepth →
    scanValue (f + 2 * n + 1) depth (List.replicate (n + 1) '[' ++ rest)
      = .error (syntaxError "exceeded max depth")
  | 0, f, depth, rest, h => by
    have hd : maxNestingDepth ≤ depth := by omega
    show scanValue (f + 2 * 0 + 1) depth ('[' :: rest) = _
    rw [scanValue, skipSpace_of_not_space _ _ (by decide)]
    simp only [show (('[' : Char) == '{') = false by decide,
      show (('[' : Char) == '[') = true by decide, if_true, Bool.false_eq_true, if_false,
      if_pos hd]
  | n + 1, f, depth, rest, h => by
    have hd : ¬ maxNestingDepth ≤ depth := by omega
    have ih := scanValue_exceeds_depth n f (depth + 1) rest (by omega)
    have hf : f + 2 * (n + 1) + 1 = ((f + 2 * n + 1) + 1) + 1 := by omega
    rw [hf]
    show scanValue (f + 2 * n + 1 + 1 + 1) depth
      ('[' :: (List.replicate (n + 1) '[' ++ rest)) = _
    rw [scanValue, skipSpace_of_not_space _ _ (by decide)]
    simp only [show (('[' : Char) == '{') = false by decide,
      show (('[' : Char) == '[') = true by decide, if_true, Bool.false_eq_true, if_false,
      if_neg hd]
    have hr : List.replicate (n + 1) '[' ++ rest = '[' :: (List.replicate n '[' ++ rest) := rfl
    rw [hr, skipSpace_of_not_space _ _ (by decide)]
    simp only [show (('[' : Char) == ']') = false by decide, Bool.false_eq_true, if_false]
    rw [scanElements, ← hr, ih]

theorem Voice.unknown_key_ignored (intBits : Nat) (key : String) (v : JSON)
    (hk : findField Voice.fieldNames key = none) (w : Voice) :
    Voice.setField intBits w key v = .ok w := by
  unfold Voice.setField
  rw [hk]

theorem SharedUser.unknown_key_skipped {PhotoSize : Type} (photoSize : Codec PhotoSize)
    (key : String) (v : JSON) (hk : findField SharedUser.fieldNames key = none)
    (w : SharedUser PhotoSize) :
    SharedUser.setField photoSize w key v = .ok w := by
  unfold SharedUser.setField
  rw [hk]

theorem ResponseParameters.unknown_key_dropped (intBits : Nat) (key : String) (v : JSON)
    (hk : findField ResponseParameters.fieldNames key = none) (p : ResponseParameters) :
    ResponseParameters.setField intBits p key v = .ok p := by
  unfold ResponseParameters.setField
  rw [show (["migrate_to_chat_id", "retry_after"] : List String)
    = ResponseParameters.fieldNames from rfl, hk]

/-- A struct decoder whose `setField` ignores the keys that match no field name gives the
same for a body and for the body with one more such member. -/
theorem decoderDecode_adds_unknown_key {σ : Type} (goType : String)
    (setField : σ → String → JSON → Except GoError σ) (names : List String)
    (hign : ∀ key v, findField names key = none → ∀ s, setField s key v = .ok s)
    (zero : σ) (body body2 : String) (h : AddsUnknownKey names body body2) :
    decoderDecode (decodeStruct goType setField) zero body2
      = decoderDecode (decodeStruct goType setField) zero body := by
  obtain ⟨pre, post, key, v, hk, h1, h2⟩ := h
  unfold decoderDecode
  rw [h1, h2]
  exact decodeStruct_insert_ignored _ _ key v (hign key v hk) pre post _

theorem decodeResponse_adds_unknown_key_in_parameters {ρ : Type} (intBits : Nat)
    (decResult : ρ → JSON → Except GoError ρ) (zero : ρ) (body body2 : String)
    (h : AddsUnknownKeyInMember "parameters" ResponseParameters.fieldNames body body2) :
    decodeResponse intBits decResult zero body2 = decodeResponse intBits decResult zero body := by
  obtain ⟨pre, post, inner1, inner2, memberKey, key, v, hr, hk, h1, h2⟩ := h
  have hset : ∀ e : Envelope ρ,
      Envelope.setField intBits decResult e memberKey (.obj (inner1 ++ (key, v) :: inner2))
        = Envelope.setField intBits decResult e memberKey (.obj (inner1 ++ inner2)) := by
    intro e
    unfold Envelope.setField
    rw [hr]
    simp only
    rw [ResponseParameters.decode, decodeStruct_insert_ignored _ _ key v
      (ResponseParameters.unknown_key_dropped intBits key v hk)]
  unfold decodeResponse decoderDecode
  rw [h1, h2]
  simp only [decodeStruct, List.foldlM_append, List.foldlM_cons, hset]

/-- The decoder refuses an object written without white space whose first value the scanner
refuses. -/
theorem readValue_first_value_refused (F : Nat) (m : String × String)
    (ms : List (String × String)) (e : GoError)
    (h : ∀ j rest, scanValue (F + j) 1 (m.2.data ++ rest) = .error e) :
    readValue (encodeObject (m :: ms)) = .error e := by
  have hd := encodeObject_data_rest m ms []
  rw [List.append_nil] at hd
  rw [readValue_fuel _ (F + 1), hd, skipSpace_of_not_space _ _ (by decide)]
  simp only []
  have hf : ∀ n, 2 * n + 1 + (F + 1) = ((F + 2 * n) + 1) + 1 := by
    intro n; omega
  rw [hf, scanValue, skipSpace_of_not_space _ _ (by decide)]
  simp only [show (('{' : Char) == '{') = true by decide, if_true,
    show ¬ maxNestingDepth ≤ 0 by decide, if_false]
  rw [member_data, skipSpace_of_not_space _ _ (by decide)]
  simp only [show (('"' : Char) == '}') = false by decide, Bool.false_eq_true, if_false]
  rw [scanMembers, skipSpace_of_not_space _ _ (by decide)]
  simp only [show (('"' : Char) == '"') = true by decide, if_true]
  rw [scanString_key]
  simp only []
  rw [skipSpace_of_not_space _ _ (by decide)]
  simp only [show ((':' : Char) == ':') = true by decide, if_true]
  rw [h]

theorem scanValue_deeplyNested (j : Nat) (rest : List Char) :
    scanValue (2 * 9999 + 1 + j) 1 ((deeplyNested 10000).data ++ rest)
      = .error (syntaxError "exceeded max depth") := by
  have h := scanValue_exceeds_depth 9999 j 1 (List.replicate 10000 ']' ++ rest) (by decide)
  have hf : 2 * 9999 + 1 + j = j + 2 * 9999 + 1 := by omega
  have hd : (deeplyNested 10000).data
      = List.replicate (9999 + 1) '[' ++ List.replicate 10000 ']' := rfl
  rw [hf, hd, List.append_assoc]
  exact h

/-- A value of 10000 arrays nested in one another is not read by the scanner inside an
object, whatever amount of fuel it has. -/
theorem deeplyNested_not_read : ¬ ∃ v, ReadsValue 1 (deeplyNested 10000) v := by
  rintro ⟨v, F, h⟩
  have h1 := h [','] ⟨_, _, rfl, Or.inl rfl⟩ (2 * 9999 + 1)
  have h2 := scanValue_deeplyNested F [',']
  have hf : F + (2 * 9999 + 1) = 2 * 9999 + 1 + F := by omega
  rw [hf, h2] at h1
  cases h1

/-- The decoder reads an object written without white space as the object of its members,
given that the scanner reads the text of each value. -/
theorem readValue_object_text (ms : List (String × String)) (vs : List JSON) (tail : String)
    (h : List.Forall₂ (fun (x : String × String) (w : JSON) => ReadsValue 1 x.2 w) ms vs) :
    readValue (encodeObject ms ++ tail) = .ok (.obj ((ms.map Prod.fst).zip vs)) := by
  obtain ⟨F, hF⟩ := readsValue_uniform 1 ms vs h
  exact readValue_encoded_tail F ms vs tail hF

theorem zip_member_inserted {R : String × String → JSON → Prop}
    {pre post : List (String × String)} {vpre vpost : List JSON} (x : String × String)
    (v : JSON) (hpre : List.Forall₂ R pre vpre) :
    ((pre ++ x :: post).map Prod.fst).zip (vpre ++ v :: vpost)
      = (pre.map Prod.fst).zip vpre ++ (x.1, v) :: (post.map Prod.fst).zip vpost := by
  have hlen : (pre.map Prod.fst).length = vpre.length := by
    rw [List.length_map]
    exact hpre.length_eq
  rw [List.map_append, List.zip_append hlen]
  rfl

theorem zip_members_appended {R : String × String → JSON → Prop}
    {pre post : List (String × String)} {vpre vpost : List JSON}
    (hpre : List.Forall₂ R pre vpre) :
    ((pre ++ post).map Prod.fst).zip (vpre ++ vpost)
      = (pre.map Prod.fst).zip vpre ++ (post.map Prod.fst).zip vpost := by
  have hlen : (pre.map Prod.fst).length = vpre.length := by
    rw [List.length_map]
    exact hpre.length_eq
  rw [List.map_append, List.zip_append hlen]

/-- For an object written without white space, the text of a member with an unmatched key
and a value the scanner reads, written between the members, adds an unknown key. -/
theorem addsUnknownKey_of_text (names : List String) (pre post : List (String × String))
    (vpre vpost : List JSON) (key text tail : String) (v : JSON)
    (hk : findField names key = none)
    (hpre : List.Forall₂ (fun (x : String × String) (w : JSON) => ReadsValue 1 x.2 w) pre vpre)
    (hpost : List.Forall₂ (fun (x : String × String) (w : JSON) => ReadsValue 1 x.2 w)
      post vpost)
    (hv : ReadsValue 1 text v) :
    AddsUnknownKey names (encodeObject (pre ++ post) ++ tail)
      (encodeObject (pre ++ (key, text) :: post) ++ tail) := by
  refine ⟨(pre.map Prod.fst).zip vpre, (post.map Prod.fst).zip vpost, key, v, hk, ?_, ?_⟩
  · rw [readValue_object_text _ _ tail (List.rel_append hpre hpost),
      zip_members_appended hpre]
  · rw [readValue_object_text _ _ tail (forall₂_insert (x := (key, text)) hpre hpost hv),
      zip_member_inserted (key, text) v hpre]

/-- The same inside the object of a member of the envelope. -/
theorem addsUnknownKeyInMember_of_text (member : String) (names : List String)
    (epre epost ipre ipost : List (String × String)) (vepre vepost vipre vipost : List JSON)
    (memberKey key text tail : String) (v : JSON)
    (hm : findField Envelope.fieldNames memberKey = some member)
    (hk : findField names key = none)
    (hepre : List.Forall₂ (fun (x : String × String) (w : JSON) => ReadsValue 1 x.2 w)
      epre vepre)
    (hepost : List.Forall₂ (fun (x : String × String) (w : JSON) => ReadsValue 1 x.2 w)
      epost vepost)
    (hipre : List.Forall₂ (fun (x : String × String) (w : JSON) => ReadsValue 2 x.2 w)
      ipre vipre)
    (hipost : List.Forall₂ (fun (x : String × String) (w : JSON) => ReadsValue 2 x.2 w)
      ipost vipost)
    (hv : ReadsValue 2 text v) :
    AddsUnknownKeyInMember member names
      (encodeObject (epre ++ (memberKey, encodeObject (ipre ++ ipost)) :: epost) ++ tail)
      (encodeObject (epre ++ (memberKey, encodeObject (ipre ++ (key, text) :: ipost)) :: epost)
        ++ tail) := by
  have h1 := readsValue_object 1 (by decide) _ _ (List.rel_append hipre hipost)
  have h2 := readsValue_object 1 (by decide) _ _
    (forall₂_insert (x := (key, text)) hipre hipost hv)
  rw [zip_members_appended hipre] at h1
  rw [zip_member_inserted (key, text) v hipre] at h2
  refine ⟨(epre.map Prod.fst).zip vepre, (epost.map Prod.fst).zip vepost,
    (ipre.map Prod.fst).zip vipre, (ipost.map Prod.fst).zip vipost, memberKey, key, v,
    hm, hk, ?_, ?_⟩
  · rw [readValue_object_text _ _ tail
      (forall₂_insert (x := (memberKey, encodeObject (ipre ++ ipost))) hepre hepost h1),
      zip_member_inserted (memberKey, encodeObject (ipre ++ ipost)) _ hepre]
  · rw [readValue_object_text _ _ tail
      (forall₂_insert (x := (memberKey, encodeObject (ipre ++ (key, text) :: ipost)))
        hepre hepost h2),
      zip_member_inserted (memberKey, encodeObject (ipre ++ (key, text) :: ipost)) _ hepre]

theorem readValue_unauthorizedDeepValue :
    readValue unauthorizedDeepValue.Body = .error (syntaxError "exceeded max depth") :=
  readValue_first_value_refused (2 * 9999 + 1) _ _ _
    (fun j rest => scanValue_deeplyNested j rest)

theorem decodeResponse_of_readValue_error {ρ : Type} (intBits : Nat)
    (decResult : ρ → JSON → Except GoError ρ) (zero : ρ) (body : String) (e : GoError)
    (h : readValue body = .error e) :
    decodeResponse intBits decResult zero body = .error e := by
  unfold decodeResponse decoderDecode
  rw [h]

theorem decodeResponse_unauthorizedDeepValue :
    decodeResponse exampleRuntime.intBits decodeBool false unauthorizedDeepValue.Body
      = .error (syntaxError "exceeded max depth") :=
  decodeResponse_of_readValue_error _ _ _ _ _ readValue_unauthorizedDeepValue

theorem answered_unauthorizedDeepValue :
    Answered (DeleteWebhook exampleRuntime (botAnswering unauthorizedDeepValue) ⟨true⟩)
      (botAnswering unauthorizedDeepValue) unauthorizedDeepValue := by
  rw [Answered, DeleteWebhook_sent]
  exact ⟨_, rfl, rfl⟩

theorem deleteWebhook_unauthorizedDeepValue :
    (DeleteWebhook exampleRuntime (botAnswering unauthorizedDeepValue) ⟨true⟩).result
      = .error (.wrap "error decoding response: " (syntaxError "exceeded max depth")) := by
  rw [DeleteWebhook_answered answered_unauthorizedDeepValue,
    decodeResponse_unauthorizedDeepValue]

/-- The condition on the added value cannot be dropped. With the member `request_id`, whose
key matches no field of the response struct and whose value is 10000 arrays nested in one
another, written into the envelope of the scenario of `deleteWebhook`, the decoder refuses
the body and `DeleteWebhook` returns the decode error instead of the remote-API error. -/
theorem unknown_key_deep_value_refused :
    findField Envelope.fieldNames "request_id" = none
    ∧ unauthorizedResponse.Body
      = encodeObject [("ok", "false"), ("error_code", "401"),
          ("description", "\"Unauthorized\"")]
    ∧ (¬ ∃ v, ReadsValue 1 (deeplyNested 10000) v)
    ∧ (∃ e, decodeResponse exampleRuntime.intBits decodeBool false unauthorizedDeepValue.Body
        = .error e
      ∧ (DeleteWebhook exampleRuntime (botAnswering unauthorizedDeepValue) ⟨true⟩).result
        = .error (.wrap "error decoding response: " e))
    ∧ (DeleteWebhook exampleRuntime (botAnswering unauthorizedResponse) ⟨true⟩).result
      = .error (.new ("HTTP status 200 OK, Telegram code 401, "
          ++ "Telegram API error: Unauthorized")) :=
  ⟨by decide, by decide, deeplyNested_not_read,
    ⟨_, decodeResponse_unauthorizedDeepValue, deleteWebhook_unauthorizedDeepValue⟩,
    by decide⟩

/-! ### The amended claim -/

/-- C12, amended. A body that the decoder reads as a JSON object, and a second body that it
reads as the same object with one more member whose key matches no declared field (neither
exactly nor under case folding, the way `encoding/json` matches keys), are decoded alike,
success and decoded value or error: at the top level of the response envelope, inside its
members `parameters` and (for `WebhookInfo`) `result`, for the payloads `WebhookInfo`,
`Voice` and `SharedUser` on their own, and for any record whose fields are stored the way
the struct decoder stores them, skipping a member whose key matches no field; and with it
each of the four operations returns the same result or error for both. That the second body is read is a condition on the value of
the member, not on its key: for an object written without white space, the text of a member
whose value the scanner reads, written between the members, gives such a second body. -/
theorem unknown_keys_are_ignored (rt : Runtime) (b b2 : Bot) (resp resp2 : HTTPResponse)
    (hstatus : SameStatus resp resp2) :
    (∀ (ρ : Type) (decResult : ρ → JSON → Except GoError ρ) (zero : ρ),
      AddsUnknownKey Envelope.fieldNames resp.Body resp2.Body →
      decodeResponse rt.intBits decResult zero resp2.Body
        = decodeResponse rt.intBits decResult zero resp.Body)
    ∧ (AddsUnknownKeyInResult WebhookInfo.fieldNames resp.Body resp2.Body →
      decodeResponse rt.intBits (WebhookInfo.decode rt.intBits) WebhookInfo.zero resp2.Body
        = decodeResponse rt.intBits (WebhookInfo.decode rt.intBits) WebhookInfo.zero
            resp.Body)
    ∧ (∀ (request : DeleteWebhookRequest),
      (AddsUnknownKey Envelope.fieldNames resp.Body resp2.Body
        ∨ AddsUnknownKeyInMember "parameters" ResponseParameters.fieldNames
            resp.Body resp2.Body) →
      Answered (DeleteWebhook rt b request) b resp →
      Answered (DeleteWebhook rt b2 request) b2 resp2 →
      (DeleteWebhook rt b2 request).result = (DeleteWebhook rt b request).result)
    ∧ (∀ (Update : Type) (update : Codec Update) (request : GetUpdatesRequest),
      (AddsUnknownKey Envelope.fieldNames resp.Body resp2.Body
        ∨ AddsUnknownKeyInMember "parameters" ResponseParameters.fieldNames
            resp.Body resp2.Body) →
      Answered (getUpdates update rt b request) b resp →
      Answered (getUpdates update rt b2 request) b2 resp2 →
      (getUpdates update rt b2 request).result = (getUpdates update rt b request).result)
    ∧ ((AddsUnknownKey Envelope.fieldNames resp.Body resp2.Body
        ∨ AddsUnknownKeyInResult WebhookInfo.fieldNames resp.Body resp2.Body
        ∨ AddsUnknownKeyInMember "parameters" ResponseParameters.fieldNames
            resp.Body resp2.Body) →
      Answered (GetWebhookInfo rt b) b resp →
      Answered (GetWebhookInfo rt b2) b2 resp2 →
      (GetWebhookInfo rt b2).result = (GetWebhookInfo rt b).result)
    ∧ (∀ (request : SetWebhookRequest),
      (AddsUnknownKey Envelope.fieldNames resp.Body resp2.Body
        ∨ AddsUnknownKeyInMember "parameters" ResponseParameters.fieldNames
            resp.Body resp2.Body) →
      Answered (SetWebhook rt b request) b resp →
      Answered (SetWebhook rt b2 request) b2 resp2 →
      (SetWebhook rt b2 request).result = (SetWebhook rt b request).result)
    ∧ (∀ (ρ : Type) (decResult : ρ → JSON → Except GoError ρ) (zero : ρ),
      AddsUnknownKeyInMember "parameters" ResponseParameters.fieldNames resp.Body resp2.Body →
      decodeResponse rt.intBits decResult zero resp2.Body
        = decodeResponse rt.intBits decResult zero resp.Body)
    ∧ (AddsUnknownKey WebhookInfo.fieldNames resp.Body resp2.Body →
      decoderDecode (WebhookInfo.decode rt.intBits) WebhookInfo.zero resp2.Body
        = decoderDecode (WebhookInfo.decode rt.intBits) WebhookInfo.zero resp.Body)
    ∧ (AddsUnknownKey Voice.fieldNames resp.Body resp2.Body →
      decoderDecode (Voice.decode rt.intBits) Voice.zero resp2.Body
        = decoderDecode (Voice.decode rt.intBits) Voice.zero resp.Body)
    ∧ (∀ (PhotoSize : Type) (photoSize : Codec PhotoSize),
      AddsUnknownKey SharedUser.fieldNames resp.Body resp2.Body →
      decoderDecode (SharedUser.decode photoSize) SharedUser.zero resp2.Body
        = decoderDecode (SharedUser.decode photoSize) SharedUser.zero resp.Body)
    ∧ (∀ (names : List String) (pre post : List (String × String)) (vpre vpost : List JSON)
        (key text tail : String) (v : JSON),
      findField names key = none →
      List.Forall₂ (fun (x : String × String) (w : JSON) => ReadsValue 1 x.2 w) pre vpre →
      List.Forall₂ (fun (x : String × String) (w : JSON) => ReadsValue 1 x.2 w) post vpost →
      ReadsValue 1 text v →
      AddsUnknownKey names (encodeObject (pre ++ post) ++ tail)
        (encodeObject (pre ++ (key, text) :: post) ++ tail))
    ∧ (∀ (member : String) (names : List String)
        (epre epost ipre ipost : List (String × String))
        (vepre vepost vipre vipost : List JSON) (memberKey key text tail : String) (v : JSON),
      findField Envelope.fieldNames memberKey = some member →
      findField names key = none →
      List.Forall₂ (fun (x : String × String) (w : JSON) => ReadsValue 1 x.2 w) epre vepre →
      List.Forall₂ (fun (x : String × String) (w : JSON) => ReadsValue 1 x.2 w) epost vepost →
      List.Forall₂ (fun (x : String × String) (w : JSON) => ReadsValue 2 x.2 w) ipre vipre →
      List.Forall₂ (fun (x : String × String) (w : JSON) => ReadsValue 2 x.2 w) ipost vipost →
      ReadsValue 2 text v →
      AddsUnknownKeyInMember member names
        (encodeObject (epre ++ (memberKey, encodeObject (ipre ++ ipost)) :: epost) ++ tail)
        (encodeObject
          (epre ++ (memberKey, encodeObject (ipre ++ (key, text) :: ipost)) :: epost)
          ++ tail))
    ∧ (∀ (σ : Type) (goType : String) (setField : σ → String → JSON → Except GoError σ)
        (names : List String) (zero : σ),
      (∀ key v, findField names key = none → ∀ s, setField s key v = .ok s) →
      AddsUnknownKey names resp.Body resp2.Body →
      decoderDecode (decodeStruct goType setField) zero resp2.Body
        = decoderDecode (decodeStruct goType setField) zero resp.Body) := by
  obtain ⟨hs1, hs2⟩ := hstatus
  have htop : ∀ (ρ : Type) (decResult : ρ → JSON → Except GoError ρ) (zero : ρ),
      (AddsUnknownKey Envelope.fieldNames resp.Body resp2.Body
        ∨ AddsUnknownKeyInMember "parameters" ResponseParameters.fieldNames
            resp.Body resp2.Body) →
      decodeResponse rt.intBits decResult zero resp2.Body
        = decodeResponse rt.intBits decResult zero resp.Body := by
    intro ρ decResult zero h
    rcases h with h | h
    · exact decodeResponse_adds_unknown_key _ _ _ _ _ h
    · exact decodeResponse_adds_unknown_key_in_parameters _ _ _ _ _ h
  refine ⟨?_, ?_, ?_, ?_, ?_, ?_, ?_, ?_, ?_, ?_, ?_, ?_, ?_⟩
  · intro ρ decResult zero h
    exact decodeResponse_adds_unknown_key _ _ _ _ _ h
  · intro h
    exact decodeResponse_adds_unknown_key_in_result _ _ _ h
  · intro request h ha ha2
    rw [DeleteWebhook_answered ha, DeleteWebhook_answered ha2, htop _ _ _ h, hs1, hs2]
  · intro Update update request h ha ha2
    rw [getUpdates_answered ha, getUpdates_answered ha2, htop _ _ _ h, hs1, hs2]
  · intro h ha ha2
    have hd : decodeResponse rt.intBits (WebhookInfo.decode rt.intBits) WebhookInfo.zero
        resp2.Body
        = decodeResponse rt.intBits (WebhookInfo.decode rt.intBits) WebhookInfo.zero
            resp.Body := by
      rcases h with h | h | h
      · exact decodeResponse_adds_unknown_key _ _ _ _ _ h
      · exact decodeResponse_adds_unknown_key_in_result _ _ _ h
      · exact decodeResponse_adds_unknown_key_in_parameters _ _ _ _ _ h
    rw [GetWebhookInfo_answered ha, GetWebhookInfo_answered ha2, hd, hs1, hs2]
  · intro request h ha ha2
    rw [SetWebhook_answered ha, SetWebhook_answered ha2, htop _ _ _ h, hs1, hs2]
  · intro ρ decResult zero h
    exact decodeResponse_adds_unknown_key_in_parameters _ _ _ _ _ h
  · intro h
    exact decoderDecode_adds_unknown_key _ _ WebhookInfo.fieldNames
      (fun key v hk w => WebhookInfo.setField_unknown_key rt.intBits key v hk w) _ _ _ h
  · intro h
    exact decoderDecode_adds_unknown_key _ _ Voice.fieldNames
      (fun key v hk w => Voice.unknown_key_ignored rt.intBits key v hk w) _ _ _ h
  · intro PhotoSize photoSize h
    exact decoderDecode_adds_unknown_key _ _ SharedUser.fieldNames
      (fun key v hk w => SharedUser.unknown_key_skipped photoSize key v hk w) _ _ _ h
  · intro names pre post vpre vpost key text tail v hk hpre hpost hv
    exact addsUnknownKey_of_text names pre post vpre vpost key text tail v hk hpre hpost hv
  · intro member names epre epost ipre ipost vepre vepost vipre vipost memberKey key text
      tail v hm hk hepre hepost hipre hipost hv
    exact addsUnknownKeyInMember_of_text member names epre epost ipre ipost vepre vepost
      vipre vipost memberKey key text tail v hm hk hepre hepost hipre hipost hv
  · intro σ goType setField names zero hign h
    exact decoderDecode_adds_unknown_key goType setField names hign zero _ _ h

/-- C12, amended, witness. With the member `"request_id":[1,2]` added to the envelope
`{"ok":false,"error_code":401,"description":"Unauthorized"}`, `DeleteWebhook` returns the
same error as without it; and the text `"request_id":["a","b"]` written between the members
of that envelope adds an unknown key. -/
theorem unknown_keys_are_ignored_witness :
    SameStatus unauthorizedResponse unauthorizedExtraKey
    ∧ AddsUnknownKey Envelope.fieldNames unauthorizedResponse.Body unauthorizedExtraKey.Body
    ∧ (DeleteWebhook exampleRuntime (botAnswering unauthorizedExtraKey) ⟨true⟩).result
      = (DeleteWebhook exampleRuntime (botAnswering unauthorizedResponse) ⟨true⟩).result
    ∧ AddsUnknownKey Envelope.fieldNames
        (encodeObject ([("ok", encodeBool false), ("error_code", encodeInt 401)]
          ++ [("description", encodeString "Unauthorized")]) ++ "")
        (encodeObject ([("ok", encodeBool false), ("error_code", encodeInt 401)]
          ++ ("request_id", encodeSlice encodeString (some ["a", "b"]))
            :: [("description", encodeString "Unauthorized")]) ++ "")
    ∧ encodeObject ([("ok", encodeBool false), ("error_code", encodeInt 401)]
          ++ [("description", encodeString "Unauthorized")]) ++ ""
        = unauthorizedResponse.Body
    ∧ encodeObject ([("ok", encodeBool false), ("error_code", encodeInt 401)]
          ++ ("request_id", encodeSlice encodeString (some ["a", "b"]))
            :: [("description", encodeString "Unauthorized")]) ++ ""
        = "\x7b\"ok\":false,\"error_code\":401,\"request_id\":[\"a\",\"b\"],"
          ++ "\"description\":\"Unauthorized\"\x7d" :=
  ⟨⟨rfl, rfl⟩,
    ⟨[("ok", .bool false), ("error_code", .int 401)], [("description", .str "Unauthorized")],
      "request_id", .arr [.int 1, .int 2], by decide, rfl, rfl⟩,
    (unknown_keys_are_ignored exampleRuntime (botAnswering unauthorizedResponse)
      (botAnswering unauthorizedExtraKey) unauthorizedResponse unauthorizedExtraKey
      ⟨rfl, rfl⟩).2.2.1 ⟨true⟩
      (Or.inl ⟨[("ok", .bool false), ("error_code", .int 401)],
        [("description", .str "Unauthorized")],
        "request_id", .arr [.int 1, .int 2], by decide, rfl, rfl⟩)
      ⟨_, rfl, rfl⟩ ⟨_, rfl, rfl⟩,
    (unknown_keys_are_ignored exampleRuntime (botAnswering unauthorizedResponse)
      (botAnswering unauthorizedExtraKey) unauthorizedResponse unauthorizedExtraKey
      ⟨rfl, rfl⟩).2.2.2.2.2.2.2.2.2.2.1 Envelope.fieldNames
      [("ok", encodeBool false), ("error_code", encodeInt 401)]
      [("description", encodeString "Unauthorized")]
      [.bool false, .int 401] [.str "Unauthorized"] "request_id"
      (encodeSlice encodeString (some ["a", "b"])) "" (.arr [.str "a", .str "b"])
      (by decide)
      (List.Forall₂.cons (readsValue_bool 1 false)
        (List.Forall₂.cons (readsValue_int 1 401) List.Forall₂.nil))
      (List.Forall₂.cons (readsValue_string 1 "Unauthorized") List.Forall₂.nil)
      (readsValue_strings 1 (by decide) "a" ["b"]),
    by decide, by decide⟩

/-! ## C13: the transport helper -/

/-- C13 as stated fails. For the empty method, for which `http.NewRequest` succeeds, the
request `sendRequest` hands to the client has the method `GET`, not the given method. -/
theorem sendRequest_empty_method_is_GET :
    NewRequest exampleRuntime ""
        (telegramEndpoint exampleRuntime.host (botAnswering tooManyRequests).Token
          "getWebhookInfo") none
      = .ok { Method := "GET",
              URL := "https://api.telegram.org/bot110201543:AAHdqTcvCH1vGWJxfSeofSAs0K5PALDsaw"
                ++ "/getWebhookInfo",
              Header := [], ContentLength := 0, Body := none }
    ∧ (sendRequest exampleRuntime (botAnswering tooManyRequests) "" "application/json"
          "getWebhookInfo" none).result = .ok tooManyRequests
    ∧ (sendRequest exampleRuntime (botAnswering tooManyRequests) "" "application/json"
          "getWebhookInfo" none).sent.map HTTPRequest.Method = ["GET"]
    ∧ ¬ ∃ req, (sendRequest exampleRuntime (botAnswering tooManyRequests) ""
          "application/json" "getWebhookInfo" none).sent = [req] ∧ req.Method = "" := by
  refine ⟨by decide, by decide, by decide, ?_⟩
  rintro ⟨req, hs, hm⟩
  have h : (sendRequest exampleRuntime (botAnswering tooManyRequests) "" "application/json"
      "getWebhookInfo" none).sent.map HTTPRequest.Method = ["GET"] := by decide
  rw [hs] at h
  simp only [List.map_cons, List.map_nil, List.cons.injEq, and_true] at h
  rw [hm] at h
  revert h
  decide

/-- C13, amended. For every HTTP method, content type, operation name and payload for which
`http.NewRequest` succeeds, `sendRequest` hands the client exactly one request: its method
is the given method, or `GET` when the given method is empty; its URL is
`https://<host>/bot<token>/<operation>` with the bot's token and the operation name, its
`Content-Type` header is the given content type, its body is the given payload; and when
the client answers, `sendRequest` returns that response as it is, whatever its status and
body. -/
theorem sendRequest_contract (rt : Runtime) (b : Bot)
    (httpMethod contentTypeHeader telegramMethod : String) (requestPayload : Option String)
    (hreq : ∃ created, NewRequest rt httpMethod
      (telegramEndpoint rt.host b.Token telegramMethod) requestPayload = .ok created) :
    ∃ req, (sendRequest rt b httpMethod contentTypeHeader telegramMethod requestPayload).sent
        = [req]
      ∧ req.Method = (if httpMethod = "" then "GET" else httpMethod)
      ∧ req.URL = "https://" ++ rt.host ++ "/bot" ++ b.Token ++ "/" ++ telegramMethod
      ∧ req.getHeader "Content-Type" = some contentTypeHeader
      ∧ req.Body = requestPayload
      ∧ ∀ resp, b.client req = .ok resp →
          (sendRequest rt b httpMethod contentTypeHeader telegramMethod requestPayload).result
            = .ok resp := by
  obtain ⟨created, hc⟩ := hreq
  have hn : rt.requestError (requestMethod httpMethod)
      (telegramEndpoint rt.host b.Token telegramMethod) = none := by
    unfold NewRequest at hc
    cases h : rt.requestError (requestMethod httpMethod)
        (telegramEndpoint rt.host b.Token telegramMethod) with
    | none => rfl
    | some e =>
      rw [h] at hc
      cases hc
  unfold sendRequest
  simp only [NewRequest, hn]
  refine ⟨HTTPRequest.setHeader
      { Method := requestMethod httpMethod,
        URL := telegramEndpoint rt.host b.Token telegramMethod,
        Header := [], ContentLength := (requestPayload.map String.utf8ByteSize).getD 0,
        Body := requestPayload } "Content-Type" contentTypeHeader,
    ?_, rfl, rfl, ?_, rfl, ?_⟩
  · cases b.client _ <;> rfl
  · simp [HTTPRequest.getHeader, HTTPRequest.setHeader]
  · intro resp hc
    rw [hc]

/-- C13, amended, witness. `sendRequest` for `getUpdates` with the payload `{}` sends one
`POST` to `https://api.telegram.org/bot<token>/getUpdates` with
`Content-Type: application/json` and returns the response of the client, here one with
status 429, as it is. -/
theorem sendRequest_contract_witness :
    (∃ created, NewRequest exampleRuntime "POST"
        (telegramEndpoint exampleRuntime.host (botAnswering tooManyRequests).Token
          "getUpdates") (some "\x7b\x7d\n") = .ok created)
    ∧ ∃ req, (sendRequest exampleRuntime (botAnswering tooManyRequests) "POST"
          "application/json" "getUpdates" (some "\x7b\x7d\n")).sent = [req]
        ∧ req.Method = "POST"
        ∧ req.URL = "https://api.telegram.org/bot110201543:AAHdqTcvCH1vGWJxfSeofSAs0K5PALDsaw"
            ++ "/getUpdates"
        ∧ req.getHeader "Content-Type" = some "application/json"
        ∧ req.Body = some "\x7b\x7d\n"
        ∧ ∀ resp, (botAnswering tooManyRequests).client req = .ok resp →
            (sendRequest exampleRuntime (botAnswering tooManyRequests) "POST"
              "application/json" "getUpdates" (some "\x7b\x7d\n")).result = .ok resp :=
  ⟨⟨_, rfl⟩, sendRequest_contract exampleRuntime (botAnswering tooManyRequests) "POST"
    "application/json" "getUpdates" (some "\x7b\x7d\n") ⟨_, rfl⟩⟩

/-! ## C14: transport errors -/

/-- Two texts that differ at a common position are not prefixes of one another, whatever
follows the second. -/
theorem differ_not_prefix : ∀ (p q x : List Char), differ p q = true → ¬ p <+: q ++ x
  | [], _, _, h => by simp [differ] at h
  | _ :: _, [], _, h => by simp [differ] at h
  | a :: p, b :: q, x, h => by
    simp only [differ, Bool.or_eq_true, bne_iff_ne, ne_eq] at h
    intro hp
    rw [List.cons_append, List.cons_prefix_cons] at hp
    rcases h with h | h
    · exact h hp.1
    · exact differ_not_prefix p q x h hp.2

theorem transport_error_of_prefix (q x : String) (cause : GoError)
    (hq : q = "error creating new " ∨ q = "error sending ") :
    IsTransportError (.wrap (q ++ x) cause) cause := by
  refine ⟨rfl, ?_, ?_⟩
  · rintro ⟨status, code, description, h⟩
    have h2 := congrArg String.data h
    simp only [GoError.Error, String.data_append] at h2
    have h3 := congrArg List.head? h2
    rcases hq with hq | hq <;> subst hq <;> simp at h3
  · rintro ⟨p, hp, hpre⟩
    simp only [GoError.Error, String.data_append, List.append_assoc] at hpre
    have hd : ∀ p ∈ localErrorPrefixes,
        differ p.data "error creating new ".data = true
        ∧ differ p.data "error sending ".data = true := by decide
    rcases hq with hq | hq <;> subst hq
    · exact differ_not_prefix _ _ _ (hd p hp).1 hpre
    · exact differ_not_prefix _ _ _ (hd p hp).2 hpre

theorem sendRequest_not_created {rt : Runtime} {b : Bot} {m ct tm : String}
    {p : Option String} {cause : GoError} (hm : m ≠ "")
    (h : rt.requestError m (telegramEndpoint rt.host b.Token tm) = some cause) :
    sendRequest rt b m ct tm p =
      { sent := [],
        result := .error (.wrap ("error creating new " ++ m ++ " request to " ++ tm ++ ": ")
          cause) } := by
  unfold sendRequest
  simp only [NewRequest, requestMethod_of_ne hm, h]

theorem sendRequest_refused {rt : Runtime} {b : Bot} {m ct tm : String} {p : Option String}
    {cause : GoError} (h : Refused (sendRequest rt b m ct tm p) b cause) :
    (sendRequest rt b m ct tm p).result =
      .error (.wrap ("error sending " ++ m ++ " request to " ++ tm ++ ": ") cause) := by
  obtain ⟨req, hs, hc⟩ := h
  unfold sendRequest at hs ⊢
  cases hn : NewRequest rt m (telegramEndpoint rt.host b.Token tm) p with
  | error e => simp [hn] at hs
  | ok r =>
    simp only [hn] at hs ⊢
    cases hd : b.client (r.setHeader "Content-Type" ct) with
    | error e =>
      simp only [hd] at hs
      simp at hs
      rw [hs, hc] at hd
      cases hd
      rfl
    | ok r2 =>
      simp only [hd] at hs
      simp at hs
      rw [hs, hc] at hd
      cases hd

/-- Whether `sendRequest` fails at construction or at the exchange, its error is a
transport error with the failure as its cause. -/
theorem sendRequest_transport_error {rt : Runtime} {b : Bot} {m ct tm : String}
    {p : Option String} {cause : GoError} (hm : m ≠ "")
    (h : rt.requestError m (telegramEndpoint rt.host b.Token tm) = some cause
      ∨ Refused (sendRequest rt b m ct tm p) b cause) :
    ∃ err, (sendRequest rt b m ct tm p).result = .error err ∧ IsTransportError err cause
      ∧ (err = .wrap ("error creating new " ++ m ++ " request to " ++ tm ++ ": ") cause
        ∨ err = .wrap ("error sending " ++ m ++ " request to " ++ tm ++ ": ") cause) := by
  rcases h with h | h
  · refine ⟨_, by rw [sendRequest_not_created hm h], ?_, Or.inl rfl⟩
    have := transport_error_of_prefix "error creating new " (m ++ " request to " ++ tm ++ ": ")
      cause (Or.inl rfl)
    simpa [String.append_assoc] using this
  · refine ⟨_, sendRequest_refused h, ?_, Or.inr rfl⟩
    have := transport_error_of_prefix "error sending " (m ++ " request to " ++ tm ++ ": ")
      cause (Or.inr rfl)
    simpa [String.append_assoc] using this

theorem DeleteWebhook_sendRequest_error {rt : Runtime} {b : Bot}
    {request : DeleteWebhookRequest} {err : GoError}
    (h : (sendRequest rt b "POST" "application/json" "deleteWebhook"
      (some (encodeObject request.members ++ "\n"))).result = .error err) :
    (DeleteWebhook rt b request).result = .error err := by
  unfold DeleteWebhook DeleteWebhook.withEncoder
  simp only [encoderEncode, h]

theorem getUpdates_sendRequest_error {Update : Type} {update : Codec Update} {rt : Runtime}
    {b : Bot} {request : GetUpdatesRequest} {err : GoError}
    (h : (sendRequest rt b "POST" "application/json" "getUpdates"
      (some (encodeObject request.members ++ "\n"))).result = .error err) :
    (getUpdates update rt b request).result = .error err := by
  unfold getUpdates getUpdates.withEncoder
  simp only [encoderEncode, h]

theorem GetWebhookInfo_sendRequest_error {rt : Runtime} {b : Bot} {err : GoError}
    (h : (sendRequest rt b "GET" "application/json" "getWebhookInfo" none).result
      = .error err) :
    (GetWebhookInfo rt b).result = .error err := by
  unfold GetWebhookInfo
  simp only [h]

theorem SetWebhook_refused {rt : Runtime} {b : Bot} {request : SetWebhookRequest}
    {cause : GoError} (h : Refused (SetWebhook rt b request) b cause) :
    (SetWebhook rt b request).result
      = .error (.wrap "error sending POST request to setWebhook: " cause) := by
  obtain ⟨req, hs, hc⟩ := h
  unfold SetWebhook at hs ⊢
  cases hf : SetWebhook.formBeforeRequest rt request with
  | error e => simp [hf] at hs
  | ok w =>
    simp only [hf] at hs ⊢
    cases hn : NewRequest rt "POST" (telegramEndpoint rt.host b.Token "setWebhook")
        (some w.bytes) with
    | error e => simp [hn] at hs
    | ok r =>
      simp only [hn] at hs ⊢
      cases hd : b.client (SetWebhook.requestSent request w r) with
      | error e =>
        simp only [hd] at hs
        simp at hs
        rw [hs, hc] at hd
        cases hd
        rfl
      | ok r2 =>
        simp only [hd] at hs ⊢
        have hsent : [SetWebhook.requestSent request w r] = [req] := by
          rw [← hs]
          repeat' split
          all_goals rfl
        simp at hsent
        rw [hsent, hc] at hd
        cases hd

/-- With a readable certificate (or none) the form is built without error. -/
theorem formBeforeRequest_ok (rt : Runtime) (request : SetWebhookRequest)
    (certificate : Option String) (hcert : CertificateIs rt request certificate) :
    ∃ w, SetWebhook.formBeforeRequest rt request = .ok w := by
  obtain ⟨url, cp, ip, mc, au, dp, st⟩ := request
  cases certificate with
  | none =>
    simp only [CertificateIs] at hcert
    subst hcert
    exact ⟨_, rfl⟩
  | some c =>
    obtain ⟨path, hp, hr⟩ := hcert
    simp only at hp
    subst hp
    apply Exists.intro
    simp only [SetWebhook.formBeforeRequest, Runtime.Open, hr]
    exact rfl

theorem SetWebhook_not_created {rt : Runtime} {b : Bot} {request : SetWebhookRequest}
    {certificate : Option String} {cause : GoError}
    (hcert : CertificateIs rt request certificate)
    (h : rt.requestError "POST" (telegramEndpoint rt.host b.Token "setWebhook") = some cause) :
    SetWebhook rt b request =
      { sent := [],
        result := .error (.wrap "error creating new POST request to setWebhook: " cause) } := by
  obtain ⟨w, hw⟩ := formBeforeRequest_ok rt request certificate hcert
  unfold SetWebhook
  simp only [hw, NewRequest, requestMethod_POST, h]

/-- C14. In each of the four operations, when `http.NewRequest` fails or the exchange with
the client fails, the operation returns a transport error: it wraps the cause, and its
message has neither the form `HTTP status ..., Telegram code ..., Telegram API error: ...`
nor the start of a local encode or decode error. In `DeleteWebhook`, `getUpdates` and
`GetWebhookInfo` it is the very error `sendRequest` returned; in `SetWebhook` it is the
cause wrapped as `error creating new POST request to setWebhook` or `error sending POST
request to setWebhook`. When the construction fails, no request is sent. -/
theorem transport_failure_is_transport_error (rt : Runtime) (b : Bot) (cause : GoError) :
    (∀ (request : DeleteWebhookRequest),
      (rt.requestError "POST" (telegramEndpoint rt.host b.Token "deleteWebhook") = some cause
        ∨ Refused (DeleteWebhook rt b request) b cause) →
      ∃ err, (DeleteWebhook rt b request).result = .error err ∧ IsTransportError err cause
        ∧ (sendRequest rt b "POST" "application/json" "deleteWebhook"
            (some (encodeObject request.members ++ "\n"))).result = .error err)
    ∧ (∀ (Update : Type) (update : Codec Update) (request : GetUpdatesRequest),
      (rt.requestError "POST" (telegramEndpoint rt.host b.Token "getUpdates") = some cause
        ∨ Refused (getUpdates update rt b request) b cause) →
      ∃ err, (getUpdates update rt b request).result = .error err ∧ IsTransportError err cause
        ∧ (sendRequest rt b "POST" "application/json" "getUpdates"
            (some (encodeObject request.members ++ "\n"))).result = .error err)
    ∧ ((rt.requestError "GET" (telegramEndpoint rt.host b.Token "getWebhookInfo") = some cause
        ∨ Refused (GetWebhookInfo rt b) b cause) →
      ∃ err, (GetWebhookInfo rt b).result = .error err ∧ IsTransportError err cause
        ∧ (sendRequest rt b "GET" "application/json" "getWebhookInfo" none).result
          = .error err)
    ∧ (∀ (request : SetWebhookRequest) (certificate : Option String),
      CertificateIs rt request certificate →
      rt.requestError "POST" (telegramEndpoint rt.host b.Token "setWebhook") = some cause →
      (SetWebhook rt b request).sent = []
      ∧ (SetWebhook rt b request).result
        = .error (.wrap "error creating new POST request to setWebhook: " cause)
      ∧ IsTransportError (.wrap "error creating new POST request to setWebhook: " cause) cause)
    ∧ (∀ (request : SetWebhookRequest),
      Refused (SetWebhook rt b request) b cause →
      (SetWebhook rt b request).result
        = .error (.wrap "error sending POST request to setWebhook: " cause)
      ∧ IsTransportError (.wrap "error sending POST request to setWebhook: " cause) cause) := by
  refine ⟨?_, ?_, ?_, ?_, ?_⟩
  · intro request h
    obtain ⟨err, he, ht, -⟩ := @sendRequest_transport_error rt b "POST" "application/json"
      "deleteWebhook" (some (encodeObject request.members ++ "\n")) cause (by decide)
      (h.imp id (fun hr => by rw [Refused, ← DeleteWebhook_sent]; exact hr))
    exact ⟨err, DeleteWebhook_sendRequest_error he, ht, he⟩
  · intro Update update request h
    obtain ⟨err, he, ht, -⟩ := @sendRequest_transport_error rt b "POST" "application/json"
      "getUpdates" (some (encodeObject request.members ++ "\n")) cause (by decide)
      (h.imp id (fun hr => by rw [Refused, ← getUpdates_sent]; exact hr))
    exact ⟨err, getUpdates_sendRequest_error he, ht, he⟩
  · intro h
    obtain ⟨err, he, ht, -⟩ := @sendRequest_transport_error rt b "GET" "application/json"
      "getWebhookInfo" none cause (by decide)
      (h.imp id (fun hr => by rw [Refused, ← GetWebhookInfo_sent]; exact hr))
    exact ⟨err, GetWebhookInfo_sendRequest_error he, ht, he⟩
  · intro request certificate hcert h
    rw [SetWebhook_not_created hcert h]
    exact ⟨rfl, rfl, transport_error_of_prefix "error creating new "
      "POST request to setWebhook: " cause (Or.inl rfl)⟩
  · intro request h
    exact ⟨SetWebhook_refused h, transport_error_of_prefix "error sending "
      "POST request to setWebhook: " cause (Or.inr rfl)⟩

/-- C14, witness. `DeleteWebhook` with a client whose exchange fails with `connection
refused` returns `error sending POST request to deleteWebhook: connection refused`. -/
theorem transport_failure_is_transport_error_witness :
    Refused (DeleteWebhook exampleRuntime (botFailing (.new "connection refused")) ⟨false⟩)
      (botFailing (.new "connection refused")) (.new "connection refused")
    ∧ (DeleteWebhook exampleRuntime (botFailing (.new "connection refused")) ⟨false⟩).result
      = .error (.wrap "error sending POST request to deleteWebhook: "
          (.new "connection refused"))
    ∧ ∃ err, (DeleteWebhook exampleRuntime (botFailing (.new "connection refused"))
          ⟨false⟩).result = .error err
        ∧ IsTransportError err (.new "connection refused")
        ∧ (sendRequest exampleRuntime (botFailing (.new "connection refused")) "POST"
            "application/json" "deleteWebhook"
            (some (encodeObject (DeleteWebhookRequest.members ⟨false⟩) ++ "\n"))).result
          = .error err :=
  ⟨⟨_, rfl, rfl⟩, by decide,
    (transport_failure_is_transport_error exampleRuntime
      (botFailing (.new "connection refused")) (.new "connection refused")).1 ⟨false⟩
      (Or.inr ⟨_, rfl, rfl⟩)⟩

/-! ## C15: local failures come before any request -/

/-- The encoder of the request payloads returns no error. -/
theorem encoderEncode_ok (members : List (String × String)) :
    encoderEncode members = .ok (encodeObject members ++ "\n") := rfl

/-- C15. A local encoding failure is returned before any request is sent. In `SetWebhook`,
when `CertificatePath` is set to a path that `os.Open` cannot open, the result is the open
failure wrapped as `error opening certificate file` and no request is sent. In
`DeleteWebhook` and `getUpdates`, when the encoder of the payload returns an error, the
result is that error wrapped as `error encoding request payload` and no request is sent
(with the encoder of `encoding/json` this does not happen for these request records). -/
theorem local_failure_sends_nothing (rt : Runtime) (b : Bot) (cause : GoError) :
    (∀ (request : SetWebhookRequest) (path : String),
      request.CertificatePath = some path → rt.readFile path = .error cause →
      (SetWebhook rt b request).sent = []
      ∧ (SetWebhook rt b request).result
        = .error (.wrap "error opening certificate file: " cause))
    ∧ (∀ (encode : DeleteWebhookRequest → Except GoError String)
        (request : DeleteWebhookRequest),
      encode request = .error cause →
      (DeleteWebhook.withEncoder encode rt b request).sent = []
      ∧ (DeleteWebhook.withEncoder encode rt b request).result
        = .error (.wrap "error encoding request payload: " cause))
    ∧ (∀ (Update : Type) (update : Codec Update)
        (encode : GetUpdatesRequest → Except GoError String) (request : GetUpdatesRequest),
      encode request = .error cause →
      (getUpdates.withEncoder encode update rt b request).sent = []
      ∧ (getUpdates.withEncoder encode update rt b request).result
        = .error (.wrap "error encoding request payload: " cause)) := by
  refine ⟨?_, ?_, ?_⟩
  · intro request path hp hr
    obtain ⟨url, cp, ip, mc, au, dp, st⟩ := request
    simp only at hp
    subst hp
    have hf : SetWebhook.formBeforeRequest rt ⟨url, some path, ip, mc, au, dp, st⟩
        = .error (.wrap "error opening certificate file: " cause) := by
      simp only [SetWebhook.formBeforeRequest, Runtime.Open, hr]
    unfold SetWebhook
    rw [hf]
    exact ⟨rfl, rfl⟩
  · intro encode request he
    unfold DeleteWebhook.withEncoder
    rw [he]
    exact ⟨rfl, rfl⟩
  · intro Update update encode request he
    unfold getUpdates.withEncoder
    rw [he]
    exact ⟨rfl, rfl⟩

/-- C15, witness. `SetWebhook` with `CertificatePath = "missing.pem"`, which does not open,
returns `error opening certificate file: open: no such file or directory` and sends
nothing. -/
theorem local_failure_sends_nothing_witness :
    exampleRuntime.readFile "missing.pem" = .error (.new "open: no such file or directory")
    ∧ (SetWebhook exampleRuntime (botAnswering noUpdates)
        ⟨"https://example.com/hook", some "missing.pem", none, none, none, none, none⟩).sent
      = []
    ∧ (SetWebhook exampleRuntime (botAnswering noUpdates)
        ⟨"https://example.com/hook", some "missing.pem", none, none, none, none, none⟩).result
      = .error (.wrap "error opening certificate file: "
          (.new "open: no such file or directory")) :=
  ⟨rfl,
    (local_failure_sends_nothing exampleRuntime (botAnswering noUpdates)
      (.new "open: no such file or directory")).1
      ⟨"https://example.com/hook", some "missing.pem", none, none, none, none, none⟩
      "missing.pem" rfl rfl⟩

/-! ## C16: one call, at most one request -/

theorem sendRequest_sent_length (rt : Runtime) (b : Bot) (m ct tm : String)
    (p : Option String) (hm : m ≠ "") :
    (sendRequest rt b m ct tm p).sent.length ≤ 1
    ∧ (rt.requestError m (telegramEndpoint rt.host b.Token tm) = none →
        (sendRequest rt b m ct tm p).sent.length = 1) := by
  unfold sendRequest
  cases hn : NewRequest rt m (telegramEndpoint rt.host b.Token tm) p with
  | error e =>
    simp only [hn]
    refine ⟨by simp, ?_⟩
    intro h
    simp [NewRequest, requestMethod_of_ne hm, h] at hn
  | ok r =>
    simp only [hn]
    cases b.client _ <;> simp

theorem withEncoder_sent_DeleteWebhook (encode : DeleteWebhookRequest → Except GoError String)
    (rt : Runtime) (b : Bot) (request : DeleteWebhookRequest) :
    (DeleteWebhook.withEncoder encode rt b request).sent =
      match encode request with
      | .error _ => []
      | .ok payload =>
        (sendRequest rt b "POST" "application/json" "deleteWebhook" (some payload)).sent := by
  unfold DeleteWebhook.withEncoder
  cases he : encode request with
  | error e => rfl
  | ok payload =>
    simp only
    repeat' split
    all_goals rfl

theorem withEncoder_sent_getUpdates {Update : Type}
    (encode : GetUpdatesRequest → Except GoError String) (update : Codec Update)
    (rt : Runtime) (b : Bot) (request : GetUpdatesRequest) :
    (getUpdates.withEncoder encode update rt b request).sent =
      match encode request with
      | .error _ => []
      | .ok payload =>
        (sendRequest rt b "POST" "application/json" "getUpdates" (some payload)).sent := by
  unfold getUpdates.withEncoder
  cases he : encode request with
  | error e => rfl
  | ok payload =>
    simp only
    repeat' split
    all_goals rfl

theorem SetWebhook_sent_length (rt : Runtime) (b : Bot) (request : SetWebhookRequest) :
    (SetWebhook rt b request).sent.length ≤ 1 := by
  unfold SetWebhook
  cases SetWebhook.formBeforeRequest rt request with
  | error e => simp
  | ok w =>
    simp only
    cases NewRequest rt "POST" (telegramEndpoint rt.host b.Token "setWebhook")
        (some w.bytes) with
    | error e => simp
    | ok r =>
      simp only
      cases b.client (SetWebhook.requestSent request w r) with
      | error e => simp
      | ok r2 =>
        simp only
        cases decodeResponse rt.intBits decodeAny none r2.Body with
        | error e => simp
        | ok env =>
          simp only
          split <;> simp

/-- C16. One call of `DeleteWebhook`, `getUpdates`, `GetWebhookInfo` or `SetWebhook` hands
at most one request to the client, whatever the input, the client and the response (also
an error response with a `retry_after` hint); it hands exactly one when the local encoding
and `http.NewRequest` succeed. -/
theorem at_most_one_request (rt : Runtime) (b : Bot) :
    (∀ (encode : DeleteWebhookRequest → Except GoError String)
        (request : DeleteWebhookRequest),
      (DeleteWebhook.withEncoder encode rt b request).sent.length ≤ 1
      ∧ ((∃ payload, encode request = .ok payload) →
          rt.requestError "POST" (telegramEndpoint rt.host b.Token "deleteWebhook") = none →
          (DeleteWebhook.withEncoder encode rt b request).sent.length = 1))
    ∧ (∀ (request : DeleteWebhookRequest),
      (DeleteWebhook rt b request).sent.length ≤ 1
      ∧ (rt.requestError "POST" (telegramEndpoint rt.host b.Token "deleteWebhook") = none →
          (DeleteWebhook rt b request).sent.length = 1))
    ∧ (∀ (Update : Type) (update : Codec Update)
        (encode : GetUpdatesRequest → Except GoError String) (request : GetUpdatesRequest),
      (getUpdates.withEncoder encode update rt b request).sent.length ≤ 1
      ∧ ((∃ payload, encode request = .ok payload) →
          rt.requestError "POST" (telegramEndpoint rt.host b.Token "getUpdates") = none →
          (getUpdates.withEncoder encode update rt b request).sent.length = 1))
    ∧ (∀ (Update : Type) (update : Codec Update) (request : GetUpdatesRequest),
      (getUpdates update rt b request).sent.length ≤ 1
      ∧ (rt.requestError "POST" (telegramEndpoint rt.host b.Token "getUpdates") = none →
          (getUpdates update rt b request).sent.length = 1))
    ∧ ((GetWebhookInfo rt b).sent.length ≤ 1
      ∧ (rt.requestError "GET" (telegramEndpoint rt.host b.Token "getWebhookInfo") = none →
          (GetWebhookInfo rt b).sent.length = 1))
    ∧ (∀ (request : SetWebhookRequest),
      (SetWebhook rt b request).sent.length ≤ 1
      ∧ (∀ certificate, CertificateIs rt request certificate →
          rt.requestError "POST" (telegramEndpoint rt.host b.Token "setWebhook") = none →
          (SetWebhook rt b request).sent.length = 1)) := by
  have hD : ∀ (encode : DeleteWebhookRequest → Except GoError String)
      (request : DeleteWebhookRequest),
      (DeleteWebhook.withEncoder encode rt b request).sent.length ≤ 1
      ∧ ((∃ payload, encode request = .ok payload) →
          rt.requestError "POST" (telegramEndpoint rt.host b.Token "deleteWebhook") = none →
          (DeleteWebhook.withEncoder encode rt b request).sent.length = 1) := by
    intro encode request
    rw [withEncoder_sent_DeleteWebhook]
    cases he : encode request with
    | error e =>
      refine ⟨by simp, ?_⟩
      rintro ⟨payload, hp⟩
      cases hp
    | ok payload =>
      simp only
      exact ⟨(sendRequest_sent_length rt b _ _ _ _ (by decide)).1,
        fun _ hr => (sendRequest_sent_length rt b _ _ _ _ (by decide)).2 hr⟩
  have hG : ∀ (Update : Type) (update : Codec Update)
      (encode : GetUpdatesRequest → Except GoError String) (request : GetUpdatesRequest),
      (getUpdates.withEncoder encode update rt b request).sent.length ≤ 1
      ∧ ((∃ payload, encode request = .ok payload) →
          rt.requestError "POST" (telegramEndpoint rt.host b.Token "getUpdates") = none →
          (getUpdates.withEncoder encode update rt b request).sent.length = 1) := by
    intro Update update encode request
    rw [withEncoder_sent_getUpdates]
    cases he : encode request with
    | error e =>
      refine ⟨by simp, ?_⟩
      rintro ⟨payload, hp⟩
      cases hp
    | ok payload =>
      simp only
      exact ⟨(sendRequest_sent_length rt b _ _ _ _ (by decide)).1,
        fun _ hr => (sendRequest_sent_length rt b _ _ _ _ (by decide)).2 hr⟩
  refine ⟨hD, ?_, hG, ?_, ?_, ?_⟩
  · intro request
    exact ⟨(hD _ request).1, (hD _ request).2 ⟨_, rfl⟩⟩
  · intro Update update request
    exact ⟨(hG Update update _ request).1, (hG Update update _ request).2 ⟨_, rfl⟩⟩
  · rw [GetWebhookInfo_sent]
    exact sendRequest_sent_length rt b _ _ _ _ (by decide)
  · intro request
    refine ⟨SetWebhook_sent_length rt b request, ?_⟩
    intro certificate hcert hreq
    obtain ⟨req, hs, -⟩ := SetWebhook_request rt b request certificate hcert hreq
    rw [hs]
    rfl

/-- C16, witness. `getUpdates` answered with status 429 and a `retry_after` hint has sent
exactly one request. -/
theorem at_most_one_request_witness :
    exampleRuntime.requestError "POST"
        (telegramEndpoint exampleRuntime.host (botAnswering tooManyRequests).Token
          "getUpdates") = none
    ∧ (getUpdates exampleUpdate exampleRuntime (botAnswering tooManyRequests)
        ⟨some 100, none, none, none⟩).sent.length = 1 :=
  ⟨rfl,
    ((at_most_one_request exampleRuntime (botAnswering tooManyRequests)).2.2.2.1
      Int exampleUpdate ⟨some 100, none, none, none⟩).2 rfl⟩

/-! ## C17: the format of the remote-API diagnostic -/

/-- The diagnostic of `DeleteWebhook`, `GetWebhookInfo` and `SetWebhook` is `apiDiagnostic`;
the one of `getUpdates` has two spaces after `Telegram code`. -/
theorem api_error_format (rt : Runtime) (b : Bot) (resp : HTTPResponse) :
    (∀ (request : DeleteWebhookRequest) (env : Envelope Bool),
      Answered (DeleteWebhook rt b request) b resp →
      decodeResponse rt.intBits decodeBool false resp.Body = .ok env →
      (resp.StatusCode ≠ StatusOK ∨ env.Ok = false) →
      (DeleteWebhook rt b request).result
        = .error (.new (apiDiagnostic resp.Status env.ErrorCode env.Description)))
    ∧ (∀ (env : Envelope WebhookInfo),
      Answered (GetWebhookInfo rt b) b resp →
      decodeResponse rt.intBits (WebhookInfo.decode rt.intBits) WebhookInfo.zero resp.Body
        = .ok env →
      (resp.StatusCode ≠ StatusOK ∨ env.Ok = false) →
      (GetWebhookInfo rt b).result
        = .error (.new (apiDiagnostic resp.Status env.ErrorCode env.Description)))
    ∧ (∀ (request : SetWebhookRequest) (env : Response),
      Answered (SetWebhook rt b request) b resp →
      decodeResponse rt.intBits decodeAny none resp.Body = .ok env →
      (resp.StatusCode ≠ StatusOK ∨ env.Ok = false) →
      (SetWebhook rt b request).result
        = .error (.new (apiDiagnostic resp.Status env.ErrorCode env.Description)))
    ∧ (∀ (Update : Type) (update : Codec Update) (request : GetUpdatesRequest)
        (env : Envelope (Option (List Update))),
      Answered (getUpdates update rt b request) b resp →
      decodeResponse rt.intBits (decodeSlice update.decode update.zero "[]telegram.Update")
        none resp.Body = .ok env →
      (resp.StatusCode ≠ StatusOK ∨ env.Ok = false) →
      (getUpdates update rt b request).result
        = .error (.new ("HTTP status " ++ resp.Status ++ ", Telegram code  "
            ++ toString env.ErrorCode ++ ", Telegram API error: " ++ env.Description))) := by
  have hcond : ∀ (ok : Bool), (resp.StatusCode ≠ StatusOK ∨ ok = false) →
      (resp.StatusCode ≠ StatusOK ∨ ¬ ok = true) := by
    intro ok h
    exact h.imp id (by simp)
  refine ⟨?_, ?_, ?_, ?_⟩
  · intro request env h hd hc
    rw [DeleteWebhook_answered h, hd]
    simp only [if_pos (hcond _ hc)]
    rfl
  · intro env h hd hc
    rw [GetWebhookInfo_answered h, hd]
    simp only [if_pos (hcond _ hc)]
    rfl
  · intro request env h hd hc
    rw [SetWebhook_answered h, hd]
    simp only [if_pos (hcond _ hc)]
    rfl
  · intro Update update request env h hd hc
    rw [getUpdates_answered h, hd]
    simp only [if_pos (hcond _ hc)]

/-- The text with two spaces after `Telegram code` is never the text of `apiDiagnostic`. -/
theorem double_space_ne_apiDiagnostic (status : String) (code : Int) (description : String) :
    "HTTP status " ++ status ++ ", Telegram code  " ++ toString code
      ++ ", Telegram API error: " ++ description
    ≠ apiDiagnostic status code description := by
  intro h
  have h2 := congrArg String.length h
  simp only [apiDiagnostic, String.length_append] at h2
  have e1 : ", Telegram code  ".length = 17 := by decide
  have e2 : ", Telegram code ".length = 16 := by decide
  omega

/-- C17, the defect. Answered with status `429 Too Many Requests` and the envelope
`error_code=429, description="Too Many Requests: retry after 5"`, the operations
`DeleteWebhook`, `GetWebhookInfo` and `SetWebhook` return the message `HTTP status 429 Too
Many Requests, Telegram code 429, Telegram API error: Too Many Requests: retry after 5`,
while `getUpdates` returns it with two spaces after `Telegram code`; for no status, code
and description is the text of `getUpdates` the one of the other three. -/
theorem getUpdates_diagnostic_has_two_spaces :
    (DeleteWebhook exampleRuntime (botAnswering tooManyRequests) ⟨false⟩).result
      = .error (.new (apiDiagnostic "429 Too Many Requests" 429
          "Too Many Requests: retry after 5"))
    ∧ (GetWebhookInfo exampleRuntime (botAnswering tooManyRequests)).result
      = .error (.new (apiDiagnostic "429 Too Many Requests" 429
          "Too Many Requests: retry after 5"))
    ∧ (SetWebhook exampleRuntime (botAnswering tooManyRequests)
        ⟨"https://example.com/hook", none, none, none, none, none, none⟩).result
      = .error (.new (apiDiagnostic "429 Too Many Requests" 429
          "Too Many Requests: retry after 5"))
    ∧ (getUpdates exampleUpdate exampleRuntime (botAnswering tooManyRequests)
        ⟨none, none, none, none⟩).result
      = .error (.new ("HTTP status 429 Too Many Requests, Telegram code  429, "
          ++ "Telegram API error: Too Many Requests: retry after 5"))
    ∧ (getUpdates exampleUpdate exampleRuntime (botAnswering tooManyRequests)
        ⟨none, none, none, none⟩).result
      ≠ .error (.new (apiDiagnostic "429 Too Many Requests" 429
          "Too Many Requests: retry after 5"))
    ∧ ∀ (status : String) (code : Int) (description : String),
        "HTTP status " ++ status ++ ", Telegram code  " ++ toString code
          ++ ", Telegram API error: " ++ description
        ≠ apiDiagnostic status code description := by
  refine ⟨by decide, by decide, by decide, by decide, by decide, ?_⟩
  exact double_space_ne_apiDiagnostic

/-! ## C18: the body length fixed by `http.NewRequest` -/

theorem utf8ByteSize_append (a b : String) :
    (a ++ b).utf8ByteSize = a.utf8ByteSize + b.utf8ByteSize := by
  cases a
  cases b
  exact String.utf8Len_append _ _

theorem partsBytes_append (boundary : String) :
    ∀ (first : Bool) (ps qs : List Part),
      partsBytes boundary first (ps ++ qs)
        = partsBytes boundary first ps ++ partsBytes boundary (first && ps.isEmpty) qs
  | first, [], qs => by simp [partsBytes]
  | first, p :: ps, qs => by
    have ih := partsBytes_append boundary false ps qs
    simp only [Bool.false_and] at ih
    rw [List.cons_append, partsBytes, ih, partsBytes]
    simp only [List.isEmpty_cons, Bool.and_false, String.append_assoc]

/-- With a readable certificate (or none), the writer at the call of `http.NewRequest` is
open, has the boundary of the runtime, and holds the parts of the form up to
`drop_pending_updates`. -/
theorem formBeforeRequest_writer (rt : Runtime) (request : SetWebhookRequest)
    (certificate : Option String) (hcert : CertificateIs rt request certificate) :
    ∃ w, SetWebhook.formBeforeRequest rt request = .ok w
      ∧ w.boundary = rt.boundary ∧ w.closed = false
      ∧ w.parts ++ (request.SecretToken.map (fieldPart "secret_token")).toList
        = SetWebhook.specParts request certificate := by
  obtain ⟨url, cp, ip, mc, au, dp, st⟩ := request
  cases certificate with
  | none =>
    simp only [CertificateIs] at hcert
    subst hcert
    cases ip <;> cases mc <;> cases au <;> cases dp <;>
      exact ⟨_, rfl, rfl, rfl, rfl⟩
  | some c =>
    obtain ⟨path, hp, hr⟩ := hcert
    simp only at hp
    subst hp
    cases ip <;> cases mc <;> cases au <;> cases dp <;>
      (apply Exists.intro
       refine And.intro ?_ ?_
       · simp only [SetWebhook.formBeforeRequest, Runtime.Open, hr]; exact rfl
       · exact ⟨rfl, rfl, rfl⟩)

/-- In the request `SetWebhook` sends, the body length fixed by `http.NewRequest` is
smaller than the body: it is the length of the buffer before the field `secret_token` and
the closing boundary are written. -/
theorem SetWebhook_content_length_short (rt : Runtime) (b : Bot) (request : SetWebhookRequest)
    (certificate : Option String) (hcert : CertificateIs rt request certificate)
    (hreq : rt.requestError "POST" (telegramEndpoint rt.host b.Token "setWebhook") = none) :
    ∃ req body, (SetWebhook rt b request).sent = [req] ∧ req.Body = some body
      ∧ req.ContentLength < body.utf8ByteSize := by
  obtain ⟨w, hw, -, hclosed, -⟩ := formBeforeRequest_writer rt request certificate hcert
  have hlen : ∀ r : HTTPRequest,
      (SetWebhook.requestSent request w r).ContentLength = r.ContentLength := by
    intro r
    cases hst : request.SecretToken <;>
      simp [SetWebhook.requestSent, hst, HTTPRequest.setHeader]
  have hbody : ∃ extra : List Part, ∀ r : HTTPRequest,
      (SetWebhook.requestSent request w r).Body
        = some (partsBytes w.boundary true (w.parts ++ extra)
            ++ ("\r\n--" ++ w.boundary ++ "--\r\n")) := by
    cases hst : request.SecretToken with
    | none =>
      refine ⟨[], fun r => ?_⟩
      simp [SetWebhook.requestSent, hst, Writer.Close, Writer.bytes]
    | some token =>
      refine ⟨[fieldPart "secret_token" token], fun r => ?_⟩
      simp [SetWebhook.requestSent, hst, Writer.Close, Writer.bytes, Writer.WriteField,
        fieldPart]
  obtain ⟨extra, hbody⟩ := hbody
  have hbytes : w.bytes = partsBytes w.boundary true w.parts := by
    simp [Writer.bytes, hclosed]
  refine ⟨SetWebhook.requestSent request w
    { Method := "POST", URL := telegramEndpoint rt.host b.Token "setWebhook", Header := [],
      ContentLength := ((some w.bytes).map String.utf8ByteSize).getD 0,
      Body := some w.bytes }, _, ?_, hbody _, ?_⟩
  · unfold SetWebhook
    simp only [hw, NewRequest, requestMethod_POST, hreq]
    cases b.client _ with
    | error e => rfl
    | ok r2 =>
      simp only
      repeat' split
      all_goals rfl
  · rw [hlen]
    simp only [Option.map_some', Option.getD_some, hbytes, partsBytes_append,
      utf8ByteSize_append]
    have hpos : 0 < ("\r\n--" : String).utf8ByteSize := by decide
    omega

/-- C18, the defect. For the request with only `url="https://example.com/hook"`, the
buffer holds 78 bytes when `SetWebhook` calls `http.NewRequest`, which fixes the body length
at 78, and 90 bytes when the request is sent: the closing boundary is written after the
call. With `SecretToken` set as well, the body length is still 78 and the buffer sent
holds 169 bytes: the field `secret_token` is written after the call too. -/
theorem setWebhook_request_created_before_form_complete :
    (SetWebhook.formBeforeRequest exampleRuntime
        ⟨"https://example.com/hook", none, none, none, none, none, none⟩).map Writer.bytes
      = .ok ("--4f1a\r\nContent-Disposition: form-data; name=\"url\"\r\n\r\n"
          ++ "https://example.com/hook")
    ∧ (SetWebhook exampleRuntime (botAnswering noUpdates)
        ⟨"https://example.com/hook", none, none, none, none, none, none⟩).sent.map
        (fun r => (r.ContentLength, r.Body))
      = [(78, some ("--4f1a\r\nContent-Disposition: form-data; name=\"url\"\r\n\r\n"
          ++ "https://example.com/hook\r\n--4f1a--\r\n"))]
    ∧ (SetWebhook exampleRuntime (botAnswering noUpdates)
        ⟨"https://example.com/hook", none, none, none, none, none, none⟩).sent.map
        (fun r => (r.ContentLength, (r.Body.getD "").utf8ByteSize))
      = [(78, 90)]
    ∧ (SetWebhook exampleRuntime (botAnswering noUpdates)
        ⟨"https://example.com/hook", none, none, none, none, none,
          some "s3cr3t-Token_1"⟩).sent.map
        (fun r => (r.ContentLength, (r.Body.getD "").utf8ByteSize))
      = [(78, 169)] := by
  refine ⟨by decide, by decide, by decide, by decide⟩

end Telebot
